import Mathlib

/-!
# Session token transport of supertokens-golang

A shallow embedding of `recipe/session/cookieAndHeaders.go` and of the parts of
the Go standard library it calls (`net/http` headers and cookies, `net/textproto`,
`net/url`, `strings`, `time`), followed by theorems about the embedded functions.

Go strings are byte sequences; a response or request header set is the Go map
`map[string][]string`, read here as a function from raw map keys to value lists
(an absent key and a key with no values read alike through every accessor the
code uses).
-/

set_option maxRecDepth 8000
set_option maxHeartbeats 1000000

namespace Supertokens

/-! ## Bytes and strings -/

/-- A Go `byte`. -/
abbrev Byte := Fin 256

/-- A Go `string`: an immutable sequence of bytes. -/
abbrev GoString := List Byte

/-- The byte of an ASCII character. -/
def ch (c : Char) : Byte := Fin.ofNat c.toNat

/-- The Go string of an ASCII literal. -/
def str (s : String) : GoString := s.toList.map ch

def isUpperAZ (c : Byte) : Bool := 65 ≤ c.val && c.val ≤ 90

def isLowerAZ (c : Byte) : Bool := 97 ≤ c.val && c.val ≤ 122

def isDigit09 (c : Byte) : Bool := 48 ≤ c.val && c.val ≤ 57

/-- The ASCII lower-case form of a byte (`c += 'a' - 'A'` on `'A'..'Z'`). -/
def asciiLower (c : Byte) : Byte := if isUpperAZ c then c + 32 else c

/-- The ASCII upper-case form of a byte (`c -= 'a' - 'A'` on `'a'..'z'`). -/
def asciiUpper (c : Byte) : Byte := if isLowerAZ c then c - 32 else c

/-- Go `strings.ToLower`. A string of ASCII bytes is lower-cased byte by byte;
for a string with a byte at or above `utf8.RuneSelf` Go maps `unicode.ToLower`
over its runes, and that case table is the parameter `uni`. -/
def ToLower (uni : GoString → GoString) (s : GoString) : GoString :=
  if s.all (fun c => c.val < 128) then s.map asciiLower else uni s

/-- Go `strings.HasPrefix`. -/
def HasPrefix (s pre : GoString) : Bool := pre.isPrefixOf s

/-! ## `net/textproto` and `net/http` headers -/

/-- The bytes of an RFC 7230 token (`validHeaderFieldByte` of `net/textproto`,
`httpguts.IsTokenRune` on a byte): letters, digits and
``!#$%&'*+-.^_`|~``. -/
def isTokenByte (c : Byte) : Bool :=
  isUpperAZ c || isLowerAZ c || isDigit09 c ||
    c ∈ str "!#$%&*+-.^_|~" || c.val = 39 || c.val = 96

/-- The loop of `canonicalMIMEHeaderKey`: upper case at the start and after
each dash, lower case elsewhere. -/
def canonLoop (upper : Bool) : GoString → GoString
  | [] => []
  | c :: cs =>
    let c1 := if upper then asciiUpper c else asciiLower c
    c1 :: canonLoop (c1 = ch '-') cs

/-- Go `textproto.CanonicalMIMEHeaderKey`: a key with a byte that is no token
byte (a space included) is returned as it is. -/
def CanonicalMIMEHeaderKey (s : GoString) : GoString :=
  if s.all isTokenByte then canonLoop true s else s

/-- Go `http.Header`, the map `map[string][]string`, by raw key. -/
abbrev Header := GoString → List GoString

namespace Header

/-- A header set without any key. -/
def empty : Header := fun _ => []

/-- Go `Header.Values`. -/
def Values (h : Header) (key : GoString) : List GoString :=
  h (CanonicalMIMEHeaderKey key)

/-- Go `Header.Get`: the first value of the key, `""` without one. -/
def Get (h : Header) (key : GoString) : GoString :=
  match h (CanonicalMIMEHeaderKey key) with
  | [] => []
  | v :: _ => v

/-- Go `Header.Set`. -/
def Set (h : Header) (key value : GoString) : Header :=
  Function.update h (CanonicalMIMEHeaderKey key) [value]

/-- Go `Header.Add`. -/
def Add (h : Header) (key value : GoString) : Header :=
  Function.update h (CanonicalMIMEHeaderKey key) (h (CanonicalMIMEHeaderKey key) ++ [value])

/-- Go `Header.Del`. -/
def Del (h : Header) (key : GoString) : Header :=
  Function.update h (CanonicalMIMEHeaderKey key) []

end Header

/-! ## `strings`, `net/textproto` and `net/url` -/

/-- The bytes `textproto.TrimString` removes (`isASCIISpace`). -/
def isASCIISpace (b : Byte) : Bool :=
  b = ch ' ' || b.val = 9 || b.val = 10 || b.val = 13

/-- Go `textproto.TrimString`: leading and trailing ASCII space is removed. -/
def TrimString (s : GoString) : GoString :=
  (s.dropWhile isASCIISpace).rdropWhile isASCIISpace

/-- Go `strings.Split` for a separator of one byte: the pieces between the
separators, one (empty) piece for the empty string. -/
def Split : GoString → Byte → List GoString
  | [], _ => [[]]
  | c :: cs, sep =>
    if c = sep then [] :: Split cs sep
    else
      match Split cs sep with
      | [] => [[c]]
      | p :: ps => (c :: p) :: ps

/-- The scan of `strings.ReplaceAll`: `skip` bytes of a matched occurrence are
still to be passed over. -/
def replaceFrom (old new : GoString) : Nat → GoString → GoString
  | _, [] => []
  | skip + 1, _ :: cs => replaceFrom old new skip cs
  | 0, c :: cs =>
    if old.isPrefixOf (c :: cs) then new ++ replaceFrom old new (old.length - 1) cs
    else c :: replaceFrom old new 0 cs

/-- Go `strings.ReplaceAll` for a non-empty `old`: the non-overlapping
occurrences of `old`, found from the left, are replaced by `new`. -/
def ReplaceAll (s old new : GoString) : GoString := replaceFrom old new 0 s

/-- The ASCII white space of `strings.TrimSpace`: tab, line feed, vertical tab,
form feed, carriage return and space. -/
def isSpace1 (a : Byte) : Bool := (9 ≤ a.val && a.val ≤ 13) || a.val = 32

/-- The two-byte UTF-8 encodings of white space: U+0085 and U+00A0. -/
def isSpace2 (a b : Byte) : Bool := a.val = 194 && (b.val = 133 || b.val = 160)

/-- The three-byte UTF-8 encodings of white space: U+1680, U+2000 to U+200A,
U+2028, U+2029, U+202F, U+205F and U+3000. -/
def isSpace3 (a b c : Byte) : Bool :=
  (a.val = 225 && b.val = 154 && c.val = 128) ||
  (a.val = 226 && b.val = 128 &&
    ((128 ≤ c.val && c.val ≤ 138) || c.val = 168 || c.val = 169 || c.val = 175)) ||
  (a.val = 226 && b.val = 129 && c.val = 159) ||
  (a.val = 227 && b.val = 128 && c.val = 128)

/-- Leading white-space runes (`unicode.IsSpace`) are removed. -/
def trimLeftSpace : GoString → GoString
  | [] => []
  | a :: rest =>
    if isSpace1 a then trimLeftSpace rest
    else
      match rest with
      | [] => [a]
      | b :: rest2 =>
        if isSpace2 a b then trimLeftSpace rest2
        else
          match rest2 with
          | [] => [a, b]
          | c :: rest3 =>
            if isSpace3 a b c then trimLeftSpace rest3 else a :: b :: c :: rest3

/-- Trailing white-space runes are removed; the argument is the string read
from its end. -/
def trimRightSpaceRev : GoString → GoString
  | [] => []
  | a :: rest =>
    if isSpace1 a then trimRightSpaceRev rest
    else
      match rest with
      | [] => [a]
      | b :: rest2 =>
        if isSpace2 b a then trimRightSpaceRev rest2
        else
          match rest2 with
          | [] => [a, b]
          | c :: rest3 =>
            if isSpace3 c b a then trimRightSpaceRev rest3 else a :: b :: c :: rest3

/-- Go `strings.TrimSpace`: leading and trailing Unicode white space is
removed. -/
def TrimSpace (s : GoString) : GoString :=
  (trimRightSpaceRev (trimLeftSpace s).reverse).reverse

/-- The function `shouldEscape` of `net/url` in mode `encodeQueryComponent`:
only letters, digits and `-_.~` are left as they are. -/
def shouldEscape (c : Byte) : Bool :=
  !(isLowerAZ c || isUpperAZ c || isDigit09 c || c ∈ str "-_.~")

/-- The digit `"0123456789ABCDEF"[n]` of `net/url`. -/
def upperhex (n : Nat) : Byte :=
  if n < 10 then Fin.ofNat (48 + n) else Fin.ofNat (55 + n)

/-- Go `url.QueryEscape`. -/
def QueryEscape (s : GoString) : GoString :=
  s.flatMap (fun c =>
    if shouldEscape c then
      if c = ch ' ' then [ch '+'] else [ch '%', upperhex (c.val / 16), upperhex (c.val % 16)]
    else [c])

/-- The function `ishex` of `net/url`. -/
def ishex (c : Byte) : Bool :=
  isDigit09 c || (97 ≤ c.val && c.val ≤ 102) || (65 ≤ c.val && c.val ≤ 70)

/-- The function `unhex` of `net/url`. -/
def unhex (c : Byte) : Nat :=
  if isDigit09 c then c.val - 48
  else if 97 ≤ c.val && c.val ≤ 102 then c.val - 97 + 10
  else if 65 ≤ c.val && c.val ≤ 70 then c.val - 65 + 10
  else 0

/-- Go `url.QueryUnescape`, `none` for its `EscapeError`: `%` must be followed
by two hexadecimal digits, `+` reads as a space. -/
def QueryUnescape : GoString → Option GoString
  | [] => some []
  | c :: cs =>
    if c = ch '%' then
      match cs with
      | a :: b :: rest =>
        if ishex a && ishex b then
          (QueryUnescape rest).map (fun t => (Fin.ofNat (unhex a * 16 + unhex b) : Byte) :: t)
        else none
      | _ => none
    else if c = ch '+' then (QueryUnescape cs).map (fun t => ch ' ' :: t)
    else (QueryUnescape cs).map (fun t => c :: t)

/-! ## `time`: the format of `http.TimeFormat` -/

/-- The decimal digits of `n`, at least `width` of them (`appendInt` of
package `time`). -/
def appendInt (n width : Nat) : GoString :=
  let ds := (Nat.toDigits 10 n).map ch
  List.replicate (width - ds.length) (ch '0') ++ ds

def dayNames : List GoString :=
  [str "Sun", str "Mon", str "Tue", str "Wed", str "Thu", str "Fri", str "Sat"]

def monthNames : List GoString :=
  [str "Jan", str "Feb", str "Mar", str "Apr", str "May", str "Jun",
   str "Jul", str "Aug", str "Sep", str "Oct", str "Nov", str "Dec"]

/-- The civil date (year, month 1..12, day 1..31) in UTC of the day that is
`days` days after 1970-01-01, in the proleptic Gregorian calendar. -/
def civilFromDays (days : Int) : Int × Nat × Nat :=
  let z := days + 719468
  let era := z / 146097
  let doe := (z % 146097).toNat
  let yoe := (doe - doe / 1460 + doe / 36524 - doe / 146096) / 365
  let doy := doe - (365 * yoe + yoe / 4 - yoe / 100)
  let mp := (5 * doy + 2) / 153
  let d := doy - (153 * mp + 2) / 5 + 1
  let m := if mp < 10 then mp + 3 else mp - 9
  let y := (yoe : Int) + era * 400 + (if m ≤ 2 then 1 else 0)
  (y, m, d)

/-- The year in UTC of the instant `unix` seconds after the Unix epoch. -/
def yearOf (unix : Int) : Int := (civilFromDays (unix / 86400)).1

/-- Go `t.UTC().Format(http.TimeFormat)`, the layout
`"Mon, 02 Jan 2006 15:04:05 GMT"`, for the instant `unix` seconds after the
Unix epoch (of a year from 0 on). -/
def formatHTTPTime (unix : Int) : GoString :=
  let days := unix / 86400
  let secs := (unix % 86400).toNat
  let (y, m, d) := civilFromDays days
  let wd := ((days + 4) % 7).toNat
  dayNames.getD wd [] ++ str ", " ++ appendInt d 2 ++ str " " ++
    monthNames.getD (m - 1) [] ++ str " " ++ appendInt y.toNat 4 ++ str " " ++
    appendInt (secs / 3600) 2 ++ str ":" ++ appendInt (secs / 60 % 60) 2 ++ str ":" ++
    appendInt (secs % 60) 2 ++ str " GMT"

/-! ## `net/http`: cookies -/

/-- Go `http.SameSite`, an `int`. -/
abbrev SameSite := Int

def SameSiteDefaultMode : SameSite := 1
def SameSiteLaxMode : SameSite := 2
def SameSiteStrictMode : SameSite := 3
def SameSiteNoneMode : SameSite := 4

/-- Go `http.Cookie`, the fields `Cookie.String` writes. `Expires` is the
instant in seconds after the Unix epoch; the zero `time.Time` is
`-62135596800`. -/
structure Cookie where
  Name : GoString
  Value : GoString
  Path : GoString := []
  Domain : GoString := []
  Expires : Int := -62135596800
  MaxAge : Int := 0
  Secure : Bool := false
  HttpOnly : Bool := false
  SameSite : SameSite := 0

/-- The function `isCookieNameValid` of `net/http`: a non-empty token. -/
def isCookieNameValid (raw : GoString) : Bool :=
  raw ≠ [] && raw.all isTokenByte

def validCookieValueByte (b : Byte) : Bool :=
  32 ≤ b.val && b.val < 127 && b ≠ ch '"' && b ≠ ch ';' && b.val ≠ 92

def validCookiePathByte (b : Byte) : Bool :=
  32 ≤ b.val && b.val < 127 && b ≠ ch ';'

/-- The function `sanitizeCookieValue` of `net/http`: invalid bytes are
dropped, a value with a space or a comma is put between double quotes. -/
def sanitizeCookieValue (v : GoString) : GoString :=
  let v := v.filter validCookieValueByte
  if v = [] then v
  else if v.any (fun b => b = ch ' ' || b = ch ',') then ch '"' :: v ++ [ch '"']
  else v

/-- The function `sanitizeCookiePath` of `net/http`. -/
def sanitizeCookiePath (v : GoString) : GoString := v.filter validCookiePathByte

/-- The state of the loop of `isCookieDomainName`: the byte before, whether a
letter was seen, the length of the label so far, and whether the name is
still acceptable. -/
structure DomainScan where
  last : Byte
  ok : Bool
  partlen : Nat
  good : Bool

def domainStep (st : DomainScan) (c : Byte) : DomainScan :=
  if !st.good then st
  else if isLowerAZ c || isUpperAZ c then
    { st with ok := true, partlen := st.partlen + 1, last := c }
  else if isDigit09 c then
    { st with partlen := st.partlen + 1, last := c }
  else if c = ch '-' then
    if st.last = ch '.' then { st with good := false }
    else { st with partlen := st.partlen + 1, last := c }
  else if c = ch '.' then
    if st.last = ch '.' || st.last = ch '-' then { st with good := false }
    else if st.partlen > 63 || st.partlen = 0 then { st with good := false }
    else { st with partlen := 0, last := c }
  else { st with good := false }

/-- The function `isCookieDomainName` of `net/http`. -/
def isCookieDomainName (s : GoString) : Bool :=
  if s.length = 0 then false
  else if s.length > 255 then false
  else
    let s := if s.head? = some (ch '.') then s.drop 1 else s
    let st := s.foldl domainStep { last := ch '.', ok := false, partlen := 0, good := true }
    if !st.good then false
    else if st.last = ch '-' || st.partlen > 63 then false
    else st.ok

/-- One field of a dotted-decimal IPv4 address: decimal digits without a
leading zero, of a value up to 255. -/
def isIPv4Field (f : GoString) : Bool :=
  f ≠ [] && f.all isDigit09 && f.length ≤ 3 &&
    (f.foldl (fun n c => 10 * n + (c.val - 48)) 0 ≤ 255) &&
    !(f.length > 1 && f.head? = some (ch '0'))

/-- The domains for which `net.ParseIP(v) != nil && !strings.Contains(v, ":")`:
the dotted-decimal IPv4 addresses (as Go parses them from version 1.17 on). -/
def isIPv4 (v : GoString) : Bool :=
  let fs := Split v (ch '.')
  fs.length = 4 && fs.all isIPv4Field

/-- The function `validCookieDomain` of `net/http`. -/
def validCookieDomain (v : GoString) : Bool := isCookieDomainName v || isIPv4 v

/-- The function `validCookieExpires` of `net/http`: the year is not before
1601. (Go takes the year in the location of the time; the instants the session
code builds are not before 1970 in any location.) -/
def validCookieExpires (unix : Int) : Bool := 1601 ≤ yearOf unix

/-- The attributes `(*http.Cookie).String` writes after `name=value`, each led
by `"; "`. -/
def Cookie.attributes (c : Cookie) : GoString :=
  (if c.Path.length > 0 then str "; Path=" ++ sanitizeCookiePath c.Path else []) ++
  (if c.Domain.length > 0 && validCookieDomain c.Domain then
    str "; Domain=" ++ (if c.Domain.head? = some (ch '.') then c.Domain.drop 1 else c.Domain)
   else []) ++
  (if validCookieExpires c.Expires then str "; Expires=" ++ formatHTTPTime c.Expires else []) ++
  (if c.MaxAge > 0 then str "; Max-Age=" ++ appendInt c.MaxAge.toNat 1
   else if c.MaxAge < 0 then str "; Max-Age=0" else []) ++
  (if c.HttpOnly then str "; HttpOnly" else []) ++
  (if c.Secure then str "; Secure" else []) ++
  (if c.SameSite = SameSiteNoneMode then str "; SameSite=None"
   else if c.SameSite = SameSiteLaxMode then str "; SameSite=Lax"
   else if c.SameSite = SameSiteStrictMode then str "; SameSite=Strict"
   else [])

/-- Go `(*http.Cookie).String`: the text of the `Set-Cookie` header, empty for
an invalid cookie name. -/
def Cookie.String (c : Cookie) : GoString :=
  if !isCookieNameValid c.Name then []
  else c.Name ++ [ch '='] ++ sanitizeCookieValue c.Value ++ c.attributes

/-- Go `http.Request`: its header set. -/
structure Request where
  Header : Header

/-- The function `parseCookieValue` of `net/http`: surrounding double quotes
are removed, and a value with an invalid byte is refused. -/
def parseCookieValue (raw : GoString) (allowDoubleQuote : Bool) : Option GoString :=
  let raw :=
    if allowDoubleQuote && raw.length > 1 && raw.head? = some (ch '"') &&
        raw.getLast? = some (ch '"') then (raw.drop 1).dropLast
    else raw
  if raw.all validCookieValueByte then some raw else none

/-- One `name=value` part of a `Cookie` header line, as the loop of
`readCookies` reads it; `none` for a part it passes over. -/
def readCookiePart (part : GoString) : Option (GoString × GoString) :=
  let part := TrimString part
  if part = [] then none
  else
    let name := TrimString (part.takeWhile (fun b => b ≠ ch '='))
    let val := (part.dropWhile (fun b => b ≠ ch '=')).drop 1
    if !isCookieNameValid name then none
    else (parseCookieValue val true).map (fun v => (name, v))

/-- The cookie name `net/http` reads from one `Set-Cookie` line
(`ParseSetCookie`, and RFC 6265, section 5.2): the text before the first `=`
of the part before the first `;`, with white space trimmed; `none` for a line
without `=` or with an invalid name. -/
def setCookieLineName (line : GoString) : Option GoString :=
  let parts := Split (TrimString line) (ch ';')
  let first := TrimString (parts.headD [])
  if ch '=' ∉ first then none
  else
    let name := TrimString (first.takeWhile (fun b => b ≠ ch '='))
    if !isCookieNameValid name then none else some name

/-- Go `(*http.Request).Cookies`, name and value of each cookie: the function
`readCookies` of `net/http` with an empty filter, over the values of the raw
key `Cookie`. -/
def Request.Cookies (r : Request) : List (GoString × GoString) :=
  (r.Header (str "Cookie")).flatMap
    (fun line => (Split (TrimString line) (ch ';')).filterMap readCookiePart)

/-! ## `encoding/json` and `encoding/base64` -/

/-- The digit `"0123456789abcdef"[n]` of `encoding/json`. -/
def lowerhex (n : Nat) : Byte :=
  if n < 10 then Fin.ofNat (48 + n) else Fin.ofNat (87 + n)

/-- The table `htmlSafeSet` of `encoding/json`: the ASCII bytes from space on
that are written as they are, all but `"`, `&`, `<`, `>` and the backslash. -/
def htmlSafe (b : Byte) : Bool :=
  32 ≤ b.val && b.val < 128 && b ≠ ch '"' && b ≠ ch '&' && b ≠ ch '<' && b ≠ ch '>' &&
    b.val ≠ 92

/-- A UTF-8 continuation byte. -/
def isCont (b : Byte) : Bool := 128 ≤ b.val && b.val ≤ 191

/-- The size that `utf8.DecodeRuneInString` gives for the multi-byte rune at
the start of the string, 0 when the bytes there are no valid encoding (Go
gives `RuneError` with size 1). -/
def runeSize : GoString → Nat
  | a :: b :: rest =>
    if 194 ≤ a.val && a.val ≤ 223 && isCont b then 2
    else
      match rest with
      | c :: rest2 =>
        if isCont c &&
            ((a.val = 224 && 160 ≤ b.val && b.val ≤ 191) ||
             (225 ≤ a.val && a.val ≤ 236 && isCont b) ||
             (a.val = 237 && 128 ≤ b.val && b.val ≤ 159) ||
             (238 ≤ a.val && a.val ≤ 239 && isCont b)) then 3
        else
          match rest2 with
          | d :: _ =>
            if isCont c && isCont d &&
                ((a.val = 240 && 144 ≤ b.val && b.val ≤ 191) ||
                 (241 ≤ a.val && a.val ≤ 243 && isCont b) ||
                 (a.val = 244 && 128 ≤ b.val && b.val ≤ 143)) then 4
            else 0
          | [] => 0
      | [] => 0
  | _ => 0

/-- What `appendString` of `encoding/json` (with HTML escaping) writes for one
ASCII byte. -/
def jsonEscapeByte (b : Byte) : GoString :=
  if htmlSafe b then [b]
  else if b.val = 92 || b = ch '"' then [Fin.ofNat 92, b]
  else if b.val = 8 then str "\\b"
  else if b.val = 12 then str "\\f"
  else if b.val = 10 then str "\\n"
  else if b.val = 13 then str "\\r"
  else if b.val = 9 then str "\\t"
  else str "\\u00" ++ [lowerhex (b.val / 16), lowerhex (b.val % 16)]

/-- The loop of `appendString` of `encoding/json`; every step passes at least
one byte, so a fuel of the length of the string is enough. -/
def appendStringBody : Nat → GoString → GoString
  | 0, _ => []
  | _ + 1, [] => []
  | fuel + 1, b :: rest =>
    if b.val < 128 then jsonEscapeByte b ++ appendStringBody fuel rest
    else
      let n := runeSize (b :: rest)
      if n = 0 then str "\\ufffd" ++ appendStringBody fuel rest
      else if (b :: rest).take 3 = [226, 128, 168] then
        str "\\u2028" ++ appendStringBody fuel (rest.drop 2)
      else if (b :: rest).take 3 = [226, 128, 169] then
        str "\\u2029" ++ appendStringBody fuel (rest.drop 2)
      else (b :: rest).take n ++ appendStringBody fuel (rest.drop (n - 1))

/-- The JSON text `json.Marshal` writes for a Go string (Go 1.22 and later):
between double quotes, with the escapes of `appendString`, invalid UTF-8
replaced by the escape of U+FFFD. -/
def jsonString (s : GoString) : GoString :=
  ch '"' :: appendStringBody s.length s ++ [ch '"']

/-- The decimal digits of an unsigned integer (`strconv.AppendUint`). -/
def formatUint (n : Nat) : GoString := (Nat.toDigits 10 n).map ch

/-- The alphabet of `base64.StdEncoding`. -/
def encodeStd : GoString :=
  str "ABCDEFGHIJKLMNOPQRSTUVWXYZabcdefghijklmnopqrstuvwxyz0123456789+/"

/-- The character of a six-bit value. -/
def b64char (n : Nat) : Byte := encodeStd.getD n (ch 'A')

/-- Go `base64.StdEncoding.EncodeToString`. -/
def base64Encode : GoString → GoString
  | [] => []
  | [a] => [b64char (a.val / 4), b64char (a.val % 4 * 16), ch '=', ch '=']
  | [a, b] =>
    [b64char (a.val / 4), b64char (a.val % 4 * 16 + b.val / 16), b64char (b.val % 16 * 4),
      ch '=']
  | a :: b :: c :: rest =>
    b64char (a.val / 4) :: b64char (a.val % 4 * 16 + b.val / 16) ::
      b64char (b.val % 16 * 4 + c.val / 64) :: b64char (c.val % 64) :: base64Encode rest

/-- The six-bit value of a character of the alphabet. -/
def b64val (c : Byte) : Option Nat :=
  let i := encodeStd.indexOf c
  if i < 64 then some i else none

/-- The quanta of `base64.StdEncoding.DecodeString`: four characters give three
bytes; the last quantum may end in `=` (two bytes) or `==` (one byte). -/
def base64DecodeQuads : GoString → Option GoString
  | [] => some []
  | a :: b :: c :: d :: rest =>
    match b64val a, b64val b with
    | some va, some vb =>
      if rest = [] ∧ c = ch '=' ∧ d = ch '=' then
        some [(Fin.ofNat (va * 4 + vb / 16) : Byte)]
      else
        match b64val c with
        | some vc =>
          if rest = [] ∧ d = ch '=' then
            some [(Fin.ofNat (va * 4 + vb / 16) : Byte), Fin.ofNat (vb % 16 * 16 + vc / 4)]
          else
            match b64val d with
            | some vd =>
              (base64DecodeQuads rest).map (fun t =>
                (Fin.ofNat (va * 4 + vb / 16) : Byte) :: Fin.ofNat (vb % 16 * 16 + vc / 4) ::
                  Fin.ofNat (vc % 4 * 64 + vd) :: t)
            | none => none
        | none => none
    | _, _ => none
  | _ => none

/-- Go `base64.StdEncoding.DecodeString`, `none` for its error: carriage
returns and line feeds are passed over. -/
def base64Decode (s : GoString) : Option GoString :=
  base64DecodeQuads (s.filter (fun b => b.val ≠ 13 && b.val ≠ 10))

/-! ## Constants of `cookieAndHeaders.go` -/

def authorizationHeaderKey : GoString := str "authorization"
def accessTokenCookieKey : GoString := str "sAccessToken"
def accessTokenHeaderKey : GoString := str "st-access-token"
def refreshTokenCookieKey : GoString := str "sRefreshToken"
def refreshTokenHeaderKey : GoString := str "st-refresh-token"
def antiCsrfHeaderKey : GoString := str "anti-csrf"
def frontTokenHeaderKey : GoString := str "front-token"
def ridHeaderKey : GoString := str "rid"
def authModeHeaderKey : GoString := str "st-auth-mode"

/-! ## Package `sessmodels` and the normalised configuration -/

/-- Go `error` values: the message. -/
abbrev GoError := GoString

/-- Modelled from the spec: the type `sessmodels.TokenType`, a Go string type
whose declaration is not among the sources. The spec's enum of token types is
its two constants; any other string is an unknown token type. -/
abbrev TokenType := GoString

/-- Modelled from the spec: the constant `sessmodels.AccessToken`. -/
def AccessToken : TokenType := str "access"

/-- Modelled from the spec: the constant `sessmodels.RefreshToken`. -/
def RefreshToken : TokenType := str "refresh"

/-- Modelled from the spec: the type `sessmodels.TokenTransferMethod`, a Go
string type whose declaration is not among the sources; the spec names its
values `cookie` and `header`. -/
abbrev TokenTransferMethod := GoString

/-- Modelled from the spec: the constant `sessmodels.CookieTransferMethod`. -/
def CookieTransferMethod : TokenTransferMethod := str "cookie"

/-- Modelled from the spec: the constant `sessmodels.HeaderTransferMethod`. -/
def HeaderTransferMethod : TokenTransferMethod := str "header"

/-- Modelled from the spec: the normalised path type of the configuration,
read through `GetAsStringDangerous`. -/
structure NormalisedURLPath where
  value : GoString

def NormalisedURLPath.GetAsStringDangerous (p : NormalisedURLPath) : GoString := p.value

/-- Modelled from the spec: the fields of `sessmodels.TypeNormalisedInput` that
`setCookie` reads: cookie domain (optional), secure flag, same-site policy and
refresh-token path. -/
structure TypeNormalisedInput where
  CookieDomain : Option GoString
  CookieSecure : Bool
  CookieSameSite : GoString
  RefreshTokenPath : NormalisedURLPath

/-- The variable `availableTokenTransferMethods` of `constants.go`. -/
def availableTokenTransferMethods : List TokenTransferMethod :=
  [CookieTransferMethod, HeaderTransferMethod]

/-- The Go conversion `int64(n)` of an unsigned 64-bit value. -/
def int64 (n : Nat) : Int :=
  if n % 2 ^ 64 < 2 ^ 63 then (n % 2 ^ 64 : Nat) else (n % 2 ^ 64 : Nat) - 2 ^ 64

/-! ## `cookieAndHeaders.go` -/

/-- The function `setHeader` of `cookieAndHeaders.go`. -/
def setHeader (uni : GoString → GoString) (res : Header) (key value : GoString)
    (allowDuplicateKey : Bool) : Header :=
  let existingValue := res.Get (ToLower uni key)
  if existingValue = [] then
    res.Set key value
  else if allowDuplicateKey then
    res.Set key (existingValue ++ str ", " ++ value)
  else
    res.Set key value

/-- The function `getCookieName` of `cookieAndHeaders.go`. -/
def getCookieName (cookie : GoString) : GoString :=
  let parts := Split (TrimString cookie) (ch ';')
  if parts.length = 1 ∧ parts.head? = some [] then []
  else
    let kv := Split (TrimString (parts.headD [])) (ch '=')
    if kv.length = 0 then [] else kv.headD []

/-- The statement `m[k] = v` on a Go map kept as the list of its entries. -/
def mapSet (m : List (GoString × GoString)) (k v : GoString) : List (GoString × GoString) :=
  match m with
  | [] => [(k, v)]
  | (k1, v1) :: rest => if k1 = k then (k, v) :: rest else (k1, v1) :: mapSet rest k v

/-- An order in which one `range` statement visits the entries of a Go map:
the language leaves it unspecified, so every rearrangement is one. -/
structure MapOrder where
  arrange : List (GoString × GoString) → List (GoString × GoString)
  perm : ∀ m, (arrange m).Perm m

/-- The order that visits the entries as they were inserted. -/
def MapOrder.insertion : MapOrder := ⟨fun m => m, fun m => List.Perm.refl m⟩

/-- The order that visits the entries last inserted first. -/
def MapOrder.reversed : MapOrder := ⟨fun m => m.reverse, fun m => List.reverse_perm m⟩

/-- The map `existingCookies` of `setCookieValue` after the new cookie is put
into it. -/
def existingCookies (cookieHeader : List GoString) (cookie : GoString) :
    List (GoString × GoString) :=
  mapSet (cookieHeader.foldl (fun m c => mapSet m (getCookieName c) c) [])
    (getCookieName cookie) cookie

/-- The function `setCookieValue` of `cookieAndHeaders.go`; `o` is the order in
which its last loop ranges over the map. -/
def setCookieValue (o : MapOrder) (w : Header) (cookie : Cookie) : Header :=
  let cookieHeader := w.Values (str "Set-Cookie")
  if cookieHeader.length = 0 then
    w.Set (str "Set-Cookie") cookie.String
  else
    (o.arrange (existingCookies cookieHeader cookie.String)).foldl
      (fun w ck => w.Add (str "Set-Cookie") ck.2) (w.Del (str "Set-Cookie"))

/-- The value of the variable `cookie` that `setCookie` builds from the
configuration and its arguments. -/
def sessionCookie (config : TypeNormalisedInput) (name value : GoString) (expires : Nat)
    (pathType : GoString) : Cookie :=
  let domain := match config.CookieDomain with
    | some d => d
    | none => []
  let secure := config.CookieSecure
  let sameSite := config.CookieSameSite
  let path :=
    if pathType = str "refreshTokenPath" then config.RefreshTokenPath.GetAsStringDangerous
    else if pathType = str "accessTokenPath" then str "/"
    else []
  let sameSiteField :=
    if sameSite = str "lax" then SameSiteLaxMode
    else if sameSite = str "strict" then SameSiteStrictMode
    else SameSiteNoneMode
  let httpOnly := true
  { Name := name
    Value := QueryEscape value
    Domain := domain
    Secure := secure
    HttpOnly := httpOnly
    Expires := int64 (expires / 1000)
    Path := path
    SameSite := sameSiteField }

/-- The function `setCookie` of `cookieAndHeaders.go`: the cookie is built and
handed to `setCookieValue`. -/
def setCookie (o : MapOrder) (config : TypeNormalisedInput) (res : Header)
    (name value : GoString) (expires : Nat) (pathType : GoString) : Header :=
  setCookieValue o res (sessionCookie config name value expires pathType)

def getCookieNameFromTokenType (tokenType : TokenType) : Except GoError GoString :=
  if tokenType = AccessToken then .ok accessTokenCookieKey
  else if tokenType = RefreshToken then .ok refreshTokenCookieKey
  else .error (str "Unknown token type, should never happen.")

def getResponseHeaderNameForTokenType (tokenType : TokenType) : Except GoError GoString :=
  if tokenType = AccessToken then .ok accessTokenHeaderKey
  else if tokenType = RefreshToken then .ok refreshTokenHeaderKey
  else .error (str "Unknown token type, should never happen.")

/-- The function `getHeader` of `cookieAndHeaders.go`; `none` is Go's `nil`. -/
def getHeader (request : Request) (key : GoString) : Option GoString :=
  let value := request.Header.Get key
  if value = [] then none else some value

/-- The function `getCookieValue` of `cookieAndHeaders.go`. -/
def getCookieValue (request : Request) (key : GoString) : Option GoString :=
  let cookies := request.Cookies
  if cookies.length = 0 then none
  else
    match cookies.find? (fun cookie => cookie.1 = key) with
    | some cookie => QueryUnescape cookie.2
    | none => none

/-- The function `getToken` of `cookieAndHeaders.go`: the token (`none` for a
`nil` pointer) or the error. -/
def getToken (req : Request) (tokenType : TokenType) (transferMethod : TokenTransferMethod) :
    Except GoError (Option GoString) :=
  if transferMethod = CookieTransferMethod then
    match getCookieNameFromTokenType tokenType with
    | .error err => .error err
    | .ok cookieName => .ok (getCookieValue req cookieName)
  else if transferMethod = HeaderTransferMethod then
    match getHeader req authorizationHeaderKey with
    | none => .ok none
    | some headerValue =>
      if !HasPrefix headerValue (str "Bearer ") then .ok none
      else .ok (some (TrimSpace (ReplaceAll headerValue (str "Bearer ") (str ""))))
  else .error (str "Should never happen")

/-- The function `setToken` of `cookieAndHeaders.go`: the response after the
call and the error returned (`none` for `nil`). -/
def setToken (uni : GoString → GoString) (o : MapOrder) (config : TypeNormalisedInput)
    (res : Header) (tokenType : TokenType) (value : GoString) (expires : Nat)
    (transferMethod : TokenTransferMethod) : Header × Option GoError :=
  if transferMethod = CookieTransferMethod then
    match getCookieNameFromTokenType tokenType with
    | .error err => (res, some err)
    | .ok cookieName =>
      let pathType :=
        if tokenType = AccessToken then str "accessTokenPath"
        else if tokenType = RefreshToken then str "refreshTokenPath"
        else []
      (setCookie o config res cookieName value expires pathType, none)
  else if transferMethod = HeaderTransferMethod then
    match getResponseHeaderNameForTokenType tokenType with
    | .error err => (res, some err)
    | .ok headerName =>
      let res := setHeader uni res headerName value false
      (setHeader uni res (str "Access-Control-Expose-Headers") headerName true, none)
  else (res, none)

/-- The loop of `clearSession` over the token types; `ord` gives the map order
of the `setToken` call of each token type. -/
def clearSessionTokens (uni : GoString → GoString) (ord : TokenType → MapOrder)
    (config : TypeNormalisedInput) (transferMethod : TokenTransferMethod) :
    List TokenType → Header → Header × Option GoError
  | [], res => (res, none)
  | tokenType :: rest, res =>
    match setToken uni (ord tokenType) config res tokenType [] 0 transferMethod with
    | (res, some err) => (res, some err)
    | (res, none) => clearSessionTokens uni ord config transferMethod rest res

/-- The function `clearSession` of `cookieAndHeaders.go`. -/
def clearSession (uni : GoString → GoString) (ord : TokenType → MapOrder)
    (config : TypeNormalisedInput) (res : Header) (transferMethod : TokenTransferMethod) :
    Header × Option GoError :=
  match clearSessionTokens uni ord config transferMethod [AccessToken, RefreshToken] res with
  | (res, some err) => (res, some err)
  | (res, none) =>
    let res := res.Del antiCsrfHeaderKey
    let res := setHeader uni res frontTokenHeaderKey (str "remove") false
    (setHeader uni res (str "Access-Control-Expose-Headers") frontTokenHeaderKey true, none)

/-- The loop of `clearSessionFromAllTokenTransferMethods` over the transfer
methods. -/
def clearSessionMethods (uni : GoString → GoString)
    (ord : TokenTransferMethod → TokenType → MapOrder) (config : TypeNormalisedInput) :
    List TokenTransferMethod → Header → Header × Option GoError
  | [], res => (res, none)
  | transferMethod :: rest, res =>
    match clearSession uni (ord transferMethod) config res transferMethod with
    | (res, some err) => (res, some err)
    | (res, none) => clearSessionMethods uni ord config rest res

/-- The function `clearSessionFromAllTokenTransferMethods` of
`cookieAndHeaders.go`; `ord` gives the map order of the cookie write of each
transfer method and token type. -/
def clearSessionFromAllTokenTransferMethods (uni : GoString → GoString)
    (ord : TokenTransferMethod → TokenType → MapOrder) (config : TypeNormalisedInput)
    (_req : Request) (res : Header) : Header × Option GoError :=
  clearSessionMethods uni ord config availableTokenTransferMethods res

/-- The value a request carries for a cookie staged as the `Set-Cookie` entry
`entry`: its `name=value` pair, the text before the first `;`. -/
def cookiePair (entry : GoString) : GoString := entry.takeWhile (fun b => b ≠ ch ';')

/-- The request a client sends back after a response: each staged cookie
returns as a `name=value` pair of the `Cookie` header (RFC 6265, section
5.4). -/
def requestCarrying (res : Header) : Request :=
  ⟨Function.update Header.empty (str "Cookie")
    [(res.Values (str "Set-Cookie")).map cookiePair |>.intersperse (str "; ") |>.flatten]⟩

/-- The function `getAntiCsrfTokenFromHeaders` of `cookieAndHeaders.go`. -/
def getAntiCsrfTokenFromHeaders (req : Request) : Option GoString :=
  getHeader req antiCsrfHeaderKey

/-- The function `setAntiCsrfTokenInHeaders` of `cookieAndHeaders.go`. -/
def setAntiCsrfTokenInHeaders (uni : GoString → GoString) (res : Header)
    (antiCsrfToken : GoString) : Header :=
  let res := setHeader uni res antiCsrfHeaderKey antiCsrfToken false
  setHeader uni res (str "Access-Control-Expose-Headers") antiCsrfHeaderKey true

/-- The function `getCORSAllowedHeaders` of `cookieAndHeaders.go`. -/
def getCORSAllowedHeaders : List GoString :=
  [antiCsrfHeaderKey, ridHeaderKey, authorizationHeaderKey, authModeHeaderKey]

/-- The function `getAuthmodeFromHeader` of `cookieAndHeaders.go`; `none` is
Go's `nil`. -/
def getAuthmodeFromHeader (uni : GoString → GoString) (req : Request) :
    Option TokenTransferMethod :=
  match getHeader req authModeHeaderKey with
  | none => none
  | some val => some (ToLower uni val)

/-- The request a client sends with the header `key` of a response: it holds
the values the response holds under that key. -/
def requestWithHeaderOf (res : Header) (key : GoString) : Request :=
  ⟨Function.update Header.empty (CanonicalMIMEHeaderKey key) (res.Values key)⟩

/-- The type `TokenInfo` of `cookieAndHeaders.go`; `Ate` is unsigned 64-bit,
`Up` any Go value. -/
structure TokenInfo (Payload : Type) where
  Uid : GoString
  Ate : Nat
  Up : Payload

/-- Go `json.Marshal` of a `TokenInfo`: the fields `uid`, `ate`, `up` in the
order of the struct. The text of the value of `Up` is what `json.Marshal`
gives for it, the parameter `marshal` (`none` for a value Go cannot marshal,
which makes the whole call fail). -/
def TokenInfo.Marshal {Payload : Type} (marshal : Payload → Option GoString)
    (t : TokenInfo Payload) : Option GoString :=
  match marshal t.Up with
  | none => none
  | some up =>
    some (str "\x7b\"uid\":" ++ jsonString t.Uid ++ str ",\"ate\":" ++ formatUint t.Ate ++
      str ",\"up\":" ++ up ++ str "\x7d")

/-- The function `setFrontTokenInHeaders` of `cookieAndHeaders.go`. The error
of `json.Marshal` is dropped: `parsed` is then empty. -/
def setFrontTokenInHeaders {Payload : Type} (uni : GoString → GoString)
    (marshal : Payload → Option GoString) (res : Header) (userId : GoString) (atExpiry : Nat)
    (jwtPayload : Payload) : Header :=
  let tokenInfo : TokenInfo Payload := { Uid := userId, Ate := atExpiry, Up := jwtPayload }
  let parsed := match tokenInfo.Marshal marshal with
    | some text => text
    | none => []
  let data := parsed
  let res := setHeader uni res frontTokenHeaderKey (base64Encode data) false
  setHeader uni res (str "Access-Control-Expose-Headers") frontTokenHeaderKey true

/-! ## Go values and calls that may panic -/

/-- The values of Go's `interface{}` that JSON decoding and the claims code
produce, by dynamic type: the nil interface, `bool`, `int64`, `float64` (by its
IEEE 754 bits), `string`, `[]interface{}` (nil or not) and
`map[string]interface{}` (nil or not, as the list of its entries). -/
inductive Value where
  | null
  | bool (b : Bool)
  | int64 (n : Int)
  | float64 (bits : Nat)
  | string (s : GoString)
  | nilSlice
  | slice (items : List Value)
  | nilMap
  | mapOf (entries : List (GoString × Value))

/-- A Go map `map[string]interface{}`, as the list of its entries; a key is
read at its first entry. A nil map reads, and is deleted from, as the map
without entries; a function that assigns into its map argument takes it as an
`Option GoMap`, with `none` for the nil map. -/
abbrev GoMap := List (GoString × Value)

/-- The read `m[key]` with its `ok`: `none` when the key is absent. -/
def GoMap.get (m : GoMap) (key : GoString) : Option Value :=
  match m.find? (fun e => e.1 = key) with
  | some e => some e.2
  | none => none

/-- The statement `m[key] = value`. -/
def GoMap.put (m : GoMap) (key : GoString) (value : Value) : GoMap :=
  (key, value) :: m.filter (fun e => e.1 ≠ key)

/-- The statement `delete(m, key)`. -/
def GoMap.delete (m : GoMap) (key : GoString) : GoMap :=
  m.filter (fun e => e.1 ≠ key)

/-- The outcome of a Go call that may panic. -/
inductive Outcome (α : Type) where
  | returns (value : α)
  | panics (message : GoString)

/-- The wrap-around of a signed 64-bit result. -/
def wrapInt64 (x : Int) : Int := (x + 2 ^ 63) % 2 ^ 64 - 2 ^ 63

/-! ## `recipe/dashboard/recipeimplementation.go` -/

/-- Modelled from the spec: the field of `dashboardmodels.TypeNormalisedInput`
that `shouldAllowAccess` reads; the type is not among the sources. -/
structure DashboardConfig where
  ApiKey : GoString

/-- The closure `shouldAllowAccess` of `makeRecipeImplementation`: what it
returns, or the panic. `SendPostRequest` is the call to the core through the
querier (path and JSON body to the response map or the error), and
`ValidateApiKey` the function of package `validationUtils`; neither is among
the sources. -/
def shouldAllowAccess
    (SendPostRequest : GoString → GoMap → Except GoError GoMap)
    (ValidateApiKey : Request → DashboardConfig → Except GoError Bool)
    (req : Request) (config : DashboardConfig) : Outcome (Bool × Option GoError) :=
  if config.ApiKey = [] then
    let authHeaderValue := req.Header.Get (str "authorization")
    let keyParts := Split authHeaderValue (ch ' ')
    match keyParts.get? (keyParts.length - 1) with
    | none => .panics (str "index out of range")
    | some authHeaderValue =>
      match SendPostRequest (str "/recipe/dashboard/session/verify")
          [(str "sessionId", .string authHeaderValue)] with
      | .error err => .returns (false, some err)
      | .ok verifyResponse =>
        match verifyResponse.get (str "status") with
        | none => .returns (false, none)
        | some (.string status) => .returns (decide (status = str "OK"), none)
        | some _ => .panics (str "interface conversion: interface is not string")
  else
    match ValidateApiKey req config with
    | .error err => .returns (false, some err)
    | .ok validateKeyResponse => .returns (validateKeyResponse, none)

/-! ## `recipe/session/claims/primitiveArrayClaim.go` -/

/-- Modelled from the spec: the helper `assertCondition` of package `claims`,
which is not among the sources: an assertion, taken to panic with its message
when the condition is false. -/
def assertCondition (condition : Bool) (message : GoString) : Outcome Unit :=
  if condition then .returns () else .panics message

/-- The type `ClaimValidationResult` of package `claims`. -/
structure ClaimValidationResult where
  IsValid : Bool
  Reason : Option GoMap := none

/-- `GetValueFromPayload` of `PrimitiveArrayClaim(key, _)`. -/
def GetValueFromPayload (key : GoString) (payload : GoMap) : Value :=
  match payload.get key with
  | some (.mapOf value) =>
    match GoMap.get value (str "v") with
    | some v => v
    | none => .null
  | some .nilMap => .null
  | _ => .null

/-- `GetLastRefetchTime` of `PrimitiveArrayClaim(key, _)`: the pointer (`none`
for `nil`), or the panic of the assertion `value["t"].(int64)`. -/
def GetLastRefetchTime (key : GoString) (payload : GoMap) : Outcome (Option Int) :=
  match payload.get key with
  | some (.mapOf value) =>
    match GoMap.get value (str "t") with
    | some (.int64 t) => .returns (some t)
    | _ => .panics (str "interface conversion: interface is not int64")
  | some .nilMap => .panics (str "interface conversion: interface is not int64")
  | _ => .returns none

/-- Whether a value can be a key of a `map[interface{}]bool`: slices and maps
cannot, and using one panics. -/
def Value.hashable : Value → Bool
  | .nilSlice => false
  | .slice _ => false
  | .nilMap => false
  | .mapOf _ => false
  | _ => true

/-- A float64 that is not a number, by its bits. -/
def isNaNBits (bits : Nat) : Bool :=
  bits / 2 ^ 52 % 2 ^ 11 = 2 ^ 11 - 1 && bits % 2 ^ 52 ≠ 0

/-- Equality of two hashable interface values as map keys: the same dynamic
type and equal values; a NaN equals nothing, the two zeros are equal. -/
def Value.keyEq : Value → Value → Bool
  | .null, .null => true
  | .bool a, .bool b => a = b
  | .int64 a, .int64 b => a = b
  | .float64 a, .float64 b =>
    !isNaNBits a && !isNaNBits b && (a = b || (a % 2 ^ 63 = 0 && b % 2 ^ 63 = 0))
  | .string a, .string b => a = b
  | _, _ => false

/-- The loop `for _, v := range vals { valsMap[v] = true }`: the keys of the
map, or the panic at a key that cannot be hashed. -/
def buildValsMap : List Value → Outcome (List Value)
  | [] => .returns []
  | v :: rest =>
    if v.hashable then
      match buildValsMap rest with
      | .returns m => .returns (v :: m)
      | .panics message => .panics message
    else .panics (str "runtime error: hash of unhashable type")

/-- The read `valsMap[v]`. -/
def valsMapGet (valsMap : List Value) (v : Value) : Outcome Bool :=
  if v.hashable then .returns (valsMap.any (fun k => k.keyEq v))
  else .panics (str "runtime error: hash of unhashable type")

/-- The loop of `IncludesAll.Validate` over `claimVal`: the final `isValid`. -/
def includesAllLoop (valsMap : List Value) : List Value → Outcome Bool
  | [] => .returns true
  | v :: rest =>
    match valsMapGet valsMap v with
    | .panics message => .panics message
    | .returns found => if !found then .returns false else includesAllLoop valsMap rest

/-- The function `Validate` of the validator that `IncludesAll(vals,
maxAgeInSeconds, id)` of `PrimitiveArrayClaim(key, _)` returns; `now` is
`time.Now().Unix()`. -/
def IncludesAll_Validate (key : GoString) (vals : List Value) (maxAgeInSeconds : Option Int)
    (now : Int) (payload : GoMap) : Outcome ClaimValidationResult :=
  let value := GetValueFromPayload key payload
  let checked : Outcome (Option (List Value)) :=
    match value with
    | .slice items => .returns (some items)
    | .nilSlice => .returns none
    | _ =>
      match assertCondition false (str "claim value not an array") with
      | .panics message => .panics message
      | .returns _ => .returns none
  match checked with
  | .panics message => .panics message
  | .returns none =>
    .returns { IsValid := false,
               Reason := some [(str "message", .string (str "value does not exist")),
                               (str "expectedToInclude", .slice vals),
                               (str "actualValue", .nilSlice)] }
  | .returns (some claimVal) =>
    match GetLastRefetchTime key payload with
    | .panics message => .panics message
    | .returns none => .panics (str "runtime error: invalid memory address or nil pointer dereference")
    | .returns (some t) =>
      let ageInSeconds := wrapInt64 (now - t)
      let expired := match maxAgeInSeconds with
        | some maxAge => decide (ageInSeconds > maxAge)
        | none => false
      if expired then
        .returns { IsValid := false,
                   Reason := some [(str "message", .string (str "expired")),
                                   (str "ageInSeconds", .int64 ageInSeconds),
                                   (str "maxAgeInSeconds", .int64 (maxAgeInSeconds.getD 0))] }
      else
        match buildValsMap vals with
        | .panics message => .panics message
        | .returns valsMap =>
          match includesAllLoop valsMap claimVal with
          | .panics message => .panics message
          | .returns isValid =>
            if !isValid then
              .returns { IsValid := false,
                         Reason := some [(str "message", .string (str "wrong value")),
                                         (str "expectedToInclude", .slice vals),
                                         (str "actualValue", .slice claimVal)] }
            else .returns { IsValid := true }

/-- `AddToPayload_internal` of `PrimitiveArrayClaim(key, _)`: the payload
after the call, or the panic, of the assertion that the value is an array or
of the assignment `payload[key] = ...` into a nil map (`none`); `now` is
`time.Now().Unix()`. -/
def AddToPayload_internal (key : GoString) (now : Int) (payload : Option GoMap)
    (value : Value) : Outcome GoMap :=
  let ok := match value with
    | .slice _ => true
    | .nilSlice => true
    | _ => false
  match assertCondition ok (str "value not an array") with
  | .panics message => .panics message
  | .returns _ =>
    match payload with
    | none => .panics (str "assignment to entry in nil map")
    | some entries =>
      .returns (entries.put key (.mapOf [(str "v", value), (str "t", .int64 now)]))

/-- `RemoveFromPayloadByMerge_internal` of `PrimitiveArrayClaim(key, _)`: the
payload after the call, or the panic of the assignment into a nil map
(`none`). -/
def RemoveFromPayloadByMerge_internal (key : GoString) (payload : Option GoMap) :
    Outcome GoMap :=
  match payload with
  | none => .panics (str "assignment to entry in nil map")
  | some entries => .returns (entries.put key .null)

/-- `RemoveFromPayload` of `PrimitiveArrayClaim(key, _)`; `delete` on a nil
map does nothing, as on the map without entries. -/
def RemoveFromPayload (key : GoString) (payload : GoMap) : GoMap :=
  payload.delete key

/-- The function `ShouldRefetch` of the validator that `Includes(val,
maxAgeInSeconds, id)` returns; `now` is `time.Now().Unix()`. -/
def Includes_ShouldRefetch (key : GoString) (_val : Value) (maxAgeInSeconds : Option Int)
    (now : Int) (payload : GoMap) : Outcome Bool :=
  match GetValueFromPayload key payload with
  | .mapOf claimVal =>
    match maxAgeInSeconds with
    | some maxAge =>
      match GoMap.get claimVal (str "t") with
      | some (.int64 t) => .returns (decide (t < wrapInt64 (now - maxAge)))
      | _ => .panics (str "interface conversion: interface is not int64")
    | none => .returns false
  | _ => .returns true

/-- The function `ShouldRefetch` of the validator that `Excludes(val,
maxAgeInSeconds, id)` returns. -/
def Excludes_ShouldRefetch (key : GoString) (_val : Value) (maxAgeInSeconds : Option Int)
    (now : Int) (payload : GoMap) : Outcome Bool :=
  match GetValueFromPayload key payload with
  | .mapOf val =>
    match maxAgeInSeconds with
    | some maxAge =>
      match GoMap.get val (str "t") with
      | some (.int64 t) => .returns (decide (t < wrapInt64 (now - maxAge)))
      | _ => .panics (str "interface conversion: interface is not int64")
    | none => .returns false
  | _ => .returns true

/-- The function `ShouldRefetch` of the validator that `IncludesAll(vals,
maxAgeInSeconds, id)` returns. -/
def IncludesAll_ShouldRefetch (key : GoString) (_vals : List Value)
    (maxAgeInSeconds : Option Int) (now : Int) (payload : GoMap) : Outcome Bool :=
  match GetValueFromPayload key payload with
  | .mapOf val =>
    match maxAgeInSeconds with
    | some maxAge =>
      match GoMap.get val (str "t") with
      | some (.int64 t) => .returns (decide (t < wrapInt64 (now - maxAge)))
      | _ => .panics (str "interface conversion: interface is not int64")
    | none => .returns false
  | _ => .returns true

/-- The function `ShouldRefetch` of the validator that `ExcludesAll(vals,
maxAgeInSeconds, id)` returns. -/
def ExcludesAll_ShouldRefetch (key : GoString) (_vals : List Value)
    (maxAgeInSeconds : Option Int) (now : Int) (payload : GoMap) : Outcome Bool :=
  match GetValueFromPayload key payload with
  | .mapOf val =>
    match maxAgeInSeconds with
    | some maxAge =>
      match GoMap.get val (str "t") with
      | some (.int64 t) => .returns (decide (t < wrapInt64 (now - maxAge)))
      | _ => .panics (str "interface conversion: interface is not int64")
    | none => .returns false
  | _ => .returns true

/-! ## Vocabulary of the statements about staged cookies -/

/-- The `Set-Cookie` entries of a response whose cookie name, as
`getCookieName` reads it, is `n`. -/
def entriesNamed (w : Header) (n : GoString) : List GoString :=
  (w.Values (str "Set-Cookie")).filter (fun e => getCookieName e = n)

/-- The last entry of a list of `Set-Cookie` entries with the cookie name `n`. -/
def lastNamed : List GoString → GoString → Option GoString
  | [], _ => none
  | e :: es, n =>
    match lastNamed es n with
    | some e1 => some e1
    | none => if getCookieName e = n then some e else none

/-- A byte that passes unchanged through a cookie value and its reading: valid
there, and neither white space, comma, semicolon, equals sign nor double
quote. -/
def cookieSafeByte (b : Byte) : Bool :=
  validCookieValueByte b && !isASCIISpace b && b ≠ ch ' ' && b ≠ ch ',' && b ≠ ch ';' &&
    b ≠ ch '=' && b ≠ ch '"'

/-- A sequence of calls of `setCookieValue`, each with its map order. -/
def writeCookies (ws : List (MapOrder × Cookie)) (w : Header) : Header :=
  ws.foldl (fun w p => setCookieValue p.1 w p.2) w

/-- The last cookie a sequence of calls writes under the name `n`. -/
def lastWritten (ws : List (MapOrder × Cookie)) (n : GoString) : Option Cookie :=
  (ws.reverse.find? (fun p => p.2.Name = n)).map (fun p => p.2)

/-! ## Headers: canonical keys and `setHeader` -/

theorem asciiUpper_asciiLower : ∀ c : Byte, asciiUpper (asciiLower c) = asciiUpper c := by
  decide

theorem asciiLower_asciiLower : ∀ c : Byte, asciiLower (asciiLower c) = asciiLower c := by
  decide

theorem isTokenByte_asciiLower :
    ∀ c : Byte, isTokenByte c = true → isTokenByte (asciiLower c) = true := by
  decide

theorem isTokenByte_lt : ∀ c : Byte, isTokenByte c = true → c.val < 128 := by
  decide

theorem canonLoop_map_asciiLower (s : GoString) :
    ∀ u, canonLoop u (s.map asciiLower) = canonLoop u s := by
  induction s with
  | nil => intro u; rfl
  | cons c cs ih =>
    intro u
    cases u <;> simp [canonLoop, asciiUpper_asciiLower, asciiLower_asciiLower, ih]

/-- A key made of token bytes and its lower-case form have the same canonical
header key. -/
theorem canonical_toLower_of_token (uni : GoString → GoString) (s : GoString)
    (h : s.all isTokenByte = true) :
    CanonicalMIMEHeaderKey (ToLower uni s) = CanonicalMIMEHeaderKey s := by
  have hlt : s.all (fun c => decide (c.val < 128)) = true := by
    rw [List.all_eq_true] at h ⊢
    intro c hc
    simpa using isTokenByte_lt c (h c hc)
  have htok : (s.map asciiLower).all isTokenByte = true := by
    rw [List.all_eq_true] at h ⊢
    intro c hc
    obtain ⟨d, hd, rfl⟩ := List.mem_map.1 hc
    exact isTokenByte_asciiLower d (h d hd)
  simp only [ToLower, hlt, if_true, CanonicalMIMEHeaderKey, htok, h, canonLoop_map_asciiLower]

/-- Whatever it finds, `setHeader` sets the key to one value. -/
theorem setHeader_eq_Set (uni : GoString → GoString) (res : Header) (k v : GoString)
    (dup : Bool) :
    setHeader uni res k v dup = res.Set k v ∨
      setHeader uni res k v dup = res.Set k (res.Get (ToLower uni k) ++ str ", " ++ v) := by
  by_cases h : res.Get (ToLower uni k) = [] <;> cases dup <;> simp [setHeader, h]

theorem setHeader_false (uni : GoString → GoString) (res : Header) (k v : GoString) :
    setHeader uni res k v false = res.Set k v := by
  by_cases h : res.Get (ToLower uni k) = [] <;> simp [setHeader, h]

/-- A call of `setHeader` leaves the other keys of the map as they were. -/
theorem setHeader_other (uni : GoString → GoString) (res : Header) (k v : GoString)
    (dup : Bool) (key : GoString) (hkey : key ≠ CanonicalMIMEHeaderKey k) :
    setHeader uni res k v dup key = res key := by
  rcases setHeader_eq_Set uni res k v dup with h | h <;>
    rw [h] <;> exact Function.update_noteq hkey _ _

theorem Header.Del_other (res : Header) (k key : GoString)
    (hkey : key ≠ CanonicalMIMEHeaderKey k) : res.Del k key = res key :=
  Function.update_noteq hkey _ _

/-! ## C7 and C8: `setHeader` -/

/-- C8: with `allowDuplicateKey = false`, `setHeader` leaves the key holding
exactly the one value `v`, whatever it held before, and leaves every other key
of the header map unchanged. -/
theorem setHeader_overwrites (uni : GoString → GoString) (res : Header) (k v : GoString) :
    (setHeader uni res k v false).Values k = [v] ∧
    (setHeader uni res k v false).Get k = v ∧
    ∀ key, key ≠ CanonicalMIMEHeaderKey k → setHeader uni res k v false key = res key := by
  rw [setHeader_false]
  refine ⟨?_, ?_, ?_⟩
  · simp [Header.Values, Header.Set]
  · simp [Header.Get, Header.Set]
  · intro key hkey
    exact Function.update_noteq hkey _ _

/-- C7 (amended): for a key whose lower-case form has the same canonical header
key as the key itself (every key of token bytes is one), unset in the response,
and a non-empty first value, two calls of `setHeader` with
`allowDuplicateKey = true` leave the key equal to `first + ", " + second`. -/
theorem setHeader_twice_appends (uni : GoString → GoString) (res : Header)
    (k first second : GoString)
    (hk : CanonicalMIMEHeaderKey (ToLower uni k) = CanonicalMIMEHeaderKey k)
    (hunset : res.Values k = [])
    (hfirst : first ≠ []) :
    (setHeader uni (setHeader uni res k first true) k second true).Get k
      = first ++ str ", " ++ second := by
  have h0 : res.Get (ToLower uni k) = [] := by
    unfold Header.Get
    unfold Header.Values at hunset
    rw [hk, hunset]
  have h1 : setHeader uni res k first true = res.Set k first := by
    unfold setHeader
    simp only [h0, if_true]
  have h2 : (res.Set k first).Get (ToLower uni k) = first := by
    unfold Header.Get Header.Set
    rw [hk, Function.update_same]
  rw [h1]
  unfold setHeader
  simp only [h2, if_neg hfirst, if_true]
  unfold Header.Get Header.Set
  rw [Function.update_same]

/-- C7, at a concrete input: two exposed header names accumulate. -/
theorem setHeader_twice_appends_witness :
    (setHeader id (setHeader id Header.empty (str "Access-Control-Expose-Headers")
        (str "front-token") true) (str "Access-Control-Expose-Headers")
        (str "anti-csrf") true).Get (str "Access-Control-Expose-Headers")
      = str "front-token, anti-csrf" :=
  setHeader_twice_appends id Header.empty (str "Access-Control-Expose-Headers")
    (str "front-token") (str "anti-csrf") (by decide) (by rfl) (by decide)

/-- C7 as stated fails: with an empty first value the key ends as `second`, not
`", " + second`; and for the key `X y` (not a token, so not canonicalised, while
the lookup lower-cases it) the second call does not see the first value. -/
theorem setHeader_twice_appends_counterexample :
    Header.empty.Values (str "k") = [] ∧
    (setHeader id (setHeader id Header.empty (str "k") (str "") true)
        (str "k") (str "x") true).Get (str "k") = str "x" ∧
    str "x" ≠ str "" ++ str ", " ++ str "x" ∧
    Header.empty.Values (str "X y") = [] ∧
    (setHeader id (setHeader id Header.empty (str "X y") (str "a") true)
        (str "X y") (str "b") true).Get (str "X y") = str "b" ∧
    str "b" ≠ str "a" ++ str ", " ++ str "b" := by
  refine ⟨by rfl, by decide, by decide, by rfl, by decide, by decide⟩

/-! ## C5, C6, C9 and C10: `getToken` and `setToken` -/

/-- C5: `getToken` removes every `"Bearer "` of the header value, not only the
leading one: for the authorization header `Bearer aBearer b` it returns `ab`,
while the token after the prefix is `aBearer b`. -/
theorem getToken_header_removes_inner_bearer :
    getToken ⟨Function.update Header.empty (str "Authorization") [str "Bearer aBearer b"]⟩
        AccessToken HeaderTransferMethod = .ok (some (str "ab")) ∧
    str "Bearer aBearer b" = str "Bearer " ++ str "aBearer b" ∧
    str "ab" ≠ str "aBearer b" := by
  refine ⟨by rfl, by decide, by decide⟩

/-- C6: under the Header method, when the authorization header is absent,
empty, or does not start with `"Bearer "`, `getToken` returns no token and no
error, for every token type. -/
theorem getToken_header_without_bearer (req : Request) (tokenType : TokenType)
    (h : req.Header.Values authorizationHeaderKey = [] ∨
         req.Header.Get authorizationHeaderKey = [] ∨
         HasPrefix (req.Header.Get authorizationHeaderKey) (str "Bearer ") = false) :
    getToken req tokenType HeaderTransferMethod = .ok none := by
  have hne : HeaderTransferMethod ≠ CookieTransferMethod := by decide
  unfold getToken
  rw [if_neg hne, if_pos rfl]
  by_cases hv : req.Header.Get authorizationHeaderKey = []
  · simp [getHeader, hv]
  · have hp : HasPrefix (req.Header.Get authorizationHeaderKey) (str "Bearer ") = false := by
      rcases h with h | h | h
      · exfalso
        apply hv
        unfold Header.Get
        unfold Header.Values at h
        rw [h]
      · exact absurd h hv
      · exact h
    simp [getHeader, hv, hp]

/-- C6, at a concrete input: a `Basic` authorization header is not a token. -/
theorem getToken_header_without_bearer_witness :
    getToken ⟨Function.update Header.empty (str "Authorization") [str "Basic dXNlcjpwdw=="]⟩
        RefreshToken HeaderTransferMethod = .ok none :=
  getToken_header_without_bearer _ _ (Or.inr (Or.inr (by decide)))

/-- C9 (amended): under the Cookie and the Header transfer method, `setToken`
with a token type that is neither AccessToken nor RefreshToken returns the
unknown-token-type error, and leaves the response as it was. -/
theorem setToken_unknown_tokenType (uni : GoString → GoString) (o : MapOrder)
    (config : TypeNormalisedInput) (res : Header) (tokenType : TokenType) (value : GoString)
    (expires : Nat) (transferMethod : TokenTransferMethod)
    (hm : transferMethod = CookieTransferMethod ∨ transferMethod = HeaderTransferMethod)
    (ha : tokenType ≠ AccessToken) (hr : tokenType ≠ RefreshToken) :
    setToken uni o config res tokenType value expires transferMethod
      = (res, some (str "Unknown token type, should never happen.")) := by
  have hne : HeaderTransferMethod ≠ CookieTransferMethod := by decide
  rcases hm with hm | hm
  · subst hm
    simp [setToken, getCookieNameFromTokenType, ha, hr]
  · subst hm
    simp [setToken, getResponseHeaderNameForTokenType, ha, hr, hne]

/-- C9, at a concrete input: the token type `id` under the Header method. -/
theorem setToken_unknown_tokenType_witness :
    setToken id MapOrder.insertion ⟨none, false, str "lax", ⟨str "/refresh"⟩⟩ Header.empty
        (str "id") (str "v") 0 HeaderTransferMethod
      = (Header.empty, some (str "Unknown token type, should never happen.")) :=
  setToken_unknown_tokenType id MapOrder.insertion _ Header.empty (str "id") (str "v") 0
    HeaderTransferMethod (Or.inr rfl) (by decide) (by decide)

/-- C9 as stated fails: with a transfer method that is neither Cookie nor
Header (here `any`), `setToken` with the unknown token type `id` returns no
error. -/
theorem setToken_unknown_tokenType_counterexample :
    str "id" ≠ AccessToken ∧ str "id" ≠ RefreshToken ∧
    (setToken id MapOrder.insertion ⟨none, false, str "lax", ⟨str "/refresh"⟩⟩ Header.empty
        (str "id") (str "v") 0 (str "any")).2 = none := by
  refine ⟨by decide, by decide, by decide⟩

/-- C10: with a transfer method other than Cookie or Header, `getToken` returns
an error and no token; with the Cookie method it returns an error exactly when
the token type is neither AccessToken nor RefreshToken. -/
theorem getToken_error_cases (req : Request) (tokenType : TokenType) :
    (∀ transferMethod, transferMethod ≠ CookieTransferMethod →
        transferMethod ≠ HeaderTransferMethod →
        getToken req tokenType transferMethod = .error (str "Should never happen")) ∧
    ((∃ err, getToken req tokenType CookieTransferMethod = .error err) ↔
        (tokenType ≠ AccessToken ∧ tokenType ≠ RefreshToken)) := by
  constructor
  · intro transferMethod hc hh
    simp [getToken, hc, hh]
  · by_cases ha : tokenType = AccessToken
    · subst ha
      simp [getToken, getCookieNameFromTokenType]
    · by_cases hr : tokenType = RefreshToken
      · subst hr
        simp [getToken, getCookieNameFromTokenType, ha]
      · simp [getToken, getCookieNameFromTokenType, ha, hr]


/-! ## Cookie names: `getCookieName` on a serialised cookie -/

theorem Split_ne_nil (s : GoString) (sep : Byte) : Split s sep ≠ [] := by
  cases s with
  | nil => simp [Split]
  | cons c cs =>
    unfold Split
    split
    · simp
    · split <;> simp

theorem Split_headD (s : GoString) (sep : Byte) :
    (Split s sep).headD [] = s.takeWhile (fun b => b ≠ sep) := by
  induction s with
  | nil => simp [Split]
  | cons c cs ih =>
    unfold Split
    by_cases h : c = sep
    · simp [h]
    · rw [if_neg h]
      cases hs : Split cs sep with
      | nil => exact absurd hs (Split_ne_nil cs sep)
      | cons p ps =>
        rw [hs] at ih
        have ih1 : p = cs.takeWhile (fun b => b ≠ sep) := ih
        simp [h, ih1]

theorem getCookieName_eq (s : GoString) :
    getCookieName s =
      (TrimString ((TrimString s).takeWhile (fun b => b ≠ ch ';'))).takeWhile
        (fun b => b ≠ ch '=') := by
  unfold getCookieName
  simp only []
  split
  · rename_i h
    have h1 := Split_headD (TrimString s) (ch ';')
    cases hs : Split (TrimString s) (ch ';') with
    | nil => exact absurd hs (Split_ne_nil _ _)
    | cons p ps =>
      rw [hs] at h h1
      have hp : p = [] := by simpa using h.2
      have h1a : p = (TrimString s).takeWhile (fun b => b ≠ ch ';') := h1
      rw [← h1a, hp]
      rfl
  · have hk := Split_ne_nil (TrimString ((Split (TrimString s) (ch ';')).headD [])) (ch '=')
    have hl : (Split (TrimString ((Split (TrimString s) (ch ';')).headD [])) (ch '=')).length ≠ 0 := by
      simpa using hk
    rw [if_neg hl, Split_headD, Split_headD]

theorem dropWhile_append_cons_of_neg {p : Byte → Bool} {x : Byte} (hx : p x = false)
    (a b : GoString) : (a ++ x :: b).dropWhile p = a.dropWhile p ++ x :: b := by
  induction a with
  | nil => simp [List.dropWhile, hx]
  | cons y ys ih =>
    by_cases hy : p y = true
    · simp [List.dropWhile, hy, ih]
    · simp [List.dropWhile, hy]

theorem rdropWhile_append_cons_of_neg {p : Byte → Bool} {x : Byte} (hx : p x = false)
    (a b : GoString) : (a ++ x :: b).rdropWhile p = a ++ x :: b.rdropWhile p := by
  unfold List.rdropWhile
  have : (a ++ x :: b).reverse = b.reverse ++ x :: a.reverse := by simp
  rw [this, dropWhile_append_cons_of_neg hx]
  simp

theorem takeWhile_append_of_all {p : Byte → Bool} (a b : GoString)
    (h : ∀ x ∈ a, p x = true) : (a ++ b).takeWhile p = a ++ b.takeWhile p := by
  induction a with
  | nil => rfl
  | cons y ys ih =>
    have hy := h y (List.mem_cons_self _ _)
    simp [List.takeWhile, hy, ih (fun x hx => h x (List.mem_cons_of_mem _ hx))]

theorem token_facts : ∀ b : Byte, isTokenByte b = true →
    isASCIISpace b = false ∧ b ≠ ch ';' ∧ b ≠ ch '=' := by
  decide


theorem isCookieNameValid_iff (name : GoString) :
    isCookieNameValid name = true ↔ name ≠ [] ∧ ∀ b ∈ name, isTokenByte b = true := by
  simp [isCookieNameValid, List.all_eq_true]

theorem TrimString_name_cons (name rest : GoString) (h : isCookieNameValid name = true) :
    TrimString (name ++ ch '=' :: rest) = name ++ ch '=' :: rest.rdropWhile isASCIISpace := by
  obtain ⟨hne, htok⟩ := (isCookieNameValid_iff name).1 h
  unfold TrimString
  cases name with
  | nil => exact absurd rfl hne
  | cons b bs =>
    have hb : isASCIISpace b = false := (token_facts b (htok b (List.mem_cons_self _ _))).1
    have hd : ((b :: bs) ++ ch '=' :: rest).dropWhile isASCIISpace
        = (b :: bs) ++ ch '=' :: rest := by
      simp [List.dropWhile, hb]
    rw [hd]
    exact rdropWhile_append_cons_of_neg (by decide) _ _

/-- The cookie name `getCookieName` reads off a `Set-Cookie` text that starts
with a valid cookie name and `=` is that name. -/
theorem getCookieName_name_cons (name rest : GoString) (h : isCookieNameValid name = true) :
    getCookieName (name ++ ch '=' :: rest) = name := by
  obtain ⟨_, htok⟩ := (isCookieNameValid_iff name).1 h
  have hsemi : ∀ x ∈ name, (fun b => decide (b ≠ ch ';')) x = true := by
    intro x hx
    simpa using (token_facts x (htok x hx)).2.1
  have heq : ∀ x ∈ name, (fun b => decide (b ≠ ch '=')) x = true := by
    intro x hx
    simpa using (token_facts x (htok x hx)).2.2
  rw [getCookieName_eq, TrimString_name_cons name rest h,
    takeWhile_append_of_all _ _ hsemi]
  have h2 : (ch '=' :: rest.rdropWhile isASCIISpace).takeWhile (fun b => decide (b ≠ ch ';'))
      = ch '=' :: (rest.rdropWhile isASCIISpace).takeWhile (fun b => decide (b ≠ ch ';')) := by
    rw [List.takeWhile_cons_of_pos (by decide)]
  rw [h2, TrimString_name_cons name _ h, takeWhile_append_of_all _ _ heq]
  rw [List.takeWhile_cons_of_neg (by decide)]
  simp

theorem Cookie.String_eq (c : Cookie) (h : isCookieNameValid c.Name = true) :
    c.String = c.Name ++ ch '=' :: (sanitizeCookieValue c.Value ++ c.attributes) := by
  simp [Cookie.String, h]

/-- For a cookie with a valid name, `getCookieName` reads the cookie's name off
its `Set-Cookie` text. -/
theorem getCookieName_String (c : Cookie) (h : isCookieNameValid c.Name = true) :
    getCookieName c.String = c.Name := by
  rw [Cookie.String_eq c h, getCookieName_name_cons _ _ h]


/-! ## The map of `setCookieValue` -/

theorem mem_mapSet {m : List (GoString × GoString)} {k v : GoString} {p : GoString × GoString}
    (h : p ∈ mapSet m k v) : p = (k, v) ∨ p ∈ m := by
  induction m with
  | nil => simpa [mapSet] using h
  | cons q rest ih =>
    obtain ⟨k1, v1⟩ := q
    unfold mapSet at h
    by_cases hk : k1 = k
    · rw [if_pos hk] at h
      rcases List.mem_cons.1 h with h | h
      · exact Or.inl h
      · exact Or.inr (List.mem_cons_of_mem _ h)
    · rw [if_neg hk] at h
      rcases List.mem_cons.1 h with h | h
      · exact Or.inr (h ▸ List.mem_cons_self _ _)
      · rcases ih h with h | h
        · exact Or.inl h
        · exact Or.inr (List.mem_cons_of_mem _ h)

theorem mapSet_keys_nodup (m : List (GoString × GoString)) (k v : GoString)
    (h : (m.map Prod.fst).Nodup) : ((mapSet m k v).map Prod.fst).Nodup := by
  induction m with
  | nil => simp [mapSet]
  | cons q rest ih =>
    obtain ⟨k1, v1⟩ := q
    simp only [List.map_cons, List.nodup_cons] at h
    unfold mapSet
    by_cases hk : k1 = k
    · rw [if_pos hk]
      simp only [List.map_cons, List.nodup_cons]
      exact ⟨hk ▸ h.1, h.2⟩
    · rw [if_neg hk]
      simp only [List.map_cons, List.nodup_cons]
      refine ⟨?_, ih h.2⟩
      intro hmem
      obtain ⟨p, hp, hp1⟩ := List.mem_map.1 hmem
      rcases mem_mapSet hp with hp2 | hp2
      · apply hk
        rw [← hp1, hp2]
      · exact h.1 (List.mem_map.2 ⟨p, hp2, hp1⟩)

theorem filter_key_eq_nil (m : List (GoString × GoString)) (n : GoString)
    (h : n ∉ m.map Prod.fst) : m.filter (fun p => p.1 = n) = [] := by
  rw [List.filter_eq_nil_iff]
  intro p hp hpn
  exact h (List.mem_map.2 ⟨p, hp, by simpa using hpn⟩)

theorem filter_key_mapSet (m : List (GoString × GoString)) (k v n : GoString)
    (h : (m.map Prod.fst).Nodup) :
    (mapSet m k v).filter (fun p => p.1 = n)
      = if n = k then [(k, v)] else m.filter (fun p => p.1 = n) := by
  induction m with
  | nil =>
    by_cases hn : n = k
    · simp [mapSet, hn]
    · have : ¬ k = n := fun e => hn e.symm
      simp [mapSet, hn, this]
  | cons q rest ih =>
    obtain ⟨k1, v1⟩ := q
    simp only [List.map_cons, List.nodup_cons] at h
    unfold mapSet
    by_cases hk : k1 = k
    · subst hk
      rw [if_pos rfl]
      by_cases hn : n = k1
      · subst hn
        simp [filter_key_eq_nil rest n h.1]
      · have : ¬ k1 = n := fun e => hn e.symm
        simp [hn, this]
    · rw [if_neg hk]
      by_cases hn : n = k
      · subst hn
        have := ih h.2
        rw [if_pos rfl] at this
        simp [hk, this]
      · have := ih h.2
        rw [if_neg hn] at this
        by_cases h1 : k1 = n
        · simp [hn, h1, this]
        · simp [hn, h1, this]

theorem foldl_mapSet_inv (es : List GoString) :
    ∀ m : List (GoString × GoString), (m.map Prod.fst).Nodup →
      (∀ p ∈ m, p.1 = getCookieName p.2) →
      ((es.foldl (fun m c => mapSet m (getCookieName c) c) m).map Prod.fst).Nodup ∧
      ∀ p ∈ es.foldl (fun m c => mapSet m (getCookieName c) c) m, p.1 = getCookieName p.2 := by
  induction es with
  | nil => intro m hn hk; exact ⟨hn, hk⟩
  | cons e es ih =>
    intro m hn hk
    simp only [List.foldl_cons]
    apply ih
    · exact mapSet_keys_nodup m _ _ hn
    · intro p hp
      rcases mem_mapSet hp with h | h
      · rw [h]
      · exact hk p h

theorem lastNamed_cons (e : GoString) (es : List GoString) (n : GoString) :
    lastNamed (e :: es) n
      = match lastNamed es n with
        | some e1 => some e1
        | none => if getCookieName e = n then some e else none := rfl

theorem foldl_mapSet_filter (es : List GoString) (n : GoString) :
    ∀ m : List (GoString × GoString), (m.map Prod.fst).Nodup →
      (es.foldl (fun m c => mapSet m (getCookieName c) c) m).filter (fun p => p.1 = n)
        = match lastNamed es n with
          | some e => [(n, e)]
          | none => m.filter (fun p => p.1 = n) := by
  induction es with
  | nil => intro m _; simp [lastNamed]
  | cons e es ih =>
    intro m hn
    simp only [List.foldl_cons]
    rw [ih _ (mapSet_keys_nodup m _ _ hn), lastNamed_cons]
    cases hl : lastNamed es n with
    | some e1 => rfl
    | none =>
      simp only []
      rw [filter_key_mapSet m _ _ n hn]
      by_cases hen : getCookieName e = n
      · subst hen
        simp
      · have : ¬ n = getCookieName e := fun h => hen h.symm
        simp [hen, this]


theorem canon_SetCookie : CanonicalMIMEHeaderKey (str "Set-Cookie") = str "Set-Cookie" := by
  decide

theorem foldl_Add (k : GoString) (l : List (GoString × GoString)) :
    ∀ w : Header, l.foldl (fun w ck => w.Add k ck.2) w
      = Function.update w (CanonicalMIMEHeaderKey k)
          (w (CanonicalMIMEHeaderKey k) ++ l.map Prod.snd) := by
  induction l with
  | nil => intro w; simp
  | cons x xs ih =>
    intro w
    simp only [List.foldl_cons]
    rw [ih]
    simp [Header.Add]

/-- The `Set-Cookie` values after `setCookieValue`: the new cookie alone on a
response without one, the values of the map in the order of the range
otherwise. -/
theorem setCookieValue_values (o : MapOrder) (w : Header) (c : Cookie) :
    (setCookieValue o w c).Values (str "Set-Cookie")
      = if w.Values (str "Set-Cookie") = [] then [c.String]
        else (o.arrange (existingCookies (w.Values (str "Set-Cookie")) c.String)).map
          Prod.snd := by
  unfold setCookieValue
  by_cases h : w.Values (str "Set-Cookie") = []
  · have hl : (w.Values (str "Set-Cookie")).length = 0 := by rw [h]; rfl
    simp only [hl, if_true, h]
    unfold Header.Values Header.Set
    simp
  · have hl : (w.Values (str "Set-Cookie")).length ≠ 0 := by
      simpa using h
    simp only [hl, if_false, h]
    rw [foldl_Add]
    simp [Header.Values, Header.Del]

/-- The header keys other than `Set-Cookie` are left as they were. -/
theorem setCookieValue_other (o : MapOrder) (w : Header) (c : Cookie) (key : GoString)
    (hkey : key ≠ str "Set-Cookie") : setCookieValue o w c key = w key := by
  unfold setCookieValue
  by_cases h : (w.Values (str "Set-Cookie")).length = 0
  · simp only [h, if_true]
    unfold Header.Set
    rw [canon_SetCookie]
    exact Function.update_noteq hkey _ _
  · simp only [h, if_false]
    rw [foldl_Add, canon_SetCookie]
    rw [Function.update_noteq hkey]
    unfold Header.Del
    rw [canon_SetCookie]
    exact Function.update_noteq hkey _ _

theorem existingCookies_inv (es : List GoString) (s : GoString) :
    ((existingCookies es s).map Prod.fst).Nodup ∧
    ∀ p ∈ existingCookies es s, p.1 = getCookieName p.2 := by
  have h := foldl_mapSet_inv es [] (by simp) (by simp)
  unfold existingCookies
  refine ⟨mapSet_keys_nodup _ _ _ h.1, ?_⟩
  intro p hp
  rcases mem_mapSet hp with hp | hp
  · rw [hp]
  · exact h.2 p hp

theorem existingCookies_filter (es : List GoString) (s n : GoString) :
    (existingCookies es s).filter (fun p => p.1 = n)
      = if n = getCookieName s then [(getCookieName s, s)]
        else match lastNamed es n with
          | some e => [(n, e)]
          | none => [] := by
  have h := foldl_mapSet_inv es [] (by simp) (by simp)
  unfold existingCookies
  rw [filter_key_mapSet _ _ _ _ h.1, foldl_mapSet_filter es n [] (by simp)]
  simp

theorem map_snd_filter_keyed (m : List (GoString × GoString)) (n : GoString)
    (hk : ∀ p ∈ m, p.1 = getCookieName p.2) :
    (m.map Prod.snd).filter (fun e => getCookieName e = n)
      = (m.filter (fun p => p.1 = n)).map Prod.snd := by
  induction m with
  | nil => rfl
  | cons q rest ih =>
    have hq := hk q (List.mem_cons_self _ _)
    have ih1 := ih (fun p hp => hk p (List.mem_cons_of_mem _ hp))
    by_cases hn : q.1 = n
    · have hn2 : getCookieName q.2 = n := by rw [← hq]; exact hn
      simp [List.filter_cons, hn, hn2, ih1]
    · have hn2 : ¬ getCookieName q.2 = n := by rw [← hq]; exact hn
      simp [List.filter_cons, hn, hn2, ih1]

/-- After `setCookieValue` the `Set-Cookie` entries have pairwise distinct
cookie names. -/
theorem setCookieValue_names_nodup (o : MapOrder) (w : Header) (c : Cookie) :
    (((setCookieValue o w c).Values (str "Set-Cookie")).map getCookieName).Nodup := by
  rw [setCookieValue_values]
  by_cases h : w.Values (str "Set-Cookie") = []
  · simp [h]
  · rw [if_neg h]
    have hinv := existingCookies_inv (w.Values (str "Set-Cookie")) c.String
    have hperm := o.perm (existingCookies (w.Values (str "Set-Cookie")) c.String)
    have hkeys : ((o.arrange (existingCookies (w.Values (str "Set-Cookie")) c.String)).map
        Prod.snd).map getCookieName
        = (o.arrange (existingCookies (w.Values (str "Set-Cookie")) c.String)).map Prod.fst := by
      rw [List.map_map]
      apply List.map_congr_left
      intro p hp
      exact (hinv.2 p (hperm.mem_iff.1 hp)).symm
    rw [hkeys]
    exact (hperm.map Prod.fst).nodup_iff.2 hinv.1

/-- After `setCookieValue` the entries named like the new cookie are the new
cookie alone; under any other name the last entry of that name before the call
is the one kept. -/
theorem entriesNamed_setCookieValue (o : MapOrder) (w : Header) (c : Cookie) (n : GoString) :
    entriesNamed (setCookieValue o w c) n
      = if n = getCookieName c.String then [c.String]
        else (lastNamed (w.Values (str "Set-Cookie")) n).toList := by
  unfold entriesNamed
  rw [setCookieValue_values]
  by_cases h : w.Values (str "Set-Cookie") = []
  · rw [if_pos h, h]
    by_cases hn : n = getCookieName c.String
    · simp [hn]
    · have : ¬ getCookieName c.String = n := fun e => hn e.symm
      simp [hn, this, lastNamed]
  · rw [if_neg h]
    have hinv := existingCookies_inv (w.Values (str "Set-Cookie")) c.String
    have hperm := o.perm (existingCookies (w.Values (str "Set-Cookie")) c.String)
    rw [map_snd_filter_keyed _ n (fun p hp => hinv.2 p (hperm.mem_iff.1 hp))]
    have hf := hperm.filter (fun p => decide (p.1 = n))
    rw [existingCookies_filter] at hf
    by_cases hn : n = getCookieName c.String
    · rw [if_pos hn] at hf
      rw [if_pos hn, List.perm_singleton.1 hf]
      rfl
    · rw [if_neg hn] at hf
      rw [if_neg hn]
      cases hl : lastNamed (w.Values (str "Set-Cookie")) n with
      | some e =>
        rw [hl] at hf
        rw [List.perm_singleton.1 hf]
        rfl
      | none =>
        rw [hl] at hf
        rw [List.perm_nil.1 hf]
        rfl

theorem lastNamed_toList_of_nodup (es : List GoString) (n : GoString)
    (h : (es.map getCookieName).Nodup) :
    (lastNamed es n).toList = es.filter (fun e => getCookieName e = n) := by
  induction es with
  | nil => rfl
  | cons e es ih =>
    simp only [List.map_cons, List.nodup_cons] at h
    have ih1 := ih h.2
    rw [lastNamed_cons]
    by_cases hen : getCookieName e = n
    · have hnil : es.filter (fun e => getCookieName e = n) = [] := by
        rw [List.filter_eq_nil_iff]
        intro x hx hxn
        apply h.1
        rw [hen]
        exact List.mem_map.2 ⟨x, hx, by simpa using hxn⟩
      rw [hnil] at ih1
      cases hl : lastNamed es n with
      | some e1 => rw [hl] at ih1; simp at ih1
      | none => simp [hen, hnil]
    · cases hl : lastNamed es n with
      | some e1 => rw [hl] at ih1; simp [hen, ← ih1]
      | none => rw [hl] at ih1; simp [hen, ← ih1]


/-! ## C3: sequences of `setCookieValue` -/

/-- With the name of an entry as `getCookieName` reads it: for two cookies of
one valid name, after `setCookieValue(res, c1)` and `setCookieValue(res, c2)`
the response has exactly one `Set-Cookie` entry of that name, the serialisation
of `c2`; the entry of `c1` is gone unless it is that same text. -/
theorem setCookieValue_twice_same_name (o1 o2 : MapOrder) (res : Header) (c1 c2 : Cookie)
    (hvalid : isCookieNameValid c1.Name = true) (hname : c1.Name = c2.Name) :
    entriesNamed (setCookieValue o2 (setCookieValue o1 res c1) c2) c2.Name = [c2.String] ∧
    (c1.String ∈ (setCookieValue o2 (setCookieValue o1 res c1) c2).Values (str "Set-Cookie") →
      c1.String = c2.String) := by
  have hv2 : isCookieNameValid c2.Name = true := hname ▸ hvalid
  have h := entriesNamed_setCookieValue o2 (setCookieValue o1 res c1) c2 c2.Name
  rw [getCookieName_String c2 hv2, if_pos rfl] at h
  refine ⟨h, ?_⟩
  intro hmem
  have hin : c1.String ∈ entriesNamed (setCookieValue o2 (setCookieValue o1 res c1) c2) c2.Name := by
    unfold entriesNamed
    rw [List.mem_filter]
    refine ⟨hmem, ?_⟩
    rw [getCookieName_String c1 hvalid, hname]
    simp
  rw [h] at hin
  simpa using hin

/-- On a response with two other cookies, a second `sAccessToken` cookie
replaces the first. -/
theorem setCookieValue_twice_same_name_witness :
    entriesNamed
        (setCookieValue MapOrder.reversed
          (setCookieValue MapOrder.insertion
            (Function.update Header.empty (str "Set-Cookie") [str "theme=dark", str "lang=en"])
            { Name := str "sAccessToken", Value := str "old" })
          { Name := str "sAccessToken", Value := str "new", Path := str "/" })
        (str "sAccessToken")
      = [str "sAccessToken=new; Path=/"] := by
  have h := (setCookieValue_twice_same_name MapOrder.insertion MapOrder.reversed
    (Function.update Header.empty (str "Set-Cookie") [str "theme=dark", str "lang=en"])
    { Name := str "sAccessToken", Value := str "old" }
    { Name := str "sAccessToken", Value := str "new", Path := str "/" }
    (by decide) rfl).1
  have hs : Cookie.String { Name := str "sAccessToken", Value := str "new", Path := str "/" }
      = str "sAccessToken=new; Path=/" := by decide
  rw [hs] at h
  exact h

theorem writeCookies_append (ws : List (MapOrder × Cookie)) (p : MapOrder × Cookie)
    (res : Header) :
    writeCookies (ws ++ [p]) res = setCookieValue p.1 (writeCookies ws res) p.2 := by
  simp [writeCookies, List.foldl_append]

theorem lastWritten_append (ws : List (MapOrder × Cookie)) (p : MapOrder × Cookie)
    (n : GoString) :
    lastWritten (ws ++ [p]) n = if p.2.Name = n then some p.2 else lastWritten ws n := by
  unfold lastWritten
  rw [List.reverse_append]
  by_cases h : p.2.Name = n
  · simp [h]
  · simp [h]

/-- The invariant of a sequence of `setCookieValue` calls on a response that
had no `Set-Cookie` entry: distinct names, and under each name the text of the
last cookie written under it. -/
theorem writeCookies_entries (ws : List (MapOrder × Cookie)) (res : Header)
    (hfresh : res.Values (str "Set-Cookie") = [])
    (hvalid : ∀ p ∈ ws, isCookieNameValid p.2.Name = true) :
    (((writeCookies ws res).Values (str "Set-Cookie")).map getCookieName).Nodup ∧
    ∀ n, entriesNamed (writeCookies ws res) n
      = ((lastWritten ws n).map Cookie.String).toList := by
  induction ws using List.reverseRecOn with
  | nil =>
    constructor
    · simp [writeCookies, hfresh]
    · intro n
      simp [writeCookies, entriesNamed, hfresh, lastWritten]
  | append_singleton ws p ih =>
    have ih1 := ih (fun q hq => hvalid q (List.mem_append_left _ hq))
    have hp : isCookieNameValid p.2.Name = true :=
      hvalid p (List.mem_append_right _ (List.mem_singleton_self p))
    rw [writeCookies_append]
    refine ⟨setCookieValue_names_nodup _ _ _, ?_⟩
    intro n
    rw [entriesNamed_setCookieValue, getCookieName_String _ hp, lastWritten_append]
    by_cases hn : n = p.2.Name
    · subst hn
      simp
    · have hn2 : ¬ p.2.Name = n := fun e => hn e.symm
      rw [if_neg hn, if_neg hn2, lastNamed_toList_of_nodup _ _ ih1.1]
      exact ih1.2 n

/-- C3: from a response without `Set-Cookie` entries, after any finite sequence
of `setCookieValue` calls with valid-named cookies (in any map orders), the
entries have pairwise distinct cookie names, the names present are exactly the
names written, and under each name the one entry is the serialisation of the
last cookie written under that name. -/
theorem writeCookies_last_write_wins (ws : List (MapOrder × Cookie)) (res : Header)
    (hfresh : res.Values (str "Set-Cookie") = [])
    (hvalid : ∀ p ∈ ws, isCookieNameValid p.2.Name = true) :
    (((writeCookies ws res).Values (str "Set-Cookie")).map getCookieName).Nodup ∧
    (∀ n, n ∈ ((writeCookies ws res).Values (str "Set-Cookie")).map getCookieName ↔
      n ∈ ws.map (fun p => p.2.Name)) ∧
    (∀ n c, lastWritten ws n = some c →
      entriesNamed (writeCookies ws res) n = [c.String]) := by
  obtain ⟨hnd, hent⟩ := writeCookies_entries ws res hfresh hvalid
  refine ⟨hnd, ?_, ?_⟩
  · intro n
    have h1 : n ∈ ((writeCookies ws res).Values (str "Set-Cookie")).map getCookieName ↔
        entriesNamed (writeCookies ws res) n ≠ [] := by
      unfold entriesNamed
      rw [Ne, List.filter_eq_nil_iff, List.mem_map]
      constructor
      · rintro ⟨e, he, hen⟩ hall
        exact hall e he (by simpa using hen)
      · intro hall
        by_contra hcon
        apply hall
        intro e he hen
        exact hcon ⟨e, he, by simpa using hen⟩
    rw [h1, hent n]
    unfold lastWritten
    cases hf : ws.reverse.find? (fun p => decide (p.2.Name = n)) with
    | none =>
      rw [List.find?_eq_none] at hf
      simp only [Option.map_none', Option.toList, ne_eq, not_true_eq_false, false_iff]
      intro hmem
      obtain ⟨p, hp, hpn⟩ := List.mem_map.1 hmem
      exact hf p (List.mem_reverse.2 hp) (by simpa using hpn)
    | some p =>
      have hp := List.find?_some hf
      have hpm := List.mem_of_find?_eq_some hf
      simp only [Option.map_some', Option.toList, ne_eq, List.cons_ne_nil, not_false_eq_true,
        true_iff]
      exact List.mem_map.2 ⟨p, List.mem_reverse.1 hpm, by simpa using hp⟩
  · intro n c hc
    rw [hent n, hc]
    rfl


/-! ## `url.QueryEscape` and `url.QueryUnescape` -/

/-- The bytes `QueryEscape` writes for one byte. -/
theorem QueryEscape_cons (c : Byte) (v : GoString) :
    QueryEscape (c :: v) = QueryEscape [c] ++ QueryEscape v := by
  simp [QueryEscape]

theorem unescape_plain : ∀ c : Byte, shouldEscape c = false → c ≠ ch '%' ∧ c ≠ ch '+' := by
  decide

theorem unescape_hex : ∀ c : Byte,
    ishex (upperhex (c.val / 16)) = true ∧ ishex (upperhex (c.val % 16)) = true ∧
    (Fin.ofNat (unhex (upperhex (c.val / 16)) * 16 + unhex (upperhex (c.val % 16))) : Byte)
      = c := by
  decide

theorem QueryUnescape_plain (c : Byte) (cs : GoString) (h1 : c ≠ ch '%') (h2 : c ≠ ch '+') :
    QueryUnescape (c :: cs) = (QueryUnescape cs).map (fun t => c :: t) := by
  rcases cs with _ | ⟨a, _ | ⟨b, rest⟩⟩ <;> simp [QueryUnescape, h1, h2]

theorem QueryUnescape_plus (cs : GoString) :
    QueryUnescape (ch '+' :: cs) = (QueryUnescape cs).map (fun t => ch ' ' :: t) := by
  have h : ch '+' ≠ ch '%' := by decide
  rcases cs with _ | ⟨a, _ | ⟨b, rest⟩⟩ <;> simp [QueryUnescape, h]

theorem QueryUnescape_percent (a b : Byte) (cs : GoString)
    (ha : ishex a = true) (hb : ishex b = true) :
    QueryUnescape (ch '%' :: a :: b :: cs)
      = (QueryUnescape cs).map (fun t => (Fin.ofNat (unhex a * 16 + unhex b) : Byte) :: t) := by
  rw [QueryUnescape, if_pos rfl]
  simp [ha, hb]

/-- URL-unescaping the URL-escaped form of a string gives the string back. -/
theorem QueryUnescape_QueryEscape (v : GoString) : QueryUnescape (QueryEscape v) = some v := by
  induction v with
  | nil => rfl
  | cons c v ih =>
    rw [QueryEscape_cons]
    by_cases hs : shouldEscape c = true
    · by_cases hsp : c = ch ' '
      · subst hsp
        have : QueryEscape [ch ' '] = [ch '+'] := by decide
        rw [this, List.singleton_append, QueryUnescape_plus, ih]
        rfl
      · have : QueryEscape [c] = [ch '%', upperhex (c.val / 16), upperhex (c.val % 16)] := by
          simp [QueryEscape, hs, hsp]
        rw [this]
        obtain ⟨h1, h2, h3⟩ := unescape_hex c
        show QueryUnescape (ch '%' :: upperhex (c.val / 16) :: upperhex (c.val % 16) ::
          QueryEscape v) = some (c :: v)
        rw [QueryUnescape_percent _ _ _ h1 h2, ih, h3]
        rfl
    · have hs1 : shouldEscape c = false := by simpa using hs
      have : QueryEscape [c] = [c] := by
        simp [QueryEscape, hs1]
      rw [this]
      obtain ⟨h1, h2⟩ := unescape_plain c hs1
      rw [List.singleton_append, QueryUnescape_plain _ _ h1 h2, ih]
      rfl

theorem escaped_bytes : ∀ c : Byte, (QueryEscape [c]).all cookieSafeByte = true := by
  decide

/-- Every byte of a URL-escaped string is safe in a cookie value. -/
theorem mem_QueryEscape (v : GoString) (b : Byte) (hb : b ∈ QueryEscape v) :
    cookieSafeByte b = true := by
  induction v with
  | nil => simp [QueryEscape] at hb
  | cons c v ih =>
    rw [QueryEscape_cons] at hb
    rcases List.mem_append.1 hb with h | h
    · exact List.all_eq_true.1 (escaped_bytes c) b h
    · exact ih h

theorem cookieSafeByte_facts : ∀ b : Byte, cookieSafeByte b = true →
    validCookieValueByte b = true ∧ isASCIISpace b = false ∧ b ≠ ch ' ' ∧ b ≠ ch ',' ∧
      b ≠ ch ';' ∧ b ≠ ch '=' ∧ b ≠ ch '"' := by
  decide


/-! ## The text of a serialised cookie -/

theorem semi_append (a b : GoString) (ha : a = [] ∨ ∃ t, a = ch ';' :: t)
    (hb : b = [] ∨ ∃ t, b = ch ';' :: t) : a ++ b = [] ∨ ∃ t, a ++ b = ch ';' :: t := by
  rcases ha with ha | ⟨t, ht⟩
  · rw [ha]
    exact hb
  · rw [ht]
    exact Or.inr ⟨t ++ b, rfl⟩

/-- The attributes of a serialised cookie are empty or start with `;`. -/
theorem Cookie.attributes_semi (c : Cookie) :
    c.attributes = [] ∨ ∃ t, c.attributes = ch ';' :: t := by
  unfold Cookie.attributes
  refine semi_append _ _ (semi_append _ _ (semi_append _ _ (semi_append _ _
    (semi_append _ _ (semi_append _ _ ?_ ?_) ?_) ?_) ?_) ?_) ?_
  · split
    · exact Or.inr ⟨_, rfl⟩
    · exact Or.inl rfl
  · split
    · exact Or.inr ⟨_, rfl⟩
    · exact Or.inl rfl
  · split
    · exact Or.inr ⟨_, rfl⟩
    · exact Or.inl rfl
  · split
    · exact Or.inr ⟨_, rfl⟩
    · split
      · exact Or.inr ⟨_, rfl⟩
      · exact Or.inl rfl
  · split
    · exact Or.inr ⟨_, rfl⟩
    · exact Or.inl rfl
  · split
    · exact Or.inr ⟨_, rfl⟩
    · exact Or.inl rfl
  · split
    · exact Or.inr ⟨_, rfl⟩
    · split
      · exact Or.inr ⟨_, rfl⟩
      · split
        · exact Or.inr ⟨_, rfl⟩
        · exact Or.inl rfl

theorem takeWhile_semi (a : GoString) (ha : a = [] ∨ ∃ t, a = ch ';' :: t) :
    a.takeWhile (fun b => b ≠ ch ';') = [] := by
  rcases ha with ha | ⟨t, ht⟩
  · rw [ha]
    rfl
  · rw [ht]
    simp

theorem validCookieValueByte_ne_semi : ∀ b : Byte, validCookieValueByte b = true → b ≠ ch ';' := by
  decide

theorem mem_sanitizeCookieValue (v : GoString) (b : Byte) (hb : b ∈ sanitizeCookieValue v) :
    b ≠ ch ';' := by
  unfold sanitizeCookieValue at hb
  simp only [] at hb
  have hf : ∀ x ∈ v.filter validCookieValueByte, x ≠ ch ';' := by
    intro x hx
    exact validCookieValueByte_ne_semi x (List.mem_filter.1 hx).2
  split at hb
  · exact hf b hb
  · split at hb
    · rcases List.mem_cons.1 hb with h | h
      · rw [h]
        decide
      · rcases List.mem_append.1 h with h | h
        · exact hf b h
        · rw [List.mem_singleton.1 h]
          decide
    · exact hf b hb

/-- The `name=value` pair of a serialised cookie with a valid name. -/
theorem cookiePair_String (c : Cookie) (h : isCookieNameValid c.Name = true) :
    cookiePair c.String = c.Name ++ ch '=' :: sanitizeCookieValue c.Value := by
  obtain ⟨_, htok⟩ := (isCookieNameValid_iff c.Name).1 h
  have hall : ∀ x ∈ c.Name ++ ch '=' :: sanitizeCookieValue c.Value,
      (fun b => decide (b ≠ ch ';')) x = true := by
    intro x hx
    rcases List.mem_append.1 hx with hx | hx
    · simpa using (token_facts x (htok x hx)).2.1
    · rcases List.mem_cons.1 hx with hx | hx
      · rw [hx]
        decide
      · simpa using mem_sanitizeCookieValue _ x hx
  have hform : c.String
      = (c.Name ++ ch '=' :: sanitizeCookieValue c.Value) ++ c.attributes := by
    rw [Cookie.String_eq c h]
    simp
  unfold cookiePair
  rw [hform, takeWhile_append_of_all _ _ hall, takeWhile_semi _ c.attributes_semi]
  simp

theorem sanitizeCookieValue_safe (v : GoString) (hv : ∀ b ∈ v, cookieSafeByte b = true) :
    sanitizeCookieValue v = v := by
  have hf : v.filter validCookieValueByte = v := by
    rw [List.filter_eq_self]
    intro b hb
    exact (cookieSafeByte_facts b (hv b hb)).1
  unfold sanitizeCookieValue
  simp only [hf]
  split
  · rfl
  · have hany : v.any (fun b => b = ch ' ' || b = ch ',') = false := by
      rw [List.any_eq_false]
      intro b hb
      have := cookieSafeByte_facts b (hv b hb)
      simp [this.2.2.1, this.2.2.2.1]
    simp [hany]


/-! ## Reading the cookie back from the request -/

theorem dropWhile_of_all_neg {p : Byte → Bool} (l : GoString) (h : ∀ x ∈ l, p x = false) :
    l.dropWhile p = l := by
  cases l with
  | nil => rfl
  | cons y ys => simp [List.dropWhile, h y (List.mem_cons_self _ _)]

theorem rdropWhile_of_all_neg {p : Byte → Bool} (l : GoString) (h : ∀ x ∈ l, p x = false) :
    l.rdropWhile p = l := by
  unfold List.rdropWhile
  rw [dropWhile_of_all_neg l.reverse (fun x hx => h x (List.mem_reverse.1 hx))]
  simp

theorem TrimString_of_no_space (l : GoString) (h : ∀ x ∈ l, isASCIISpace x = false) :
    TrimString l = l := by
  unfold TrimString
  rw [dropWhile_of_all_neg l h, rdropWhile_of_all_neg l h]

theorem Split_of_not_mem (s : GoString) (sep : Byte) (h : ∀ x ∈ s, x ≠ sep) :
    Split s sep = [s] := by
  induction s with
  | nil => rfl
  | cons c cs ih =>
    have hc : c ≠ sep := h c (List.mem_cons_self _ _)
    have ih1 := ih (fun x hx => h x (List.mem_cons_of_mem _ hx))
    unfold Split
    rw [if_neg hc, ih1]

theorem dropWhile_append_of_all {p : Byte → Bool} (a b : GoString)
    (h : ∀ x ∈ a, p x = true) : (a ++ b).dropWhile p = b.dropWhile p := by
  induction a with
  | nil => rfl
  | cons y ys ih =>
    have hy := h y (List.mem_cons_self _ _)
    simp [List.dropWhile, hy, ih (fun x hx => h x (List.mem_cons_of_mem _ hx))]

theorem parseCookieValue_safe (val : GoString) (hv : ∀ b ∈ val, cookieSafeByte b = true) :
    parseCookieValue val true = some val := by
  have hall : val.all validCookieValueByte = true := by
    rw [List.all_eq_true]
    intro b hb
    exact (cookieSafeByte_facts b (hv b hb)).1
  have hq : ¬ val.head? = some (ch '"') := by
    intro hh
    cases val with
    | nil => simp at hh
    | cons b bs =>
      simp at hh
      exact (cookieSafeByte_facts b (hv b (List.mem_cons_self _ _))).2.2.2.2.2.2 hh
  unfold parseCookieValue
  simp [hq, hall]

/-- One `name=value` part with a valid name and a safe value is read as that
name and value. -/
theorem readCookiePart_pair (name val : GoString) (h : isCookieNameValid name = true)
    (hv : ∀ b ∈ val, cookieSafeByte b = true) :
    readCookiePart (name ++ ch '=' :: val) = some (name, val) := by
  obtain ⟨hne, htok⟩ := (isCookieNameValid_iff name).1 h
  have hvsp : ∀ x ∈ val, isASCIISpace x = false := fun x hx =>
    (cookieSafeByte_facts x (hv x hx)).2.1
  have hnsp : ∀ x ∈ name, isASCIISpace x = false := fun x hx =>
    (token_facts x (htok x hx)).1
  have heq : ∀ x ∈ name, (fun b => decide (b ≠ ch '=')) x = true := by
    intro x hx
    simpa using (token_facts x (htok x hx)).2.2
  have htrim : TrimString (name ++ ch '=' :: val) = name ++ ch '=' :: val := by
    rw [TrimString_name_cons name val h, rdropWhile_of_all_neg val hvsp]
  have hnonempty : name ++ ch '=' :: val ≠ [] := by simp
  have htake : (name ++ ch '=' :: val).takeWhile (fun b => decide (b ≠ ch '=')) = name := by
    rw [takeWhile_append_of_all _ _ heq, List.takeWhile_cons_of_neg (by decide)]
    simp
  have hdrop : ((name ++ ch '=' :: val).dropWhile (fun b => decide (b ≠ ch '='))).drop 1
      = val := by
    rw [dropWhile_append_of_all _ _ heq, List.dropWhile_cons_of_neg (by decide)]
    rfl
  unfold readCookiePart
  simp only [htrim, if_neg hnonempty, htake, hdrop, TrimString_of_no_space name hnsp, h,
    parseCookieValue_safe val hv]
  rfl

/-- The cookies of the request that carries one staged cookie with a valid
name and a safe value. -/
theorem Cookies_requestCarrying (res : Header) (e name val : GoString)
    (hres : res.Values (str "Set-Cookie") = [e])
    (hpair : cookiePair e = name ++ ch '=' :: val)
    (h : isCookieNameValid name = true) (hv : ∀ b ∈ val, cookieSafeByte b = true) :
    (requestCarrying res).Cookies = [(name, val)] := by
  obtain ⟨hne, htok⟩ := (isCookieNameValid_iff name).1 h
  have hvsp : ∀ x ∈ val, isASCIISpace x = false := fun x hx =>
    (cookieSafeByte_facts x (hv x hx)).2.1
  have htrim : TrimString (name ++ ch '=' :: val) = name ++ ch '=' :: val := by
    rw [TrimString_name_cons name val h, rdropWhile_of_all_neg val hvsp]
  have hsemi : ∀ x ∈ name ++ ch '=' :: val, x ≠ ch ';' := by
    intro x hx
    rcases List.mem_append.1 hx with hx | hx
    · exact (token_facts x (htok x hx)).2.1
    · rcases List.mem_cons.1 hx with hx | hx
      · rw [hx]
        decide
      · exact (cookieSafeByte_facts x (hv x hx)).2.2.2.2.1
  have hline : (requestCarrying res).Header (str "Cookie") = [name ++ ch '=' :: val] := by
    unfold requestCarrying
    simp [hres, hpair]
  unfold Request.Cookies
  rw [hline]
  simp [htrim, Split_of_not_mem _ _ hsemi, readCookiePart_pair name val h hv]


/-! ## C4: the cookie round trip -/

theorem setCookie_fresh_values (o : MapOrder) (config : TypeNormalisedInput)
    (name value : GoString) (expires : Nat) (pathType : GoString) :
    (setCookie o config Header.empty name value expires pathType).Values (str "Set-Cookie")
      = [(sessionCookie config name value expires pathType).String] := by
  unfold setCookie
  have h0 : Header.empty.Values (str "Set-Cookie") = [] := rfl
  rw [setCookieValue_values, if_pos h0]

/-- A cookie staged by `setCookie` on a fresh response is read back by
`getCookieValue` with the value that was set. -/
theorem getCookieValue_setCookie (o : MapOrder) (config : TypeNormalisedInput)
    (name value : GoString) (expires : Nat) (pathType : GoString)
    (h : isCookieNameValid name = true) :
    getCookieValue
        (requestCarrying (setCookie o config Header.empty name value expires pathType)) name
      = some value := by
  have hpair : cookiePair (sessionCookie config name value expires pathType).String
      = name ++ ch '=' :: QueryEscape value := by
    rw [cookiePair_String _ h]
    show name ++ ch '=' :: sanitizeCookieValue (QueryEscape value) = _
    rw [sanitizeCookieValue_safe _ (mem_QueryEscape value)]
  have hc := Cookies_requestCarrying _ _ name (QueryEscape value)
    (setCookie_fresh_values o config name value expires pathType) hpair h
    (mem_QueryEscape value)
  unfold getCookieValue
  simp [hc, QueryUnescape_QueryEscape]

/-- C4: under the Cookie method, for AccessToken and RefreshToken, every
config, expiry and string value: after `setToken` on a fresh response, the
request that carries the staged cookie's `name=value` pair gives
`getToken = value` exactly; URL-unescaping the URL-escaped value recovers it. -/
theorem setToken_getToken_cookie_roundtrip (uni : GoString → GoString) (o : MapOrder)
    (config : TypeNormalisedInput) (tokenType : TokenType) (value : GoString) (expires : Nat)
    (ht : tokenType = AccessToken ∨ tokenType = RefreshToken) :
    (setToken uni o config Header.empty tokenType value expires CookieTransferMethod).2 = none ∧
    getToken
        (requestCarrying
          (setToken uni o config Header.empty tokenType value expires CookieTransferMethod).1)
        tokenType CookieTransferMethod = .ok (some value) ∧
    QueryUnescape (QueryEscape value) = some value := by
  have hra : RefreshToken ≠ AccessToken := by decide
  rcases ht with ht | ht
  · subst ht
    have hs : setToken uni o config Header.empty AccessToken value expires CookieTransferMethod
        = (setCookie o config Header.empty accessTokenCookieKey value expires
            (str "accessTokenPath"), none) := by
      simp [setToken, getCookieNameFromTokenType]
    rw [hs]
    refine ⟨rfl, ?_, QueryUnescape_QueryEscape value⟩
    simp only [getToken, getCookieNameFromTokenType, if_true]
    rw [getCookieValue_setCookie _ _ _ _ _ _ (by decide)]
  · subst ht
    have hs : setToken uni o config Header.empty RefreshToken value expires CookieTransferMethod
        = (setCookie o config Header.empty refreshTokenCookieKey value expires
            (str "refreshTokenPath"), none) := by
      simp [setToken, getCookieNameFromTokenType, hra]
    rw [hs]
    refine ⟨rfl, ?_, QueryUnescape_QueryEscape value⟩
    simp only [getToken, getCookieNameFromTokenType, if_true, if_neg hra]
    rw [getCookieValue_setCookie _ _ _ _ _ _ (by decide)]

/-- C4, at a concrete input: a refresh token with bytes that are escaped. -/
theorem setToken_getToken_cookie_roundtrip_witness :
    getToken
        (requestCarrying
          (setToken id MapOrder.insertion ⟨some (str "example.com"), true, str "strict",
            ⟨str "/auth/session/refresh"⟩⟩ Header.empty RefreshToken (str "a b+c%;=d,e")
            1700000000999 CookieTransferMethod).1)
        RefreshToken CookieTransferMethod = .ok (some (str "a b+c%;=d,e")) :=
  (setToken_getToken_cookie_roundtrip id MapOrder.insertion _ RefreshToken _ _
    (Or.inr rfl)).2.1


/-! ## Clearing the session under every transfer method -/

theorem setHeader_false_same (uni : GoString → GoString) (res : Header) (k v : GoString) :
    setHeader uni res k v false (CanonicalMIMEHeaderKey k) = [v] := by
  rw [setHeader_false]
  exact Function.update_same _ _ _

theorem clearSession_cookie (uni : GoString → GoString) (ord : TokenType → MapOrder)
    (config : TypeNormalisedInput) (res : Header) :
    clearSession uni ord config res CookieTransferMethod
      = (setHeader uni
          (setHeader uni
            ((setCookie (ord RefreshToken) config
              (setCookie (ord AccessToken) config res accessTokenCookieKey [] 0
                (str "accessTokenPath"))
              refreshTokenCookieKey [] 0 (str "refreshTokenPath")).Del antiCsrfHeaderKey)
            frontTokenHeaderKey (str "remove") false)
          (str "Access-Control-Expose-Headers") frontTokenHeaderKey true, none) := by
  have hra : RefreshToken ≠ AccessToken := by decide
  simp [clearSession, clearSessionTokens, setToken, getCookieNameFromTokenType, hra]

theorem clearSession_header (uni : GoString → GoString) (ord : TokenType → MapOrder)
    (config : TypeNormalisedInput) (res : Header) :
    clearSession uni ord config res HeaderTransferMethod
      = (setHeader uni
          (setHeader uni
            ((setHeader uni
              (setHeader uni
                (setHeader uni
                  (setHeader uni res accessTokenHeaderKey [] false)
                  (str "Access-Control-Expose-Headers") accessTokenHeaderKey true)
                refreshTokenHeaderKey [] false)
              (str "Access-Control-Expose-Headers") refreshTokenHeaderKey true).Del
              antiCsrfHeaderKey)
            frontTokenHeaderKey (str "remove") false)
          (str "Access-Control-Expose-Headers") frontTokenHeaderKey true, none) := by
  have hra : RefreshToken ≠ AccessToken := by decide
  have hhc : HeaderTransferMethod ≠ CookieTransferMethod := by decide
  simp [clearSession, clearSessionTokens, setToken, getResponseHeaderNameForTokenType, hra, hhc]

theorem infix_of_append_right {a b : GoString} (c : GoString) (h : a <:+: b) :
    a <:+: b ++ c :=
  h.trans (List.prefix_append b c).isInfix

theorem infix_of_append_left {a b : GoString} (c : GoString) (h : a <:+: b) :
    a <:+: c ++ b :=
  h.trans (List.suffix_append c b).isInfix

/-- The text of a cookie that `setCookie` builds with an empty value and the
expiry 0: its `name=value` pair is `name=`, and it expires at the Unix epoch. -/
theorem cleared_cookie_text (config : TypeNormalisedInput) (name pathType : GoString)
    (h : isCookieNameValid name = true) :
    cookiePair (sessionCookie config name [] 0 pathType).String = name ++ str "=" ∧
    str "; Expires=Thu, 01 Jan 1970 00:00:00 GMT" <:+:
      (sessionCookie config name [] 0 pathType).String := by
  constructor
  · rw [cookiePair_String _ h]
    rfl
  · rw [Cookie.String_eq _ h]
    have hexp : (sessionCookie config name [] 0 pathType).Expires = 0 := by rfl
    have hval : validCookieExpires 0 = true := by decide
    have hfmt : str "; Expires=" ++ formatHTTPTime 0
        = str "; Expires=Thu, 01 Jan 1970 00:00:00 GMT" := by decide
    unfold Cookie.attributes
    rw [hexp, if_pos hval, hfmt]
    apply infix_of_append_left
    apply List.infix_cons
    apply infix_of_append_left
    apply infix_of_append_right
    apply infix_of_append_right
    apply infix_of_append_right
    apply infix_of_append_right
    exact (List.suffix_append _ _).isInfix


theorem clearSessionFromAll_eq (uni : GoString → GoString)
    (ord : TokenTransferMethod → TokenType → MapOrder) (config : TypeNormalisedInput)
    (req : Request) (res : Header) :
    clearSessionFromAllTokenTransferMethods uni ord config req res
      = ((clearSession uni (ord HeaderTransferMethod) config
          (clearSession uni (ord CookieTransferMethod) config res CookieTransferMethod).1
          HeaderTransferMethod).1, none) := by
  unfold clearSessionFromAllTokenTransferMethods availableTokenTransferMethods
  simp only [clearSessionMethods]
  rw [clearSession_cookie]
  simp only []
  rw [clearSession_header]

/-- The two cookies after the two cookie writes of `clearSession`. -/
theorem entriesNamed_two_writes (o1 o2 : MapOrder) (res : Header) (c1 c2 : Cookie)
    (h1 : isCookieNameValid c1.Name = true) (h2 : isCookieNameValid c2.Name = true)
    (hne : c1.Name ≠ c2.Name) :
    entriesNamed (setCookieValue o2 (setCookieValue o1 res c1) c2) c1.Name = [c1.String] ∧
    entriesNamed (setCookieValue o2 (setCookieValue o1 res c1) c2) c2.Name = [c2.String] := by
  constructor
  · rw [entriesNamed_setCookieValue, getCookieName_String c2 h2, if_neg hne,
      lastNamed_toList_of_nodup _ _ (setCookieValue_names_nodup o1 res c1)]
    have h := entriesNamed_setCookieValue o1 res c1 c1.Name
    rw [getCookieName_String c1 h1, if_pos rfl] at h
    exact h
  · rw [entriesNamed_setCookieValue, getCookieName_String c2 h2, if_pos rfl]

/-- With the name of an entry as `getCookieName` reads it: for every config
and every prior response state, `clearSessionFromAllTokenTransferMethods`
returns no error and leaves exactly one `Set-Cookie` entry named `sAccessToken`
and exactly one named `sRefreshToken`, each the cookie with empty value (its
pair is `name=`) and `Expires` at the Unix epoch, and the headers
`st-access-token` and `st-refresh-token` holding the empty string. -/
theorem clearSessionFromAllTokenTransferMethods_clears (uni : GoString → GoString)
    (ord : TokenTransferMethod → TokenType → MapOrder) (config : TypeNormalisedInput)
    (req : Request) (res : Header) :
    (clearSessionFromAllTokenTransferMethods uni ord config req res).2 = none ∧
    entriesNamed (clearSessionFromAllTokenTransferMethods uni ord config req res).1
        accessTokenCookieKey
      = [(sessionCookie config accessTokenCookieKey [] 0 (str "accessTokenPath")).String] ∧
    entriesNamed (clearSessionFromAllTokenTransferMethods uni ord config req res).1
        refreshTokenCookieKey
      = [(sessionCookie config refreshTokenCookieKey [] 0 (str "refreshTokenPath")).String] ∧
    (sessionCookie config accessTokenCookieKey [] 0 (str "accessTokenPath")).Value = [] ∧
    (sessionCookie config accessTokenCookieKey [] 0 (str "accessTokenPath")).Expires = 0 ∧
    cookiePair (sessionCookie config accessTokenCookieKey [] 0 (str "accessTokenPath")).String
      = str "sAccessToken=" ∧
    str "; Expires=Thu, 01 Jan 1970 00:00:00 GMT" <:+:
      (sessionCookie config accessTokenCookieKey [] 0 (str "accessTokenPath")).String ∧
    (sessionCookie config refreshTokenCookieKey [] 0 (str "refreshTokenPath")).Value = [] ∧
    (sessionCookie config refreshTokenCookieKey [] 0 (str "refreshTokenPath")).Expires = 0 ∧
    cookiePair (sessionCookie config refreshTokenCookieKey [] 0 (str "refreshTokenPath")).String
      = str "sRefreshToken=" ∧
    str "; Expires=Thu, 01 Jan 1970 00:00:00 GMT" <:+:
      (sessionCookie config refreshTokenCookieKey [] 0 (str "refreshTokenPath")).String ∧
    (clearSessionFromAllTokenTransferMethods uni ord config req res).1.Values
        accessTokenHeaderKey = [str ""] ∧
    (clearSessionFromAllTokenTransferMethods uni ord config req res).1.Values
        refreshTokenHeaderKey = [str ""] := by
  have hva : isCookieNameValid accessTokenCookieKey = true := by decide
  have hvr : isCookieNameValid refreshTokenCookieKey = true := by decide
  have hta := cleared_cookie_text config accessTokenCookieKey (str "accessTokenPath") hva
  have htr := cleared_cookie_text config refreshTokenCookieKey (str "refreshTokenPath") hvr
  have hcookies : (clearSessionFromAllTokenTransferMethods uni ord config req res).1.Values
      (str "Set-Cookie")
      = (setCookieValue (ord CookieTransferMethod RefreshToken)
          (setCookieValue (ord CookieTransferMethod AccessToken) res
            (sessionCookie config accessTokenCookieKey [] 0 (str "accessTokenPath")))
          (sessionCookie config refreshTokenCookieKey [] 0 (str "refreshTokenPath"))).Values
          (str "Set-Cookie") := by
    rw [clearSessionFromAll_eq, clearSession_header, clearSession_cookie]
    simp only [Header.Values, setCookie]
    simp (disch := decide) only [setHeader_other, Header.Del_other]
  have htwo := entriesNamed_two_writes (ord CookieTransferMethod AccessToken)
    (ord CookieTransferMethod RefreshToken) res
    (sessionCookie config accessTokenCookieKey [] 0 (str "accessTokenPath"))
    (sessionCookie config refreshTokenCookieKey [] 0 (str "refreshTokenPath"))
    hva hvr (show accessTokenCookieKey ≠ refreshTokenCookieKey by decide)
  have hent : ∀ n, entriesNamed (clearSessionFromAllTokenTransferMethods uni ord config req res).1 n
      = entriesNamed (setCookieValue (ord CookieTransferMethod RefreshToken)
          (setCookieValue (ord CookieTransferMethod AccessToken) res
            (sessionCookie config accessTokenCookieKey [] 0 (str "accessTokenPath")))
          (sessionCookie config refreshTokenCookieKey [] 0 (str "refreshTokenPath"))) n := by
    intro n
    unfold entriesNamed
    rw [hcookies]
  refine ⟨?_, ?_, ?_, rfl, rfl, hta.1, hta.2, rfl, rfl, htr.1, htr.2, ?_, ?_⟩
  · rw [clearSessionFromAll_eq]
  · rw [hent]
    exact htwo.1
  · rw [hent]
    exact htwo.2
  · rw [clearSessionFromAll_eq, clearSession_header]
    simp only [Header.Values]
    simp (disch := decide) only [setHeader_other, Header.Del_other, setHeader_false_same]
    rfl
  · rw [clearSessionFromAll_eq, clearSession_header]
    simp only [Header.Values]
    simp (disch := decide) only [setHeader_other, Header.Del_other, setHeader_false_same]
    rfl


/-- C3, at a concrete input: three writes under two names, in different map
orders; the second `sAccessToken` cookie is the one entry of that name. -/
theorem writeCookies_last_write_wins_witness :
    entriesNamed
        (writeCookies
          [(MapOrder.insertion, { Name := str "sAccessToken", Value := str "first" }),
           (MapOrder.reversed, { Name := str "sRefreshToken", Value := str "r" }),
           (MapOrder.reversed, { Name := str "sAccessToken", Value := str "second" })]
          Header.empty)
        (str "sAccessToken")
      = [str "sAccessToken=second"] := by
  have h := (writeCookies_last_write_wins
    [(MapOrder.insertion, { Name := str "sAccessToken", Value := str "first" }),
     (MapOrder.reversed, { Name := str "sRefreshToken", Value := str "r" }),
     (MapOrder.reversed, { Name := str "sAccessToken", Value := str "second" })]
    Header.empty rfl (by decide)).2.2 (str "sAccessToken")
    { Name := str "sAccessToken", Value := str "second" } rfl
  have hs : Cookie.String { Name := str "sAccessToken", Value := str "second" }
      = str "sAccessToken=second" := by decide
  rw [hs] at h
  exact h


/-! ## C11 and C12: the cookie `setToken` stages -/

theorem setToken_cookie_access (uni : GoString → GoString) (o : MapOrder)
    (config : TypeNormalisedInput) (res : Header) (value : GoString) (expires : Nat) :
    setToken uni o config res AccessToken value expires CookieTransferMethod
      = (setCookieValue o res
          (sessionCookie config accessTokenCookieKey value expires (str "accessTokenPath")),
         none) := by
  simp [setToken, getCookieNameFromTokenType, setCookie]

theorem setToken_cookie_refresh (uni : GoString → GoString) (o : MapOrder)
    (config : TypeNormalisedInput) (res : Header) (value : GoString) (expires : Nat) :
    setToken uni o config res RefreshToken value expires CookieTransferMethod
      = (setCookieValue o res
          (sessionCookie config refreshTokenCookieKey value expires (str "refreshTokenPath")),
         none) := by
  have hra : RefreshToken ≠ AccessToken := by decide
  simp [setToken, getCookieNameFromTokenType, setCookie, hra]

/-- The one entry under the name of a cookie after it is written. -/
theorem entriesNamed_written (o : MapOrder) (res : Header) (c : Cookie)
    (h : isCookieNameValid c.Name = true) :
    entriesNamed (setCookieValue o res c) c.Name = [c.String] := by
  have h1 := entriesNamed_setCookieValue o res c c.Name
  rw [getCookieName_String c h, if_pos rfl] at h1
  exact h1

/-- The text of a cookie with the `HttpOnly` flag carries `; HttpOnly`. -/
theorem httpOnly_text (c : Cookie) (h : isCookieNameValid c.Name = true)
    (hh : c.HttpOnly = true) : str "; HttpOnly" <:+: c.String := by
  rw [Cookie.String_eq c h]
  unfold Cookie.attributes
  rw [hh, if_pos rfl]
  apply infix_of_append_left
  apply List.infix_cons
  apply infix_of_append_left
  apply infix_of_append_right
  apply infix_of_append_right
  exact (List.suffix_append _ _).isInfix

/-- The text of a cookie with a path starts with its name, value and path. -/
theorem path_text (c : Cookie) (h : isCookieNameValid c.Name = true)
    (hp : c.Path.length > 0) :
    c.Name ++ ch '=' :: (sanitizeCookieValue c.Value ++
      (str "; Path=" ++ sanitizeCookiePath c.Path)) <+: c.String := by
  rw [Cookie.String_eq c h]
  unfold Cookie.attributes
  rw [if_pos hp]
  apply (List.prefix_append_right_inj _).2
  apply (List.prefix_cons_inj _).2
  apply (List.prefix_append_right_inj _).2
  refine List.IsPrefix.trans ?_ (List.prefix_append _ _)
  refine List.IsPrefix.trans ?_ (List.prefix_append _ _)
  refine List.IsPrefix.trans ?_ (List.prefix_append _ _)
  refine List.IsPrefix.trans ?_ (List.prefix_append _ _)
  refine List.IsPrefix.trans ?_ (List.prefix_append _ _)
  exact List.prefix_append _ _

/-- The text of a cookie that expires at the Unix epoch carries that date. -/
theorem epoch_text (c : Cookie) (h : isCookieNameValid c.Name = true) (he : c.Expires = 0) :
    str "; Expires=Thu, 01 Jan 1970 00:00:00 GMT" <:+: c.String := by
  rw [Cookie.String_eq c h]
  have hval : validCookieExpires 0 = true := by decide
  have hfmt : str "; Expires=" ++ formatHTTPTime 0
      = str "; Expires=Thu, 01 Jan 1970 00:00:00 GMT" := by decide
  unfold Cookie.attributes
  rw [he, if_pos hval, hfmt]
  apply infix_of_append_left
  apply List.infix_cons
  apply infix_of_append_left
  apply infix_of_append_right
  apply infix_of_append_right
  apply infix_of_append_right
  apply infix_of_append_right
  exact (List.suffix_append _ _).isInfix

/-- C11: under the Cookie method `setToken` returns no error and stages, as the
only entry of its name, the cookie named `sAccessToken` (AccessToken) or
`sRefreshToken` (RefreshToken), with the URL-escaped value, `HttpOnly` true,
`Secure` and `Domain` from the config (empty domain when unset), and the path
`/` or the configured refresh-token path; for the value `tok123` and expiry 0
the access-token entry starts `sAccessToken=tok123; Path=/` and carries
`; HttpOnly`. -/
theorem setToken_cookie_stages (uni : GoString → GoString) (o : MapOrder)
    (config : TypeNormalisedInput) (res : Header) (value : GoString) (expires : Nat) :
    (setToken uni o config res AccessToken value expires CookieTransferMethod).2 = none ∧
    (setToken uni o config res RefreshToken value expires CookieTransferMethod).2 = none ∧
    (∃ c : Cookie,
      entriesNamed (setToken uni o config res AccessToken value expires CookieTransferMethod).1
        (str "sAccessToken") = [c.String] ∧
      c.Name = str "sAccessToken" ∧ c.Value = QueryEscape value ∧ c.HttpOnly = true ∧
      c.Secure = config.CookieSecure ∧ c.Domain = config.CookieDomain.getD [] ∧
      c.Path = str "/") ∧
    (∃ c : Cookie,
      entriesNamed (setToken uni o config res RefreshToken value expires CookieTransferMethod).1
        (str "sRefreshToken") = [c.String] ∧
      c.Name = str "sRefreshToken" ∧ c.Value = QueryEscape value ∧ c.HttpOnly = true ∧
      c.Secure = config.CookieSecure ∧ c.Domain = config.CookieDomain.getD [] ∧
      c.Path = config.RefreshTokenPath.GetAsStringDangerous) ∧
    (∃ e : GoString,
      entriesNamed (setToken uni o config res AccessToken (str "tok123") 0
        CookieTransferMethod).1 (str "sAccessToken") = [e] ∧
      cookiePair e = str "sAccessToken=tok123" ∧
      str "sAccessToken=tok123; Path=/" <+: e ∧
      str "; HttpOnly" <:+: e ∧
      str "; Expires=Thu, 01 Jan 1970 00:00:00 GMT" <:+: e) := by
  have hva : isCookieNameValid accessTokenCookieKey = true := by decide
  have hvr : isCookieNameValid refreshTokenCookieKey = true := by decide
  have hdom : ∀ n v e p, (sessionCookie config n v e p).Domain = config.CookieDomain.getD [] := by
    intro n v e p
    unfold sessionCookie
    cases config.CookieDomain <;> rfl
  refine ⟨?_, ?_, ?_, ?_, ?_⟩
  · rw [setToken_cookie_access]
  · rw [setToken_cookie_refresh]
  · refine ⟨sessionCookie config accessTokenCookieKey value expires (str "accessTokenPath"),
      ?_, rfl, rfl, rfl, rfl, hdom _ _ _ _, rfl⟩
    rw [setToken_cookie_access]
    exact entriesNamed_written o res _ hva
  · refine ⟨sessionCookie config refreshTokenCookieKey value expires (str "refreshTokenPath"),
      ?_, rfl, rfl, rfl, rfl, hdom _ _ _ _, rfl⟩
    rw [setToken_cookie_refresh]
    exact entriesNamed_written o res _ hvr
  · refine ⟨(sessionCookie config accessTokenCookieKey (str "tok123") 0
      (str "accessTokenPath")).String, ?_, ?_, ?_, ?_, ?_⟩
    · rw [setToken_cookie_access]
      exact entriesNamed_written o res _ hva
    · rw [cookiePair_String _ hva]
      show accessTokenCookieKey ++ ch '=' :: sanitizeCookieValue (QueryEscape (str "tok123")) = _
      decide
    · have hpre := path_text (sessionCookie config accessTokenCookieKey (str "tok123") 0
        (str "accessTokenPath")) hva (show (str "/").length > 0 by decide)
      have hlit : (sessionCookie config accessTokenCookieKey (str "tok123") 0
            (str "accessTokenPath")).Name ++ ch '=' ::
          (sanitizeCookieValue (sessionCookie config accessTokenCookieKey (str "tok123") 0
              (str "accessTokenPath")).Value ++
            (str "; Path=" ++ sanitizeCookiePath (sessionCookie config accessTokenCookieKey
              (str "tok123") 0 (str "accessTokenPath")).Path))
          = str "sAccessToken=tok123; Path=/" := by
        show str "sAccessToken" ++ ch '=' ::
          (sanitizeCookieValue (QueryEscape (str "tok123")) ++
            (str "; Path=" ++ sanitizeCookiePath (str "/"))) = _
        decide
      rw [hlit] at hpre
      exact hpre
    · exact httpOnly_text _ hva rfl
    · exact epoch_text _ hva rfl


theorem int64_of_lt (n : Nat) (h : n < 2 ^ 63) : int64 n = (n : Int) := by
  unfold int64
  have h1 : n % 2 ^ 64 = n := Nat.mod_eq_of_lt (by omega)
  rw [h1, if_pos h]

/-- Every instant from the Unix epoch on lies in a year after 1601, so a cookie
that expires then carries its `Expires` attribute. -/
theorem yearOf_nonneg (n : Nat) : 1601 ≤ yearOf (n : Int) := by
  have key : ∀ (yoe : Nat) (era ite : Int), 0 ≤ ite → (5 ≤ era ∨ (era = 4 ∧ 1 ≤ yoe)) →
      1601 ≤ (yoe : Int) + era * 400 + ite := by
    intro yoe era ite h1 h2
    omega
  have hyoe : ∀ doe : Nat, 135080 ≤ doe →
      1 ≤ (doe - doe / 1460 + doe / 36524 - doe / 146096) / 365 := by
    intro doe h
    omega
  have hd : (0 : Int) ≤ (n : Int) / 86400 := by omega
  unfold yearOf civilFromDays
  simp only []
  generalize (n : Int) / 86400 = d at hd
  have hite : ∀ (p : Prop) [Decidable p], (0 : Int) ≤ if p then 1 else 0 := by
    intro p _
    split <;> decide
  apply key
  · exact hite _
  · by_cases h5 : 5 ≤ (d + 719468) / 146097
    · exact Or.inl h5
    · right
      have h4 : (d + 719468) / 146097 = 4 := by omega
      refine ⟨h4, hyoe _ ?_⟩
      omega

theorem validCookieExpires_nonneg (n : Nat) : validCookieExpires (n : Int) = true := by
  unfold validCookieExpires
  have := yearOf_nonneg n
  simpa using this


/-- The text of a cookie that expires at or after the Unix epoch carries the
`Expires` attribute with that instant. -/
theorem expires_text (c : Cookie) (h : isCookieNameValid c.Name = true) (n : Nat)
    (he : c.Expires = (n : Int)) :
    str "; Expires=" ++ formatHTTPTime (n : Int) <:+: c.String := by
  rw [Cookie.String_eq c h]
  unfold Cookie.attributes
  rw [he, if_pos (validCookieExpires_nonneg n)]
  apply infix_of_append_left
  apply List.infix_cons
  apply infix_of_append_left
  apply infix_of_append_right
  apply infix_of_append_right
  apply infix_of_append_right
  apply infix_of_append_right
  exact (List.suffix_append _ _).isInfix

/-- C12: for an unsigned 64-bit `expires` in epoch milliseconds, the cookie
`setCookie` builds expires exactly `expires / 1000` (rounded down) seconds
after the Unix epoch; the conversion to a signed 64-bit integer neither
overflows nor becomes negative; the staged text carries that instant; and
`expires = 0` gives the Unix epoch itself. -/
theorem sessionCookie_expires (config : TypeNormalisedInput) (name value : GoString)
    (expires : Nat) (pathType : GoString) (h : expires < 2 ^ 64) :
    (sessionCookie config name value expires pathType).Expires = ((expires / 1000 : Nat) : Int) ∧
    1000 * (expires / 1000) ≤ expires ∧ expires < 1000 * (expires / 1000) + 1000 ∧
    expires / 1000 < 2 ^ 63 ∧
    int64 (expires / 1000) = ((expires / 1000 : Nat) : Int) ∧
    0 ≤ (sessionCookie config name value expires pathType).Expires ∧
    (isCookieNameValid name = true →
      str "; Expires=" ++ formatHTTPTime ((expires / 1000 : Nat) : Int) <:+:
        (sessionCookie config name value expires pathType).String) ∧
    (sessionCookie config name value 0 pathType).Expires = 0 ∧
    formatHTTPTime 0 = str "Thu, 01 Jan 1970 00:00:00 GMT" := by
  have hlt : expires / 1000 < 2 ^ 63 := by omega
  have hexp : (sessionCookie config name value expires pathType).Expires
      = ((expires / 1000 : Nat) : Int) := by
    show int64 (expires / 1000) = _
    exact int64_of_lt _ hlt
  refine ⟨hexp, by omega, by omega, hlt, int64_of_lt _ hlt, ?_, ?_, rfl, by decide⟩
  · rw [hexp]
    exact Int.natCast_nonneg _
  · intro hn
    exact expires_text _ hn _ hexp

/-- C12, at a concrete input: 1700000000999 milliseconds is second
1700000000. -/
theorem sessionCookie_expires_witness :
    (sessionCookie ⟨none, false, str "lax", ⟨str "/refresh"⟩⟩ (str "sAccessToken") (str "t")
      1700000000999 (str "accessTokenPath")).Expires = 1700000000 :=
  (sessionCookie_expires ⟨none, false, str "lax", ⟨str "/refresh"⟩⟩ (str "sAccessToken")
    (str "t") 1700000000999 (str "accessTokenPath") (by decide)).1


/-! ## C13 and C14: headers written by `setToken` and `clearSession` -/

/-- Reading a key of token bytes through its lower-case form reads the key. -/
theorem Header.Get_toLower (uni : GoString → GoString) (res : Header) (k : GoString)
    (h : k.all isTokenByte = true) : res.Get (ToLower uni k) = res.Get k := by
  unfold Header.Get
  rw [canonical_toLower_of_token uni k h]

/-- With `allowDuplicateKey = true`, on a key of token bytes, `setHeader` sets
the value alone when none is there and appends it after `", "` otherwise. -/
theorem setHeader_true_values (uni : GoString → GoString) (res : Header) (k v : GoString)
    (h : k.all isTokenByte = true) :
    (setHeader uni res k v true).Values k
      = [if res.Get k = [] then v else res.Get k ++ str ", " ++ v] := by
  unfold setHeader
  simp only [Header.Get_toLower uni res k h]
  by_cases he : res.Get k = []
  · simp [he, Header.Values, Header.Set]
  · simp [he, Header.Values, Header.Set]

theorem setToken_header_access (uni : GoString → GoString) (o : MapOrder)
    (config : TypeNormalisedInput) (res : Header) (value : GoString) (expires : Nat) :
    setToken uni o config res AccessToken value expires HeaderTransferMethod
      = (setHeader uni (setHeader uni res accessTokenHeaderKey value false)
          (str "Access-Control-Expose-Headers") accessTokenHeaderKey true, none) := by
  have hhc : HeaderTransferMethod ≠ CookieTransferMethod := by decide
  simp [setToken, getResponseHeaderNameForTokenType, hhc]

theorem setToken_header_refresh (uni : GoString → GoString) (o : MapOrder)
    (config : TypeNormalisedInput) (res : Header) (value : GoString) (expires : Nat) :
    setToken uni o config res RefreshToken value expires HeaderTransferMethod
      = (setHeader uni (setHeader uni res refreshTokenHeaderKey value false)
          (str "Access-Control-Expose-Headers") refreshTokenHeaderKey true, none) := by
  have hhc : HeaderTransferMethod ≠ CookieTransferMethod := by decide
  have hra : RefreshToken ≠ AccessToken := by decide
  simp [setToken, getResponseHeaderNameForTokenType, hhc, hra]

/-- What the two `setHeader` calls of the Header branch of `setToken` leave. -/
theorem token_header_written (uni : GoString → GoString) (res : Header)
    (name value : GoString)
    (hne : CanonicalMIMEHeaderKey name
      ≠ CanonicalMIMEHeaderKey (str "Access-Control-Expose-Headers"))
    (hsc : str "Set-Cookie" ≠ CanonicalMIMEHeaderKey name) :
    (setHeader uni (setHeader uni res name value false)
        (str "Access-Control-Expose-Headers") name true).Values name = [value] ∧
    (setHeader uni (setHeader uni res name value false)
        (str "Access-Control-Expose-Headers") name true).Values
        (str "Access-Control-Expose-Headers")
      = [if res.Get (str "Access-Control-Expose-Headers") = [] then name
         else res.Get (str "Access-Control-Expose-Headers") ++ str ", " ++ name] ∧
    (setHeader uni (setHeader uni res name value false)
        (str "Access-Control-Expose-Headers") name true).Values (str "Set-Cookie")
      = res.Values (str "Set-Cookie") ∧
    (∀ key, key ≠ CanonicalMIMEHeaderKey name →
      key ≠ CanonicalMIMEHeaderKey (str "Access-Control-Expose-Headers") →
      setHeader uni (setHeader uni res name value false)
        (str "Access-Control-Expose-Headers") name true key = res key) := by
  have hget : (setHeader uni res name value false).Get (str "Access-Control-Expose-Headers")
      = res.Get (str "Access-Control-Expose-Headers") := by
    unfold Header.Get
    rw [setHeader_other uni res name value false _ (Ne.symm hne)]
  refine ⟨?_, ?_, ?_, ?_⟩
  · unfold Header.Values
    rw [setHeader_other _ _ _ _ _ _ hne, setHeader_false_same]
  · rw [setHeader_true_values _ _ _ _ (by decide), hget]
  · unfold Header.Values
    rw [canon_SetCookie, setHeader_other _ _ _ _ _ _ (by decide),
      setHeader_other _ _ _ _ _ _ hsc]
  · intro key h1 h2
    rw [setHeader_other _ _ _ _ _ _ h2, setHeader_other _ _ _ _ _ _ h1]

/-- C13 (amended): under the Header method `setToken` returns no error, sets
`st-access-token` (AccessToken) or `st-refresh-token` (RefreshToken) to exactly
the given value whatever it held, sets `Access-Control-Expose-Headers` to a
single value, the header name alone when its first value (what `Header.Get`
reads) was empty, unset or set to the empty string, and that first value +
`", "` + name otherwise, and leaves the `Set-Cookie` entries and every other
key as they were. -/
theorem setToken_header_sets (uni : GoString → GoString) (o : MapOrder)
    (config : TypeNormalisedInput) (res : Header) (value : GoString) (expires : Nat) :
    ((setToken uni o config res AccessToken value expires HeaderTransferMethod).2 = none ∧
     (setToken uni o config res AccessToken value expires HeaderTransferMethod).1.Values
        (str "st-access-token") = [value] ∧
     (setToken uni o config res AccessToken value expires HeaderTransferMethod).1.Values
        (str "Access-Control-Expose-Headers")
      = [if res.Get (str "Access-Control-Expose-Headers") = [] then str "st-access-token"
         else res.Get (str "Access-Control-Expose-Headers") ++ str ", " ++
           str "st-access-token"] ∧
     (setToken uni o config res AccessToken value expires HeaderTransferMethod).1.Values
        (str "Set-Cookie") = res.Values (str "Set-Cookie") ∧
     (∀ key, key ≠ CanonicalMIMEHeaderKey (str "st-access-token") →
        key ≠ CanonicalMIMEHeaderKey (str "Access-Control-Expose-Headers") →
        (setToken uni o config res AccessToken value expires HeaderTransferMethod).1 key
          = res key)) ∧
    ((setToken uni o config res RefreshToken value expires HeaderTransferMethod).2 = none ∧
     (setToken uni o config res RefreshToken value expires HeaderTransferMethod).1.Values
        (str "st-refresh-token") = [value] ∧
     (setToken uni o config res RefreshToken value expires HeaderTransferMethod).1.Values
        (str "Access-Control-Expose-Headers")
      = [if res.Get (str "Access-Control-Expose-Headers") = [] then str "st-refresh-token"
         else res.Get (str "Access-Control-Expose-Headers") ++ str ", " ++
           str "st-refresh-token"] ∧
     (setToken uni o config res RefreshToken value expires HeaderTransferMethod).1.Values
        (str "Set-Cookie") = res.Values (str "Set-Cookie") ∧
     (∀ key, key ≠ CanonicalMIMEHeaderKey (str "st-refresh-token") →
        key ≠ CanonicalMIMEHeaderKey (str "Access-Control-Expose-Headers") →
        (setToken uni o config res RefreshToken value expires HeaderTransferMethod).1 key
          = res key)) := by
  constructor
  · rw [setToken_header_access]
    exact ⟨rfl, token_header_written uni res accessTokenHeaderKey value
      (by decide) (by decide)⟩
  · rw [setToken_header_refresh]
    exact ⟨rfl, token_header_written uni res refreshTokenHeaderKey value
      (by decide) (by decide)⟩

/-- C13 as stated fails: on a response whose `Access-Control-Expose-Headers` is
set to the empty string, `setToken` with the Header method leaves it as the
header name alone, not as previous + `", "` + name; and on one whose
`Access-Control-Expose-Headers` has the two values `a` and `b` it leaves the
single value `a, st-access-token`, without `b`. -/
theorem setToken_header_sets_counterexample :
    Header.Values (Function.update Header.empty (str "Access-Control-Expose-Headers") [str ""])
      (str "Access-Control-Expose-Headers") = [str ""] ∧
    (setToken id MapOrder.insertion ⟨none, false, str "lax", ⟨str "/refresh"⟩⟩
        (Function.update Header.empty (str "Access-Control-Expose-Headers") [str ""])
        AccessToken (str "tok") 0 HeaderTransferMethod).1.Values
        (str "Access-Control-Expose-Headers") = [str "st-access-token"] ∧
    str "st-access-token" ≠ str "" ++ str ", " ++ str "st-access-token" ∧
    (setToken id MapOrder.insertion ⟨none, false, str "lax", ⟨str "/refresh"⟩⟩
        (Function.update Header.empty (str "Access-Control-Expose-Headers") [str "a", str "b"])
        AccessToken (str "tok") 0 HeaderTransferMethod).1.Values
        (str "Access-Control-Expose-Headers") = [str "a, st-access-token"] := by
  refine ⟨by decide, ?_, by decide, ?_⟩
  · rw [setToken_header_access]
    rw [(token_header_written id _ accessTokenHeaderKey (str "tok") (by decide) (by decide)).2.1]
    decide
  · rw [setToken_header_access]
    rw [(token_header_written id _ accessTokenHeaderKey (str "tok") (by decide) (by decide)).2.1]
    decide

/-- C14: for the Cookie and the Header transfer method, after `clearSession`
(which returns no error) the response has no `anti-csrf` header, its
`front-token` header is `remove`, and `Access-Control-Expose-Headers` is one
value that is `front-token` or ends in `, front-token`. -/
theorem clearSession_announces_removal (uni : GoString → GoString)
    (ord : TokenType → MapOrder) (config : TypeNormalisedInput) (res : Header)
    (transferMethod : TokenTransferMethod)
    (hm : transferMethod = CookieTransferMethod ∨ transferMethod = HeaderTransferMethod) :
    (clearSession uni ord config res transferMethod).2 = none ∧
    (clearSession uni ord config res transferMethod).1.Values (str "anti-csrf") = [] ∧
    (clearSession uni ord config res transferMethod).1.Values (str "front-token")
      = [str "remove"] ∧
    ∃ exposed, (clearSession uni ord config res transferMethod).1.Values
        (str "Access-Control-Expose-Headers") = [exposed] ∧
      (exposed = str "front-token" ∨ ∃ prev, exposed = prev ++ str ", " ++ str "front-token") := by
  have tail : ∀ w : Header,
      (setHeader uni (setHeader uni (w.Del antiCsrfHeaderKey) frontTokenHeaderKey
          (str "remove") false) (str "Access-Control-Expose-Headers") frontTokenHeaderKey
          true).Values (str "anti-csrf") = [] ∧
      (setHeader uni (setHeader uni (w.Del antiCsrfHeaderKey) frontTokenHeaderKey
          (str "remove") false) (str "Access-Control-Expose-Headers") frontTokenHeaderKey
          true).Values (str "front-token") = [str "remove"] ∧
      ∃ exposed, (setHeader uni (setHeader uni (w.Del antiCsrfHeaderKey) frontTokenHeaderKey
          (str "remove") false) (str "Access-Control-Expose-Headers") frontTokenHeaderKey
          true).Values (str "Access-Control-Expose-Headers") = [exposed] ∧
        (exposed = str "front-token" ∨
          ∃ prev, exposed = prev ++ str ", " ++ str "front-token") := by
    intro w
    refine ⟨?_, ?_, ?_⟩
    · unfold Header.Values
      rw [setHeader_other _ _ _ _ _ _ (by decide), setHeader_other _ _ _ _ _ _ (by decide)]
      exact Function.update_same _ _ _
    · unfold Header.Values
      rw [setHeader_other _ _ _ _ _ _ (by decide)]
      exact setHeader_false_same _ _ _ _
    · rw [setHeader_true_values _ _ _ _ (by decide)]
      refine ⟨_, rfl, ?_⟩
      split
      · exact Or.inl rfl
      · exact Or.inr ⟨_, rfl⟩
  rcases hm with hm | hm
  · subst hm
    rw [clearSession_cookie]
    exact ⟨rfl, tail _⟩
  · subst hm
    rw [clearSession_header]
    exact ⟨rfl, tail _⟩

/-- C14, at a concrete input: clearing under the Header method a response that
carries an `anti-csrf` header. -/
theorem clearSession_announces_removal_witness :
    (clearSession id (fun _ => MapOrder.insertion) ⟨none, false, str "lax", ⟨str "/refresh"⟩⟩
        (Function.update Header.empty (str "Anti-Csrf") [str "abc"])
        HeaderTransferMethod).1.Values (str "anti-csrf") = [] :=
  (clearSession_announces_removal id (fun _ => MapOrder.insertion)
    ⟨none, false, str "lax", ⟨str "/refresh"⟩⟩
    (Function.update Header.empty (str "Anti-Csrf") [str "abc"])
    HeaderTransferMethod (Or.inr rfl)).2.1


/-! ## C16, C17 and C18: reading headers and cookies of the request -/

/-- C16 (amended): for every non-empty token, `setAntiCsrfTokenInHeaders`
followed by `getAntiCsrfTokenFromHeaders` on the request that carries the
response's `anti-csrf` header returns exactly that token. -/
theorem antiCsrf_roundtrip (uni : GoString → GoString) (res : Header) (token : GoString)
    (h : token ≠ []) :
    getAntiCsrfTokenFromHeaders
        (requestWithHeaderOf (setAntiCsrfTokenInHeaders uni res token) antiCsrfHeaderKey)
      = some token := by
  have hv : (setAntiCsrfTokenInHeaders uni res token).Values antiCsrfHeaderKey = [token] := by
    unfold setAntiCsrfTokenInHeaders Header.Values
    simp only []
    rw [setHeader_other _ _ _ _ _ _ (by decide)]
    exact setHeader_false_same _ _ _ _
  unfold getAntiCsrfTokenFromHeaders getHeader requestWithHeaderOf
  simp only [hv, Header.Get, Function.update_same]
  rw [if_neg h]

/-- C16, at a concrete input. -/
theorem antiCsrf_roundtrip_witness :
    getAntiCsrfTokenFromHeaders
        (requestWithHeaderOf (setAntiCsrfTokenInHeaders id Header.empty (str "csrf-token-1"))
          antiCsrfHeaderKey)
      = some (str "csrf-token-1") :=
  antiCsrf_roundtrip id Header.empty (str "csrf-token-1") (by decide)

/-- C16 as stated fails: after the empty token is set, the header is read back
as absent (`nil`), not as the empty string. -/
theorem antiCsrf_roundtrip_counterexample :
    (setAntiCsrfTokenInHeaders id Header.empty (str "")).Values antiCsrfHeaderKey = [str ""] ∧
    getAntiCsrfTokenFromHeaders
        (requestWithHeaderOf (setAntiCsrfTokenInHeaders id Header.empty (str ""))
          antiCsrfHeaderKey)
      = none := by
  refine ⟨by decide, by decide⟩

/-- C17: `getCookieValue` returns none when no cookie of the request has the
name; otherwise it is decided by the first cookie with that name alone: the
URL-decoded value, or none when the value fails URL-decoding. The result is an
optional string: a malformed value is never an error. -/
theorem getCookieValue_first_match (request : Request) (key : GoString) :
    ((∀ c ∈ request.Cookies, c.1 ≠ key) → getCookieValue request key = none) ∧
    (∀ before c after, request.Cookies = before ++ c :: after →
      (∀ d ∈ before, d.1 ≠ key) → c.1 = key →
      getCookieValue request key = QueryUnescape c.2 ∧
      (QueryUnescape c.2 = none → getCookieValue request key = none) ∧
      (∀ decoded, QueryUnescape c.2 = some decoded →
        getCookieValue request key = some decoded)) := by
  constructor
  · intro hno
    unfold getCookieValue
    simp only []
    split
    · rfl
    · have hf : request.Cookies.find? (fun cookie => decide (cookie.1 = key)) = none := by
        rw [List.find?_eq_none]
        intro c hc
        simpa using hno c hc
      rw [hf]
  · intro before c after hcookies hbefore hc
    have hf : request.Cookies.find? (fun cookie => decide (cookie.1 = key)) = some c := by
      rw [hcookies, List.find?_append]
      have hb : before.find? (fun cookie => decide (cookie.1 = key)) = none := by
        rw [List.find?_eq_none]
        intro d hd
        simpa using hbefore d hd
      rw [hb]
      simp [hc]
    have hlen : request.Cookies.length ≠ 0 := by
      rw [hcookies]
      simp
    have hres : getCookieValue request key = QueryUnescape c.2 := by
      unfold getCookieValue
      simp only [hlen, if_false, hf]
    refine ⟨hres, ?_, ?_⟩
    · intro hn
      rw [hres, hn]
    · intro decoded hd
      rw [hres, hd]

/-- An ASCII string that is `s` up to letter case is all ASCII. -/
theorem ascii_of_map_asciiLower (val : GoString) (s : GoString)
    (hs : s.all (fun c => decide (c.val < 128)) = true) (h : val.map asciiLower = s) :
    val.all (fun c => decide (c.val < 128)) = true := by
  have hb : ∀ c : Byte, (asciiLower c).val < 128 → c.val < 128 := by decide
  rw [List.all_eq_true] at hs ⊢
  intro c hc
  have hm : asciiLower c ∈ s := by
    rw [← h]
    exact List.mem_map_of_mem _ hc
  simpa using hb c (by simpa using hs _ hm)

/-- C18: `getAuthmodeFromHeader` returns none exactly when the `st-auth-mode`
header is absent or empty; for a value that is `cookie` up to the case of its
letters it returns CookieTransferMethod, and for one that is `header` up to the
case of its letters it returns HeaderTransferMethod. -/
theorem getAuthmodeFromHeader_cases (uni : GoString → GoString) (req : Request) :
    (getAuthmodeFromHeader uni req = none ↔ req.Header.Get (str "st-auth-mode") = []) ∧
    (req.Header.Values (str "st-auth-mode") = [] → getAuthmodeFromHeader uni req = none) ∧
    ((req.Header.Get (str "st-auth-mode")).map asciiLower = str "cookie" →
      getAuthmodeFromHeader uni req = some CookieTransferMethod) ∧
    ((req.Header.Get (str "st-auth-mode")).map asciiLower = str "header" →
      getAuthmodeFromHeader uni req = some HeaderTransferMethod) := by
  have hcase : ∀ s : GoString, s.all (fun c => decide (c.val < 128)) = true → s ≠ [] →
      (req.Header.Get (str "st-auth-mode")).map asciiLower = s →
      getAuthmodeFromHeader uni req = some s := by
    intro s hs hne h
    have hascii := ascii_of_map_asciiLower _ s hs h
    have hval : req.Header.Get authModeHeaderKey ≠ [] := by
      intro he
      have he2 : req.Header.Get (str "st-auth-mode") = [] := he
      rw [he2] at h
      exact hne h.symm
    unfold getAuthmodeFromHeader getHeader
    simp only [if_neg hval]
    have hl : ToLower uni (req.Header.Get authModeHeaderKey) = s := by
      unfold ToLower
      have : (req.Header.Get authModeHeaderKey).all (fun c => decide (c.val < 128)) = true :=
        hascii
      rw [if_pos this]
      exact h
    rw [hl]
  refine ⟨?_, ?_, ?_, ?_⟩
  · unfold getAuthmodeFromHeader getHeader
    by_cases he : req.Header.Get authModeHeaderKey = []
    · have he2 : req.Header.Get (str "st-auth-mode") = [] := he
      simp [he, he2]
    · have he2 : ¬ req.Header.Get (str "st-auth-mode") = [] := he
      simp [he, he2]
  · intro hv
    have he : req.Header.Get authModeHeaderKey = [] := by
      unfold Header.Get
      unfold Header.Values at hv
      have hv2 : req.Header (CanonicalMIMEHeaderKey authModeHeaderKey) = [] := hv
      rw [hv2]
    unfold getAuthmodeFromHeader getHeader
    simp [he]
  · exact hcase (str "cookie") (by decide) (by decide)
  · exact hcase (str "header") (by decide) (by decide)


/-! ## `base64.StdEncoding`: decoding what was encoded -/

theorem b64val_b64char_fin : ∀ n : Fin 64, b64val (b64char n.val) = some n.val := by
  decide

theorem b64val_b64char (n : Nat) (h : n < 64) : b64val (b64char n) = some n :=
  b64val_b64char_fin ⟨n, h⟩

theorem encodeStd_bytes : ∀ x ∈ encodeStd, x ≠ ch '=' ∧ (x.val ≠ 13 && x.val ≠ 10) = true := by
  decide

theorem b64char_mem (n : Nat) : b64char n ∈ encodeStd := by
  unfold b64char
  by_cases h : n < encodeStd.length
  · rw [List.getD_eq_getElem _ _ h]
    exact List.getElem_mem h
  · rw [List.getD_eq_default _ _ (by omega)]
    decide

theorem b64char_ne_pad (n : Nat) : b64char n ≠ ch '=' :=
  (encodeStd_bytes _ (b64char_mem n)).1

theorem byte_ofNat (a : Byte) (n : Nat) (h : n = a.val) : (Fin.ofNat n : Byte) = a := by
  subst h
  apply Fin.ext
  show a.val % 256 = a.val
  exact Nat.mod_eq_of_lt a.isLt

theorem base64DecodeQuads_encode (l : GoString) :
    base64DecodeQuads (base64Encode l) = some l := by
  induction l using base64Encode.induct with
  | case1 => rfl
  | case2 a =>
    have ha := a.isLt
    simp only [base64Encode, base64DecodeQuads]
    rw [b64val_b64char _ (by omega), b64val_b64char _ (by omega)]
    simp only [and_self, if_true]
    rw [byte_ofNat a _ (by omega)]
  | case3 a b =>
    have ha := a.isLt
    have hb := b.isLt
    simp only [base64Encode, base64DecodeQuads]
    rw [b64val_b64char _ (by omega), b64val_b64char _ (by omega)]
    simp only [b64char_ne_pad, false_and, and_false, if_false, true_and, and_true, if_true]
    rw [b64val_b64char _ (by omega)]
    simp only [if_true]
    rw [byte_ofNat a _ (by omega), byte_ofNat b _ (by omega)]
  | case4 a b c rest ih =>
    have ha := a.isLt
    have hb := b.isLt
    have hc := c.isLt
    simp only [base64Encode, base64DecodeQuads]
    rw [b64val_b64char _ (by omega), b64val_b64char _ (by omega)]
    simp only [b64char_ne_pad, false_and, and_false, if_false]
    rw [b64val_b64char _ (by omega)]
    simp only [if_false]
    rw [b64val_b64char _ (by omega)]
    simp only [ih, Option.map_some']
    rw [byte_ofNat a _ (by omega), byte_ofNat b _ (by omega), byte_ofNat c _ (by omega)]

theorem base64Encode_bytes (l : GoString) :
    ∀ x ∈ base64Encode l, (x.val ≠ 13 && x.val ≠ 10) = true := by
  have hpad : (((ch '=').val ≠ 13 && (ch '=').val ≠ 10) = true) := by decide
  have hchar : ∀ n, (((b64char n).val ≠ 13 && (b64char n).val ≠ 10) = true) := fun n =>
    (encodeStd_bytes _ (b64char_mem n)).2
  induction l using base64Encode.induct with
  | case1 => simp [base64Encode]
  | case2 a =>
    intro x hx
    simp only [base64Encode, List.mem_cons, List.mem_singleton, List.not_mem_nil, or_false] at hx
    rcases hx with h | h | h | h <;> rw [h] <;> first | exact hchar _ | exact hpad
  | case3 a b =>
    intro x hx
    simp only [base64Encode, List.mem_cons, List.mem_singleton, List.not_mem_nil, or_false] at hx
    rcases hx with h | h | h | h <;> rw [h] <;> first | exact hchar _ | exact hpad
  | case4 a b c rest ih =>
    intro x hx
    simp only [base64Encode, List.mem_cons] at hx
    rcases hx with h | h | h | h | h
    · rw [h]; exact hchar _
    · rw [h]; exact hchar _
    · rw [h]; exact hchar _
    · rw [h]; exact hchar _
    · exact ih x h

/-- Decoding the standard base64 encoding of a string gives the string back. -/
theorem base64Decode_base64Encode (l : GoString) : base64Decode (base64Encode l) = some l := by
  unfold base64Decode
  rw [List.filter_eq_self.2 (base64Encode_bytes l)]
  exact base64DecodeQuads_encode l


/-! ## C15: the front-token header -/

/-- C15: for a payload that `json.Marshal` turns into the text `up`,
`setFrontTokenInHeaders` sets the `front-token` header to the standard base64
encoding of the JSON object with the fields `uid`, `ate`, `up` in that order,
and base64-decoding the header gives that JSON text; for user id `user-1`,
expiry 1700000000000 and the payload text `{"sub":"x"}` the decoded bytes are
exactly `{"uid":"user-1","ate":1700000000000,"up":{"sub":"x"}}`. -/
theorem setFrontTokenInHeaders_encodes {Payload : Type} (uni : GoString → GoString)
    (marshal : Payload → Option GoString) (res : Header) (userId : GoString) (atExpiry : Nat)
    (jwtPayload : Payload) (up : GoString) (h : marshal jwtPayload = some up) :
    (setFrontTokenInHeaders uni marshal res userId atExpiry jwtPayload).Values
        (str "front-token")
      = [base64Encode (str "\x7b\"uid\":" ++ jsonString userId ++ str ",\"ate\":" ++
          formatUint atExpiry ++ str ",\"up\":" ++ up ++ str "\x7d")] ∧
    base64Decode
        ((setFrontTokenInHeaders uni marshal res userId atExpiry jwtPayload).Get
          (str "front-token"))
      = some (str "\x7b\"uid\":" ++ jsonString userId ++ str ",\"ate\":" ++
          formatUint atExpiry ++ str ",\"up\":" ++ up ++ str "\x7d") ∧
    (userId = str "user-1" → atExpiry = 1700000000000 → up = str "\x7b\"sub\":\"x\"\x7d" →
      base64Decode
          ((setFrontTokenInHeaders uni marshal res userId atExpiry jwtPayload).Get
            (str "front-token"))
        = some (str
            "\x7b\"uid\":\"user-1\",\"ate\":1700000000000,\"up\":\x7b\"sub\":\"x\"\x7d\x7d")) := by
  have hv : (setFrontTokenInHeaders uni marshal res userId atExpiry jwtPayload).Values
      (str "front-token")
      = [base64Encode (str "\x7b\"uid\":" ++ jsonString userId ++ str ",\"ate\":" ++
          formatUint atExpiry ++ str ",\"up\":" ++ up ++ str "\x7d")] := by
    unfold setFrontTokenInHeaders TokenInfo.Marshal Header.Values
    simp only [h]
    rw [setHeader_other _ _ _ _ _ _ (by decide)]
    exact setHeader_false_same _ _ _ _
  have hg : (setFrontTokenInHeaders uni marshal res userId atExpiry jwtPayload).Get
      (str "front-token")
      = base64Encode (str "\x7b\"uid\":" ++ jsonString userId ++ str ",\"ate\":" ++
          formatUint atExpiry ++ str ",\"up\":" ++ up ++ str "\x7d") := by
    unfold Header.Get
    unfold Header.Values at hv
    rw [hv]
  refine ⟨hv, ?_, ?_⟩
  · rw [hg, base64Decode_base64Encode]
  · intro h1 h2 h3
    rw [hg, base64Decode_base64Encode, h1, h2, h3]
    decide

/-- C15, at the example of the spec: the header for user `user-1`, expiry
1700000000000 and a payload whose JSON text is `{"sub":"x"}`. -/
theorem setFrontTokenInHeaders_encodes_witness :
    (setFrontTokenInHeaders id (fun (p : GoString) => some p) Header.empty (str "user-1")
        1700000000000 (str "\x7b\"sub\":\"x\"\x7d")).Values (str "front-token")
      = [str "eyJ1aWQiOiJ1c2VyLTEiLCJhdGUiOjE3MDAwMDAwMDAwMDAsInVwIjp7InN1YiI6IngifX0="] := by
  have h := (setFrontTokenInHeaders_encodes id (fun (p : GoString) => some p) Header.empty
    (str "user-1") 1700000000000 (str "\x7b\"sub\":\"x\"\x7d") (str "\x7b\"sub\":\"x\"\x7d")
    rfl).1
  have he : base64Encode (str "\x7b\"uid\":" ++ jsonString (str "user-1") ++ str ",\"ate\":" ++
      formatUint 1700000000000 ++ str ",\"up\":" ++ str "\x7b\"sub\":\"x\"\x7d" ++ str "\x7d")
      = str "eyJ1aWQiOiJ1c2VyLTEiLCJhdGUiOjE3MDAwMDAwMDAwMDAsInVwIjp7InN1YiI6IngifX0=" := by
    decide
  rw [he] at h
  exact h


/-! ## C19: `shouldAllowAccess` with an empty API key -/

theorem get?_last (l : List GoString) : l.get? (l.length - 1) = l.getLast? := by
  rw [List.getLast?_eq_getElem?, List.get?_eq_getElem?]

/-- What `shouldAllowAccess` does with an empty API key, by the outcome of the
call to the core: the error of the call is returned with `false`; a response
without `status` gives `false`; a string `status` gives whether it is `OK`; a
`status` of any other type makes the type assertion panic. -/
theorem shouldAllowAccess_empty_key
    (SendPostRequest : GoString → GoMap → Except GoError GoMap)
    (ValidateApiKey : Request → DashboardConfig → Except GoError Bool)
    (req : Request) (config : DashboardConfig) (sessionId : GoString)
    (hkey : config.ApiKey = [])
    (hid : (Split (req.Header.Get (str "authorization")) (ch ' ')).getLast? = some sessionId) :
    (∀ err, SendPostRequest (str "/recipe/dashboard/session/verify")
        [(str "sessionId", .string sessionId)] = .error err →
      shouldAllowAccess SendPostRequest ValidateApiKey req config
        = .returns (false, some err)) ∧
    (∀ response, SendPostRequest (str "/recipe/dashboard/session/verify")
        [(str "sessionId", .string sessionId)] = .ok response →
      (response.get (str "status") = none →
        shouldAllowAccess SendPostRequest ValidateApiKey req config
          = .returns (false, none)) ∧
      (∀ status, response.get (str "status") = some (.string status) →
        shouldAllowAccess SendPostRequest ValidateApiKey req config
          = .returns (decide (status = str "OK"), none)) ∧
      (∀ v, response.get (str "status") = some v → (∀ status, v ≠ .string status) →
        shouldAllowAccess SendPostRequest ValidateApiKey req config
          = .panics (str "interface conversion: interface is not string"))) := by
  have hidx : (Split (req.Header.Get (str "authorization")) (ch ' ')).get?
      ((Split (req.Header.Get (str "authorization")) (ch ' ')).length - 1)
      = some sessionId := by
    rw [get?_last, hid]
  refine ⟨?_, ?_⟩
  · intro err herr
    unfold shouldAllowAccess
    simp only [hkey, if_true, hidx, herr]
  · intro response hresp
    refine ⟨?_, ?_, ?_⟩
    · intro hnone
      unfold shouldAllowAccess
      simp only [hkey, if_true, hidx, hresp, hnone]
    · intro status hstatus
      unfold shouldAllowAccess
      simp only [hkey, if_true, hidx, hresp, hstatus]
    · intro v hv hnot
      unfold shouldAllowAccess
      cases v with
      | string s => exact absurd rfl (hnot s)
      | _ => simp only [hkey, if_true, hidx, hresp, hv]

/-- C19: with an empty API key and a successful response of the core whose
`status` is not a string (here the boolean `true`, the number 200 and `null`),
`shouldAllowAccess` panics in the type assertion `status.(string)` instead of
returning `(false, nil)`. -/
theorem shouldAllowAccess_panics_on_non_string_status :
    shouldAllowAccess (fun _ _ => .ok [(str "status", .bool true)]) (fun _ _ => .ok false)
        ⟨Function.update Header.empty (str "Authorization") [str "Bearer KEY"]⟩ ⟨str ""⟩
      = .panics (str "interface conversion: interface is not string") ∧
    shouldAllowAccess (fun _ _ => .ok [(str "status", .float64 4641240890982006784)])
        (fun _ _ => .ok false)
        ⟨Function.update Header.empty (str "Authorization") [str "Bearer KEY"]⟩ ⟨str ""⟩
      = .panics (str "interface conversion: interface is not string") ∧
    shouldAllowAccess (fun _ _ => .ok [(str "status", .null)]) (fun _ _ => .ok false)
        ⟨Function.update Header.empty (str "Authorization") [str "Bearer KEY"]⟩ ⟨str ""⟩
      = .panics (str "interface conversion: interface is not string") := by
  refine ⟨by rfl, by rfl, by rfl⟩


/-! ## C20: the validator of `IncludesAll` -/

theorem buildValsMap_strings (vals : List GoString) :
    buildValsMap (vals.map Value.string) = .returns (vals.map Value.string) := by
  induction vals with
  | nil => rfl
  | cons v rest ih =>
    simp only [List.map_cons, buildValsMap, Value.hashable, if_true, ih]

theorem Value.keyEq_string (a b : GoString) :
    (Value.string a).keyEq (.string b) = decide (a = b) := rfl

theorem any_keyEq_string (vals : List GoString) (a : GoString) :
    (vals.map Value.string).any (fun k => k.keyEq (.string a)) = decide (a ∈ vals) := by
  induction vals with
  | nil => simp
  | cons v rest ih =>
    simp only [List.map_cons, List.any_cons, ih, Value.keyEq_string]
    by_cases h : v = a
    · simp [h]
    · have h2 : ¬ a = v := fun e => h e.symm
      simp [h, h2]

/-- On arrays of strings the loop of `IncludesAll.Validate` asks whether every
element of the claim's array is among `vals`. -/
theorem includesAllLoop_strings (vals claimVal : List GoString) :
    includesAllLoop (vals.map Value.string) (claimVal.map Value.string)
      = .returns (decide (∀ a ∈ claimVal, a ∈ vals)) := by
  induction claimVal with
  | nil => simp [includesAllLoop]
  | cons a rest ih =>
    simp only [List.map_cons, includesAllLoop, valsMapGet, Value.hashable, if_true,
      any_keyEq_string]
    by_cases h : a ∈ vals
    · simp [h, ih]
    · simp [h]

/-- For a claim that holds an array of strings fetched at the time `t`, with no
maximal age, the validator of `IncludesAll(vals)` is valid exactly when every
element of the claim's array is among `vals`: the inclusion is tested the
wrong way round. -/
theorem IncludesAll_Validate_strings (key : GoString) (vals claimVal : List GoString)
    (now t : Int) (rest : GoMap) :
    ∃ result, IncludesAll_Validate key (vals.map Value.string) none now
        ((key, .mapOf [(str "v", .slice (claimVal.map Value.string)), (str "t", .int64 t)])
          :: rest) = .returns result ∧
      (result.IsValid = true ↔ ∀ a ∈ claimVal, a ∈ vals) := by
  have hget : GoMap.get ((key, Value.mapOf [(str "v", .slice (claimVal.map Value.string)),
      (str "t", .int64 t)]) :: rest) key
      = some (.mapOf [(str "v", .slice (claimVal.map Value.string)), (str "t", .int64 t)]) := by
    simp [GoMap.get]
  have hv : GetValueFromPayload key ((key, Value.mapOf [(str "v",
      .slice (claimVal.map Value.string)), (str "t", .int64 t)]) :: rest)
      = .slice (claimVal.map Value.string) := by
    unfold GetValueFromPayload
    rw [hget]
    rfl
  have ht : GetLastRefetchTime key ((key, Value.mapOf [(str "v",
      .slice (claimVal.map Value.string)), (str "t", .int64 t)]) :: rest)
      = .returns (some t) := by
    unfold GetLastRefetchTime
    rw [hget]
    rfl
  have hres : IncludesAll_Validate key (vals.map Value.string) none now
      ((key, .mapOf [(str "v", .slice (claimVal.map Value.string)), (str "t", .int64 t)])
        :: rest)
      = .returns (if ∀ a ∈ claimVal, a ∈ vals then { IsValid := true }
          else { IsValid := false,
                 Reason := some [(str "message", .string (str "wrong value")),
                                 (str "expectedToInclude", .slice (vals.map Value.string)),
                                 (str "actualValue",
                                   .slice (claimVal.map Value.string))] }) := by
    unfold IncludesAll_Validate
    simp only [hv, ht, buildValsMap_strings, includesAllLoop_strings]
    by_cases h : ∀ a ∈ claimVal, a ∈ vals
    · have h1 : decide (∀ a ∈ claimVal, a ∈ vals) = true := decide_eq_true h
      simp only [h1, if_pos h]
      rfl
    · have h1 : decide (∀ a ∈ claimVal, a ∈ vals) = false := decide_eq_false h
      simp only [h1, if_neg h]
      rfl
  refine ⟨_, hres, ?_⟩
  by_cases h : ∀ a ∈ claimVal, a ∈ vals
  · rw [if_pos h]
    exact ⟨fun _ => h, fun _ => rfl⟩
  · rw [if_neg h]
    exact ⟨fun hv => absurd hv (Bool.false_ne_true), fun hh => absurd hh h⟩

/-- C20: the validator of `IncludesAll` tests whether the claim's array is
included in `vals`, not whether `vals` is included in the claim's array. With
the claim `["a", "b"]` (fresh, no maximal age) and `vals = ["a"]` it is invalid
although the array includes every expected value; with the claim `["a"]` and
`vals = ["a", "b"]` it is valid although `b` is missing. -/
theorem IncludesAll_Validate_inverted :
    IncludesAll_Validate (str "roles") [.string (str "a")] none 1000
        [(str "roles", .mapOf [(str "v", .slice [.string (str "a"), .string (str "b")]),
                               (str "t", .int64 1000)])]
      = .returns { IsValid := false,
                   Reason := some [(str "message", .string (str "wrong value")),
                                   (str "expectedToInclude", .slice [.string (str "a")]),
                                   (str "actualValue",
                                     .slice [.string (str "a"), .string (str "b")])] } ∧
    IncludesAll_Validate (str "roles") [.string (str "a"), .string (str "b")] none 1000
        [(str "roles", .mapOf [(str "v", .slice [.string (str "a")]),
                               (str "t", .int64 1000)])]
      = .returns { IsValid := true } := by
  refine ⟨by rfl, by rfl⟩


/-! ## C21, C22 and C23: unreachable errors, `SameSite`, and the token type under the Header method -/

/-- With a token type and a transfer method of the lists that the clearing
loops range over, `setToken` returns no error. -/
theorem setToken_known_no_error (uni : GoString → GoString) (o : MapOrder)
    (config : TypeNormalisedInput) (res : Header) (tokenType : TokenType) (value : GoString)
    (expires : Nat) (transferMethod : TokenTransferMethod)
    (ht : tokenType ∈ [AccessToken, RefreshToken])
    (hm : transferMethod ∈ availableTokenTransferMethods) :
    (setToken uni o config res tokenType value expires transferMethod).2 = none := by
  simp only [availableTokenTransferMethods, List.mem_cons, List.mem_singleton,
    List.not_mem_nil, or_false] at ht hm
  rcases hm with hm | hm <;> rcases ht with ht | ht <;> subst hm <;> subst ht
  · rw [setToken_cookie_access]
  · rw [setToken_cookie_refresh]
  · rw [setToken_header_access]
  · rw [setToken_header_refresh]

/-- C21: for every config, request and response (and every map order),
`clearSessionFromAllTokenTransferMethods` returns no error, and so does each
`clearSession` and each `setToken` call it makes: the transfer methods it ranges
over are Cookie and Header and the token types AccessToken and RefreshToken,
for which `setToken` never takes an error branch. -/
theorem clearSessionFromAllTokenTransferMethods_no_error (uni : GoString → GoString)
    (ord : TokenTransferMethod → TokenType → MapOrder) (config : TypeNormalisedInput)
    (req : Request) (res : Header) :
    (clearSessionFromAllTokenTransferMethods uni ord config req res).2 = none ∧
    availableTokenTransferMethods = [CookieTransferMethod, HeaderTransferMethod] ∧
    (∀ transferMethod ∈ availableTokenTransferMethods, ∀ (o : TokenType → MapOrder)
        (w : Header), (clearSession uni o config w transferMethod).2 = none) ∧
    (∀ transferMethod ∈ availableTokenTransferMethods,
      ∀ tokenType ∈ [AccessToken, RefreshToken], ∀ (o : MapOrder) (w : Header),
        (setToken uni o config w tokenType [] 0 transferMethod).2 = none) := by
  refine ⟨?_, rfl, ?_, ?_⟩
  · rw [clearSessionFromAll_eq]
  · intro transferMethod hm o w
    simp only [availableTokenTransferMethods, List.mem_cons, List.mem_singleton,
      List.not_mem_nil, or_false] at hm
    rcases hm with hm | hm <;> subst hm
    · rw [clearSession_cookie]
    · rw [clearSession_header]
  · intro transferMethod hm tokenType ht o w
    exact setToken_known_no_error uni o config w tokenType [] 0 transferMethod ht hm

/-- The text of a cookie ends with its `SameSite` attribute. -/
theorem sameSite_text (c : Cookie) (h : isCookieNameValid c.Name = true) :
    (if c.SameSite = SameSiteNoneMode then str "; SameSite=None"
      else if c.SameSite = SameSiteLaxMode then str "; SameSite=Lax"
      else if c.SameSite = SameSiteStrictMode then str "; SameSite=Strict"
      else []) <:+ c.String := by
  rw [Cookie.String_eq c h]
  unfold Cookie.attributes
  refine List.IsSuffix.trans ?_ (List.suffix_append _ _)
  refine List.IsSuffix.trans ?_ (List.suffix_cons _ _)
  refine List.IsSuffix.trans ?_ (List.suffix_append _ _)
  exact List.suffix_append _ _

/-- C22: the `SameSite` field of the cookie `setCookie` builds is Lax exactly
when the configured policy is the string `lax`, Strict exactly when it is
`strict`, and None for every other string, `none`, the empty string and
`Strict` among them; the text of the staged cookie ends with the matching
attribute. -/
theorem sessionCookie_sameSite (config : TypeNormalisedInput) (name value : GoString)
    (expires : Nat) (pathType : GoString) :
    ((sessionCookie config name value expires pathType).SameSite = SameSiteLaxMode ↔
      config.CookieSameSite = str "lax") ∧
    ((sessionCookie config name value expires pathType).SameSite = SameSiteStrictMode ↔
      config.CookieSameSite = str "strict") ∧
    ((sessionCookie config name value expires pathType).SameSite = SameSiteNoneMode ↔
      (config.CookieSameSite ≠ str "lax" ∧ config.CookieSameSite ≠ str "strict")) ∧
    (config.CookieSameSite = str "none" ∨ config.CookieSameSite = str "" ∨
        config.CookieSameSite = str "Strict" ∨ config.CookieSameSite = str "LAX" →
      (sessionCookie config name value expires pathType).SameSite = SameSiteNoneMode) ∧
    (isCookieNameValid name = true →
      (config.CookieSameSite = str "lax" →
        str "; SameSite=Lax" <:+ (sessionCookie config name value expires pathType).String) ∧
      (config.CookieSameSite = str "strict" →
        str "; SameSite=Strict" <:+
          (sessionCookie config name value expires pathType).String) ∧
      (config.CookieSameSite ≠ str "lax" → config.CookieSameSite ≠ str "strict" →
        str "; SameSite=None" <:+
          (sessionCookie config name value expires pathType).String)) := by
  have hfield : (sessionCookie config name value expires pathType).SameSite
      = if config.CookieSameSite = str "lax" then SameSiteLaxMode
        else if config.CookieSameSite = str "strict" then SameSiteStrictMode
        else SameSiteNoneMode := rfl
  have hls : str "lax" ≠ str "strict" := by decide
  have h23 : SameSiteLaxMode ≠ SameSiteStrictMode := by decide
  have h24 : SameSiteLaxMode ≠ SameSiteNoneMode := by decide
  have h34 : SameSiteStrictMode ≠ SameSiteNoneMode := by decide
  have hlax : config.CookieSameSite = str "lax" →
      (sessionCookie config name value expires pathType).SameSite = SameSiteLaxMode := by
    intro h
    rw [hfield, if_pos h]
  have hstrict : config.CookieSameSite = str "strict" →
      (sessionCookie config name value expires pathType).SameSite = SameSiteStrictMode := by
    intro h
    have hn : config.CookieSameSite ≠ str "lax" := by
      rw [h]
      exact Ne.symm hls
    rw [hfield, if_neg hn, if_pos h]
  have hnone : config.CookieSameSite ≠ str "lax" → config.CookieSameSite ≠ str "strict" →
      (sessionCookie config name value expires pathType).SameSite = SameSiteNoneMode := by
    intro h1 h2
    rw [hfield, if_neg h1, if_neg h2]
  refine ⟨⟨?_, hlax⟩, ⟨?_, hstrict⟩, ⟨?_, fun h => hnone h.1 h.2⟩, ?_, ?_⟩
  · intro h
    by_contra hne
    by_cases hs : config.CookieSameSite = str "strict"
    · rw [hstrict hs] at h
      exact h23 h.symm
    · rw [hnone hne hs] at h
      exact h24 h.symm
  · intro h
    by_contra hne
    by_cases hl : config.CookieSameSite = str "lax"
    · rw [hlax hl] at h
      exact h23 h
    · rw [hnone hl hne] at h
      exact h34 h.symm
  · intro h
    constructor
    · intro hl
      rw [hlax hl] at h
      exact h24 h
    · intro hs
      rw [hstrict hs] at h
      exact h34 h
  · intro h
    apply hnone
    · rcases h with h | h | h | h <;> rw [h] <;> decide
    · rcases h with h | h | h | h <;> rw [h] <;> decide
  · intro hn
    have htext := sameSite_text (sessionCookie config name value expires pathType) hn
    refine ⟨?_, ?_, ?_⟩
    · intro hl
      rw [hlax hl, if_neg h24, if_pos rfl] at htext
      exact htext
    · intro hs
      rw [hstrict hs, if_neg h34, if_neg (Ne.symm h23), if_pos rfl] at htext
      exact htext
    · intro h1 h2
      rw [hnone h1 h2, if_pos rfl] at htext
      exact htext

/-- C23: under the Header transfer method the result of `getToken` is the same
for every two token types, recognised or not, and is the same for two requests
with the same authorization header value: the token type is not looked at. -/
theorem getToken_header_ignores_tokenType (req : Request) (t1 t2 : TokenType) :
    getToken req t1 HeaderTransferMethod = getToken req t2 HeaderTransferMethod ∧
    getToken req AccessToken HeaderTransferMethod
      = getToken req RefreshToken HeaderTransferMethod ∧
    (∀ req2 : Request,
      req2.Header.Get authorizationHeaderKey = req.Header.Get authorizationHeaderKey →
      getToken req2 t2 HeaderTransferMethod = getToken req t1 HeaderTransferMethod) ∧
    (∀ err, getToken req t1 HeaderTransferMethod ≠ .error err) := by
  have hne : HeaderTransferMethod ≠ CookieTransferMethod := by decide
  have hform : ∀ (r : Request) (t : TokenType), getToken r t HeaderTransferMethod
      = match getHeader r authorizationHeaderKey with
        | none => .ok none
        | some headerValue =>
          if !HasPrefix headerValue (str "Bearer ") then .ok none
          else .ok (some (TrimSpace (ReplaceAll headerValue (str "Bearer ") (str "")))) := by
    intro r t
    unfold getToken
    rw [if_neg hne, if_pos rfl]
  refine ⟨?_, ?_, ?_, ?_⟩
  · rw [hform, hform]
  · rw [hform, hform]
  · intro req2 h
    rw [hform, hform]
    unfold getHeader
    rw [h]
  · intro err
    rw [hform]
    cases getHeader req authorizationHeaderKey with
    | none => simp
    | some hv =>
      simp only []
      split <;> simp


/-! ## C24 and C25: the payload entry of an array claim -/

theorem GoMap.get_put_same (m : GoMap) (key : GoString) (value : Value) :
    (m.put key value).get key = some value := by
  simp [GoMap.get, GoMap.put]

theorem GoMap.find?_filter_ne (m : GoMap) (key k : GoString) (h : k ≠ key) :
    (m.filter (fun e => e.1 ≠ key)).find? (fun e => e.1 = k)
      = m.find? (fun e => e.1 = k) := by
  induction m with
  | nil => rfl
  | cons e rest ih =>
    by_cases he : e.1 = key
    · have hk : ¬ e.1 = k := fun hek => h (hek.symm.trans he)
      have h1 : ¬ (decide (e.1 ≠ key) = true) := by simp [he]
      have h2 : ¬ (decide (e.1 = k) = true) := by simp [hk]
      rw [List.filter_cons_of_neg (p := fun e : GoString × Value => decide (e.1 ≠ key)) h1,
        List.find?_cons_of_neg (p := fun e : GoString × Value => decide (e.1 = k)) _ h2, ih]
    · have h1 : decide (e.1 ≠ key) = true := by simp [he]
      rw [List.filter_cons_of_pos (p := fun e : GoString × Value => decide (e.1 ≠ key)) h1]
      by_cases hek : e.1 = k
      · have h2 : decide (e.1 = k) = true := by simp [hek]
        rw [List.find?_cons_of_pos (p := fun e : GoString × Value => decide (e.1 = k)) _ h2,
          List.find?_cons_of_pos (p := fun e : GoString × Value => decide (e.1 = k)) _ h2]
      · have h2 : ¬ (decide (e.1 = k) = true) := by simp [hek]
        rw [List.find?_cons_of_neg (p := fun e : GoString × Value => decide (e.1 = k)) _ h2,
          List.find?_cons_of_neg (p := fun e : GoString × Value => decide (e.1 = k)) _ h2, ih]

theorem GoMap.get_put_other (m : GoMap) (key k : GoString) (value : Value) (h : k ≠ key) :
    (m.put key value).get k = m.get k := by
  have hk : ¬ key = k := fun hkk => h hkk.symm
  unfold GoMap.get GoMap.put
  rw [List.find?_cons]
  simp only [hk, decide_False]
  rw [GoMap.find?_filter_ne m key k h]

theorem GoMap.get_delete_same (m : GoMap) (key : GoString) :
    (m.delete key).get key = none := by
  have h : (m.filter (fun e => e.1 ≠ key)).find? (fun e => e.1 = key) = none := by
    rw [List.find?_eq_none]
    intro e he
    have := (List.mem_filter.mp he).2
    simpa using this
  unfold GoMap.get GoMap.delete
  rw [h]

theorem GoMap.get_delete_other (m : GoMap) (key k : GoString) (h : k ≠ key) :
    (m.delete key).get k = m.get k := by
  unfold GoMap.get GoMap.delete
  rw [GoMap.find?_filter_ne m key k h]

/-- `GetValueFromPayload` on a payload without the claim. -/
theorem GetValueFromPayload_absent (key : GoString) (payload : GoMap)
    (h : payload.get key = none) : GetValueFromPayload key payload = .null := by
  unfold GetValueFromPayload
  rw [h]

/-- `GetValueFromPayload` on a payload whose claim entry is a map with the
field `v`. -/
theorem GetValueFromPayload_entry (key : GoString) (payload : GoMap)
    (entries : List (GoString × Value)) (v : Value)
    (h : payload.get key = some (.mapOf entries)) (hv : GoMap.get entries (str "v") = some v) :
    GetValueFromPayload key payload = v := by
  unfold GetValueFromPayload
  rw [h]
  simp only [hv]

/-- The four `ShouldRefetch` functions return true when the value of the claim
is not a map. -/
theorem ShouldRefetch_of_not_map (key : GoString) (payload : GoMap) (val : Value)
    (vals : List Value) (maxAgeInSeconds : Option Int) (now : Int)
    (h : ∀ claimVal, GetValueFromPayload key payload ≠ .mapOf claimVal) :
    Includes_ShouldRefetch key val maxAgeInSeconds now payload = .returns true ∧
    Excludes_ShouldRefetch key val maxAgeInSeconds now payload = .returns true ∧
    IncludesAll_ShouldRefetch key vals maxAgeInSeconds now payload = .returns true ∧
    ExcludesAll_ShouldRefetch key vals maxAgeInSeconds now payload = .returns true := by
  unfold Includes_ShouldRefetch Excludes_ShouldRefetch IncludesAll_ShouldRefetch
    ExcludesAll_ShouldRefetch
  cases hg : GetValueFromPayload key payload with
  | mapOf claimVal => exact absurd hg (h claimVal)
  | _ => exact ⟨rfl, rfl, rfl, rfl⟩

/-- What `AddToPayload_internal` returns for a payload that is not the nil map
and an array value. -/
theorem AddToPayload_internal_array (key : GoString) (t : Int) (payload : GoMap) (v : Value)
    (hv : v = .nilSlice ∨ ∃ items, v = .slice items) :
    AddToPayload_internal key t (some payload) v
      = .returns (payload.put key (.mapOf [(str "v", v), (str "t", .int64 t)])) := by
  rcases hv with hv | ⟨items, hv⟩ <;> subst hv <;> rfl

/-- C24: on a payload in which the claim is absent, or in which its entry holds
an array under `v` (the entry `AddToPayload_internal` writes), `ShouldRefetch`
of the validators of `Includes`, `Excludes`, `IncludesAll` and `ExcludesAll`
returns true, for every `maxAgeInSeconds` (nil or not) and every current time;
so it does on every payload that `AddToPayload_internal` returns. -/
theorem ShouldRefetch_true_on_array_claim (key : GoString) (payload : GoMap) (val : Value)
    (vals : List Value) (maxAgeInSeconds : Option Int) (now : Int)
    (h : payload.get key = none ∨
      ∃ entries, payload.get key = some (.mapOf entries) ∧
        (GoMap.get entries (str "v") = some .nilSlice ∨
          ∃ items, GoMap.get entries (str "v") = some (.slice items))) :
    (Includes_ShouldRefetch key val maxAgeInSeconds now payload = .returns true ∧
      Excludes_ShouldRefetch key val maxAgeInSeconds now payload = .returns true ∧
      IncludesAll_ShouldRefetch key vals maxAgeInSeconds now payload = .returns true ∧
      ExcludesAll_ShouldRefetch key vals maxAgeInSeconds now payload = .returns true) ∧
    (∀ (t : Int) (p : Option GoMap) (value : Value) (written : GoMap),
      AddToPayload_internal key t p value = .returns written →
      Includes_ShouldRefetch key val maxAgeInSeconds now written = .returns true ∧
      Excludes_ShouldRefetch key val maxAgeInSeconds now written = .returns true ∧
      IncludesAll_ShouldRefetch key vals maxAgeInSeconds now written = .returns true ∧
      ExcludesAll_ShouldRefetch key vals maxAgeInSeconds now written = .returns true) := by
  have hshape : ∀ q : GoMap, (q.get key = none ∨
      ∃ entries, q.get key = some (.mapOf entries) ∧
        (GoMap.get entries (str "v") = some .nilSlice ∨
          ∃ items, GoMap.get entries (str "v") = some (.slice items))) →
      ∀ claimVal, GetValueFromPayload key q ≠ .mapOf claimVal := by
    intro q hq claimVal
    rcases hq with hq | ⟨entries, hq, hv | ⟨items, hv⟩⟩
    · rw [GetValueFromPayload_absent key q hq]
      exact fun hc => Value.noConfusion hc
    · rw [GetValueFromPayload_entry key q entries _ hq hv]
      exact fun hc => Value.noConfusion hc
    · rw [GetValueFromPayload_entry key q entries _ hq hv]
      exact fun hc => Value.noConfusion hc
  refine ⟨ShouldRefetch_of_not_map key payload val vals maxAgeInSeconds now
    (hshape payload h), ?_⟩
  intro t p value written hw
  apply ShouldRefetch_of_not_map key written val vals maxAgeInSeconds now
  apply hshape written
  right
  cases p with
  | none =>
    exact absurd hw (by cases value <;> simp [AddToPayload_internal, assertCondition])
  | some entries =>
    cases value with
    | nilSlice =>
      rw [AddToPayload_internal_array key t entries _ (Or.inl rfl)] at hw
      cases hw
      exact ⟨_, GoMap.get_put_same _ _ _, Or.inl rfl⟩
    | slice items =>
      rw [AddToPayload_internal_array key t entries _ (Or.inr ⟨items, rfl⟩)] at hw
      cases hw
      exact ⟨_, GoMap.get_put_same _ _ _, Or.inr ⟨items, rfl⟩⟩
    | _ => exact absurd hw (by simp [AddToPayload_internal, assertCondition])

theorem ShouldRefetch_true_on_array_claim_witness :
    (GoMap.get [(str "st-role", Value.mapOf [(str "v", .slice [.string (str "admin")]),
        (str "t", .int64 1700000000)])] (str "st-role") = none ∨
      ∃ entries, GoMap.get [(str "st-role", Value.mapOf [(str "v",
          .slice [.string (str "admin")]), (str "t", .int64 1700000000)])] (str "st-role")
          = some (.mapOf entries) ∧
        (GoMap.get entries (str "v") = some .nilSlice ∨
          ∃ items, GoMap.get entries (str "v") = some (.slice items))) ∧
    Includes_ShouldRefetch (str "st-role") (.string (str "admin")) (some 3600) 1700000100
      [(str "st-role", Value.mapOf [(str "v", .slice [.string (str "admin")]),
        (str "t", .int64 1700000000)])] = .returns true ∧
    Includes_ShouldRefetch (str "st-role") (.string (str "admin")) none 1700000100
      [(str "st-role", Value.mapOf [(str "v", .slice [.string (str "admin")]),
        (str "t", .int64 1700000000)])] = .returns true ∧
    Includes_ShouldRefetch (str "st-role") (.string (str "admin")) (some 3600) 1700000100 []
      = .returns true :=
  ⟨Or.inr ⟨_, rfl, Or.inr ⟨_, rfl⟩⟩,
    (ShouldRefetch_true_on_array_claim (str "st-role")
      [(str "st-role", Value.mapOf [(str "v", .slice [.string (str "admin")]),
        (str "t", .int64 1700000000)])] (.string (str "admin")) [] (some 3600) 1700000100
      (Or.inr ⟨_, rfl, Or.inr ⟨_, rfl⟩⟩)).1.1,
    (ShouldRefetch_true_on_array_claim (str "st-role")
      [(str "st-role", Value.mapOf [(str "v", .slice [.string (str "admin")]),
        (str "t", .int64 1700000000)])] (.string (str "admin")) [] none 1700000100
      (Or.inr ⟨_, rfl, Or.inr ⟨_, rfl⟩⟩)).1.1,
    (ShouldRefetch_true_on_array_claim (str "st-role") [] (.string (str "admin")) []
      (some 3600) 1700000100 (Or.inl rfl)).1.1⟩

/-- C25 (amended): for every payload that is not the nil map, every key and
every array value `v` (a slice, nil or not), `AddToPayload_internal` returns,
`GetValueFromPayload` on the payload it returns gives `v`, every other key
reads as before, and after `RemoveFromPayload` on that payload
`GetValueFromPayload` gives nil (the key is absent, the other keys still read
as before). -/
theorem GetValueFromPayload_AddToPayload_internal (key : GoString) (now : Int)
    (payload : GoMap) (v : Value) (hv : v = .nilSlice ∨ ∃ items, v = .slice items) :
    ∃ written, AddToPayload_internal key now (some payload) v = .returns written ∧
      GetValueFromPayload key written = v ∧
      (∀ k, k ≠ key → written.get k = payload.get k) ∧
      GetValueFromPayload key (RemoveFromPayload key written) = .null ∧
      (RemoveFromPayload key written).get key = none ∧
      (∀ k, k ≠ key → (RemoveFromPayload key written).get k = payload.get k) := by
  refine ⟨_, AddToPayload_internal_array key now payload v hv, ?_, ?_, ?_, ?_, ?_⟩
  · exact GetValueFromPayload_entry key _ _ v (GoMap.get_put_same _ _ _) rfl
  · intro k hk
    exact GoMap.get_put_other payload key k _ hk
  · exact GetValueFromPayload_absent key _ (GoMap.get_delete_same _ key)
  · exact GoMap.get_delete_same _ key
  · intro k hk
    unfold RemoveFromPayload
    rw [GoMap.get_delete_other _ key k hk]
    exact GoMap.get_put_other payload key k _ hk

/-- C25 (amended), at a concrete input: a payload with another key and a nil
entry under the claim key. -/
theorem GetValueFromPayload_AddToPayload_internal_witness :
    (Value.slice [.string (str "admin")] = .nilSlice ∨
      ∃ items, Value.slice [.string (str "admin")] = .slice items) ∧
    ∃ written, AddToPayload_internal (str "st-role") 1700000000
        (some [(str "sub", .string (str "user")), (str "st-role", .null)])
        (.slice [.string (str "admin")]) = .returns written ∧
      GetValueFromPayload (str "st-role") written = .slice [.string (str "admin")] ∧
      (∀ k, k ≠ str "st-role" → written.get k
        = GoMap.get [(str "sub", .string (str "user")), (str "st-role", .null)] k) ∧
      GetValueFromPayload (str "st-role") (RemoveFromPayload (str "st-role") written) = .null ∧
      (RemoveFromPayload (str "st-role") written).get (str "st-role") = none ∧
      (∀ k, k ≠ str "st-role" → (RemoveFromPayload (str "st-role") written).get k
        = GoMap.get [(str "sub", .string (str "user")), (str "st-role", .null)] k) :=
  ⟨Or.inr ⟨_, rfl⟩,
    GetValueFromPayload_AddToPayload_internal (str "st-role") 1700000000
      [(str "sub", .string (str "user")), (str "st-role", .null)]
      (.slice [.string (str "admin")]) (Or.inr ⟨_, rfl⟩)⟩

/-- C25 as stated fails for the nil map, a value of the payload type
`map[string]interface{}`: with an array value the assertion passes and the
assignment `payload[key] = ...` panics, so no payload is returned for
`GetValueFromPayload` to read `v` from. -/
theorem GetValueFromPayload_AddToPayload_internal_counterexample :
    AddToPayload_internal (str "st-role") 1700000000 none (.slice [.string (str "admin")])
      = .panics (str "assignment to entry in nil map") ∧
    ¬ ∃ written, AddToPayload_internal (str "st-role") 1700000000 none
        (.slice [.string (str "admin")]) = .returns written ∧
      GetValueFromPayload (str "st-role") written = .slice [.string (str "admin")] := by
  have h : AddToPayload_internal (str "st-role") 1700000000 none
      (.slice [.string (str "admin")])
      = .panics (str "assignment to entry in nil map") := rfl
  refine ⟨h, ?_⟩
  rintro ⟨written, hw, _⟩
  rw [h] at hw
  exact Outcome.noConfusion hw


/-! ## C26: the session id `shouldAllowAccess` sends to the core -/

/-- The last piece of `Split`: it has no separator, and it is the whole string
when the string has no separator (the only piece then), and what follows the
last separator otherwise (of two pieces or more). -/
theorem Split_getLast (v : GoString) (sep : Byte) :
    ∃ s, (Split v sep).getLast? = some s ∧ sep ∉ s ∧
      ((sep ∉ v ∧ s = v ∧ Split v sep = [v]) ∨
        (∃ pre, v = pre ++ sep :: s ∧ 2 ≤ (Split v sep).length)) := by
  induction v with
  | nil => exact ⟨[], rfl, List.not_mem_nil _, Or.inl ⟨List.not_mem_nil _, rfl, rfl⟩⟩
  | cons c cs ih =>
    obtain ⟨s, hlast, hs, hcase⟩ := ih
    by_cases hc : c = sep
    · have hsplit : Split (c :: cs) sep = [] :: Split cs sep := by
        rw [Split, if_pos hc]
      refine ⟨s, ?_, hs, Or.inr ?_⟩
      · rw [hsplit]
        cases hsp : Split cs sep with
        | nil => exact absurd hsp (Split_ne_nil cs sep)
        | cons p ps =>
          rw [hsp] at hlast
          rw [List.getLast?_cons_cons, hlast]
      · have hlen : 2 ≤ (Split (c :: cs) sep).length := by
          rw [hsplit, List.length_cons]
          have := List.length_pos.mpr (Split_ne_nil cs sep)
          omega
        rcases hcase with ⟨_, hsv, _⟩ | ⟨pre, hpre, _⟩
        · exact ⟨[], by rw [hc, hsv, List.nil_append], hlen⟩
        · exact ⟨c :: pre, by rw [hpre, List.cons_append], hlen⟩
    · rcases hcase with ⟨hnot, hsv, hone⟩ | ⟨pre, hpre, htwo⟩
      · have hsplit : Split (c :: cs) sep = [c :: cs] := by
          rw [Split, if_neg hc, hone]
        refine ⟨c :: cs, ?_, ?_, Or.inl ⟨?_, rfl, hsplit⟩⟩
        · rw [hsplit]
          rfl
        · intro hm
          rcases List.mem_cons.mp hm with h | h
          · exact hc h.symm
          · exact hnot h
        · intro hm
          rcases List.mem_cons.mp hm with h | h
          · exact hc h.symm
          · exact hnot h
      · cases hsp : Split cs sep with
        | nil => exact absurd hsp (Split_ne_nil cs sep)
        | cons p ps =>
          have hsplit : Split (c :: cs) sep = (c :: p) :: ps := by
            rw [Split, if_neg hc, hsp]
          rw [hsp] at hlast htwo
          refine ⟨s, ?_, hs, Or.inr ⟨c :: pre, by rw [hpre, List.cons_append], ?_⟩⟩
          · rw [hsplit]
            cases ps with
            | nil => simp at htwo
            | cons q qs =>
              rw [List.getLast?_cons_cons] at hlast
              rw [List.getLast?_cons_cons, hlast]
          · rw [hsplit]
            exact htwo

/-- C26: with an empty API key, the index `len(keyParts)-1` is in range for
every value of the authorization header, the absent and the empty one among
them, and the piece `sessionId` read there has no space and is the whole value
when the value has no space, and what follows the last space otherwise (`KEY`
for `Bearer KEY`). The
request to the core carries it: the outcome is the error of the querier's
answer to the verify request with that `sessionId` when that answer is an
error, and two queriers with the same answer to that request give the same
outcome. -/
theorem shouldAllowAccess_sessionId_after_last_space
    (SendPostRequest : GoString → GoMap → Except GoError GoMap)
    (ValidateApiKey : Request → DashboardConfig → Except GoError Bool)
    (req : Request) (config : DashboardConfig) (hkey : config.ApiKey = []) :
    Split (str "Bearer KEY") (ch ' ') = [str "Bearer", str "KEY"] ∧
    ∃ sessionId,
      (Split (req.Header.Get (str "authorization")) (ch ' ')).length - 1
        < (Split (req.Header.Get (str "authorization")) (ch ' ')).length ∧
      (Split (req.Header.Get (str "authorization")) (ch ' ')).get?
        ((Split (req.Header.Get (str "authorization")) (ch ' ')).length - 1)
        = some sessionId ∧
      ch ' ' ∉ sessionId ∧
      ((ch ' ' ∉ req.Header.Get (str "authorization") ∧
          sessionId = req.Header.Get (str "authorization")) ∨
        (∃ pre, req.Header.Get (str "authorization") = pre ++ ch ' ' :: sessionId)) ∧
      (req.Header.Get (str "authorization") = [] → sessionId = []) ∧
      (∀ err, SendPostRequest (str "/recipe/dashboard/session/verify")
          [(str "sessionId", .string sessionId)] = .error err →
        shouldAllowAccess SendPostRequest ValidateApiKey req config
          = .returns (false, some err)) ∧
      (∀ other : GoString → GoMap → Except GoError GoMap,
        other (str "/recipe/dashboard/session/verify") [(str "sessionId", .string sessionId)]
          = SendPostRequest (str "/recipe/dashboard/session/verify")
            [(str "sessionId", .string sessionId)] →
        shouldAllowAccess other ValidateApiKey req config
          = shouldAllowAccess SendPostRequest ValidateApiKey req config) ∧
      shouldAllowAccess SendPostRequest ValidateApiKey req config
        ≠ .panics (str "index out of range") := by
  obtain ⟨s, hlast, hs, hcase⟩ := Split_getLast (req.Header.Get (str "authorization")) (ch ' ')
  have hidx : (Split (req.Header.Get (str "authorization")) (ch ' ')).get?
      ((Split (req.Header.Get (str "authorization")) (ch ' ')).length - 1) = some s := by
    rw [get?_last, hlast]
  have hform : ∀ S : GoString → GoMap → Except GoError GoMap,
      shouldAllowAccess S ValidateApiKey req config
        = match S (str "/recipe/dashboard/session/verify") [(str "sessionId", .string s)] with
          | .error err => .returns (false, some err)
          | .ok verifyResponse =>
            match verifyResponse.get (str "status") with
            | none => .returns (false, none)
            | some (.string status) => .returns (decide (status = str "OK"), none)
            | some _ => .panics (str "interface conversion: interface is not string") := by
    intro S
    unfold shouldAllowAccess
    simp only [hkey, if_true, hidx]
  refine ⟨by rfl, s, ?_, hidx, hs, ?_, ?_, ?_, ?_, ?_⟩
  · have := List.length_pos.mpr (Split_ne_nil (req.Header.Get (str "authorization")) (ch ' '))
    omega
  · rcases hcase with ⟨hnot, hsv, _⟩ | ⟨pre, hpre, _⟩
    · exact Or.inl ⟨hnot, hsv⟩
    · exact Or.inr ⟨pre, hpre⟩
  · intro hempty
    rw [hempty] at hlast
    exact (Option.some.inj hlast).symm
  · intro err herr
    rw [hform, herr]
  · intro other hother
    rw [hform, hform, hother]
  · rw [hform]
    intro hc
    split at hc
    · cases hc
    · split at hc
      · cases hc
      · cases hc
      · exact absurd (Outcome.panics.inj hc) (by decide)

theorem shouldAllowAccess_sessionId_after_last_space_witness :
    (⟨str ""⟩ : DashboardConfig).ApiKey = [] ∧
    (Split (Header.Get (Function.update Header.empty (str "Authorization")
      [str "Bearer KEY"]) (str "authorization")) (ch ' ')).getLast? = some (str "KEY") ∧
    shouldAllowAccess
      (fun _ body => match body with
        | [(_, .string sessionId)] => .error sessionId
        | _ => .ok [])
      (fun _ _ => .ok false)
      ⟨Function.update Header.empty (str "Authorization") [str "Bearer KEY"]⟩ ⟨str ""⟩
      = .returns (false, some (str "KEY")) ∧
    ∃ sessionId,
      (Split (Header.Get (Function.update Header.empty (str "Authorization")
        [str "Bearer KEY"]) (str "authorization")) (ch ' ')).get?
        ((Split (Header.Get (Function.update Header.empty (str "Authorization")
          [str "Bearer KEY"]) (str "authorization")) (ch ' ')).length - 1)
        = some sessionId ∧
      ch ' ' ∉ sessionId := by
  refine ⟨rfl, by rfl, by rfl, ?_⟩
  obtain ⟨_, sessionId, _, hidx, hs, _⟩ :=
    shouldAllowAccess_sessionId_after_last_space (fun _ _ => .ok []) (fun _ _ => .ok false)
      ⟨Function.update Header.empty (str "Authorization") [str "Bearer KEY"]⟩ ⟨str ""⟩ rfl
  exact ⟨sessionId, hidx, hs⟩


/-! ## C1 and C2: a staged cookie whose name is followed by white space -/

theorem perm_pair {α : Type} {a b : α} {l : List α} (h : l.Perm [a, b]) :
    l = [a, b] ∨ l = [b, a] := by
  have hl := h.length_eq
  match l, hl, h with
  | [x, y], _, h =>
    have hx : x ∈ [a, b] := h.subset (List.mem_cons_self _ _)
    rcases List.mem_cons.mp hx with hx | hx
    · subst hx
      have h1 := (List.perm_cons x).mp h
      rw [List.perm_singleton.mp h1]
      exact Or.inl rfl
    · have hx1 : x = b := by simpa using hx
      subst hx1
      have h1 := (List.perm_cons x).mp (h.trans (List.Perm.swap x a []))
      rw [List.perm_singleton.mp h1]
      exact Or.inr rfl

/-- The name `net/http` reads off a `Set-Cookie` text that starts with a valid
cookie name and `=` is that name. -/
theorem setCookieLineName_name_cons (name rest : GoString)
    (h : isCookieNameValid name = true) :
    setCookieLineName (name ++ ch '=' :: rest) = some name := by
  obtain ⟨_, htok⟩ := (isCookieNameValid_iff name).1 h
  have hsemi : ∀ x ∈ name, (fun b => decide (b ≠ ch ';')) x = true := by
    intro x hx
    simpa using (token_facts x (htok x hx)).2.1
  have heq : ∀ x ∈ name, (fun b => decide (b ≠ ch '=')) x = true := by
    intro x hx
    simpa using (token_facts x (htok x hx)).2.2
  have hsp : ∀ x ∈ name, isASCIISpace x = false := fun x hx => (token_facts x (htok x hx)).1
  have h2 : (ch '=' :: rest.rdropWhile isASCIISpace).takeWhile (fun b => decide (b ≠ ch ';'))
      = ch '=' :: (rest.rdropWhile isASCIISpace).takeWhile (fun b => decide (b ≠ ch ';')) := by
    rw [List.takeWhile_cons_of_pos (by decide)]
  unfold setCookieLineName
  simp only []
  rw [Split_headD, TrimString_name_cons name rest h, takeWhile_append_of_all _ _ hsemi, h2,
    TrimString_name_cons name _ h, takeWhile_append_of_all _ _ heq,
    List.takeWhile_cons_of_neg (by decide), List.append_nil, TrimString_of_no_space name hsp]
  have hmem : ch '=' ∈ name ++ ch '=' ::
      List.rdropWhile isASCIISpace (List.takeWhile (fun b => decide (b ≠ ch ';'))
        (List.rdropWhile isASCIISpace rest)) := by
    simp
  simp [hmem, h]

/-- For a cookie with a valid name, `net/http` reads the cookie's name off its
`Set-Cookie` text. -/
theorem setCookieLineName_String (c : Cookie) (h : isCookieNameValid c.Name = true) :
    setCookieLineName c.String = some c.Name := by
  rw [Cookie.String_eq c h, setCookieLineName_name_cons _ _ h]

/-- C2: on a response whose `Set-Cookie` entry is `sAccessToken =stale; Path=/`
(white space before the `=`), after `setCookieValue` with two cookies named
`sAccessToken` the stale entry is still there beside the second cookie, in
every map order: `getCookieName` keys it as `sAccessToken ` with the space,
while `net/http` reads the name `sAccessToken` off both entries, so two entries
have that name. -/
theorem setCookieValue_keeps_entry_with_spaced_name (o1 o2 : MapOrder) :
    ((setCookieValue o2
        (setCookieValue o1
          (Function.update Header.empty (str "Set-Cookie") [str "sAccessToken =stale; Path=/"])
          { Name := str "sAccessToken", Value := str "old" })
        { Name := str "sAccessToken", Value := str "new" }).Values (str "Set-Cookie")).Perm
      [str "sAccessToken =stale; Path=/", str "sAccessToken=new"] ∧
    ((setCookieValue o2
        (setCookieValue o1
          (Function.update Header.empty (str "Set-Cookie") [str "sAccessToken =stale; Path=/"])
          { Name := str "sAccessToken", Value := str "old" })
        { Name := str "sAccessToken", Value := str "new" }).Values (str "Set-Cookie")).countP
      (fun e => setCookieLineName e = some (str "sAccessToken")) = 2 ∧
    Cookie.String { Name := str "sAccessToken", Value := str "new" } = str "sAccessToken=new" ∧
    setCookieLineName (str "sAccessToken =stale; Path=/") = some (str "sAccessToken") ∧
    setCookieLineName (str "sAccessToken=new") = some (str "sAccessToken") ∧
    getCookieName (str "sAccessToken =stale; Path=/") = str "sAccessToken " ∧
    getCookieName (str "sAccessToken=new") = str "sAccessToken" := by
  have hperm : ((setCookieValue o2
        (setCookieValue o1
          (Function.update Header.empty (str "Set-Cookie") [str "sAccessToken =stale; Path=/"])
          { Name := str "sAccessToken", Value := str "old" })
        { Name := str "sAccessToken", Value := str "new" }).Values (str "Set-Cookie")).Perm
      [str "sAccessToken =stale; Path=/", str "sAccessToken=new"] := by
    have h0 : Header.Values
        (Function.update Header.empty (str "Set-Cookie") [str "sAccessToken =stale; Path=/"])
        (str "Set-Cookie") = [str "sAccessToken =stale; Path=/"] := by decide
    have h1 : (setCookieValue o1
          (Function.update Header.empty (str "Set-Cookie") [str "sAccessToken =stale; Path=/"])
          { Name := str "sAccessToken", Value := str "old" }).Values (str "Set-Cookie")
        = (o1.arrange [(str "sAccessToken ", str "sAccessToken =stale; Path=/"),
            (str "sAccessToken", str "sAccessToken=old")]).map Prod.snd := by
      rw [setCookieValue_values, h0, if_neg (by decide)]
      rfl
    have hnew : Cookie.String { Name := str "sAccessToken", Value := str "new" }
        = str "sAccessToken=new" := by decide
    rw [setCookieValue_values, h1, hnew]
    rcases perm_pair (o1.perm [(str "sAccessToken ", str "sAccessToken =stale; Path=/"),
        (str "sAccessToken", str "sAccessToken=old")]) with ha | ha
    · rw [ha]
      have hm : existingCookies
          (List.map Prod.snd [(str "sAccessToken ", str "sAccessToken =stale; Path=/"),
            (str "sAccessToken", str "sAccessToken=old")]) (str "sAccessToken=new")
          = [(str "sAccessToken ", str "sAccessToken =stale; Path=/"),
            (str "sAccessToken", str "sAccessToken=new")] := by decide
      rw [if_neg (by decide), hm]
      exact (o2.perm _).map Prod.snd
    · rw [ha]
      have hm : existingCookies
          (List.map Prod.snd [(str "sAccessToken", str "sAccessToken=old"),
            (str "sAccessToken ", str "sAccessToken =stale; Path=/")]) (str "sAccessToken=new")
          = [(str "sAccessToken", str "sAccessToken=new"),
            (str "sAccessToken ", str "sAccessToken =stale; Path=/")] := by decide
      rw [if_neg (by decide), hm]
      exact ((o2.perm _).map Prod.snd).trans (List.Perm.swap _ _ [])
  refine ⟨hperm, ?_, by decide, by decide, by decide, by decide, by decide⟩
  rw [hperm.countP_eq]
  decide

/-- The `Set-Cookie` values after `clearSessionFromAllTokenTransferMethods`
are those after its two cookie writes. -/
theorem clearSessionFromAll_cookies (uni : GoString → GoString)
    (ord : TokenTransferMethod → TokenType → MapOrder) (config : TypeNormalisedInput)
    (req : Request) (res : Header) :
    (clearSessionFromAllTokenTransferMethods uni ord config req res).1.Values (str "Set-Cookie")
      = (setCookieValue (ord CookieTransferMethod RefreshToken)
          (setCookieValue (ord CookieTransferMethod AccessToken) res
            (sessionCookie config accessTokenCookieKey [] 0 (str "accessTokenPath")))
          (sessionCookie config refreshTokenCookieKey [] 0 (str "refreshTokenPath"))).Values
          (str "Set-Cookie") := by
  rw [clearSessionFromAll_eq, clearSession_header, clearSession_cookie]
  simp only [Header.Values, setCookie]
  simp (disch := decide) only [setHeader_other, Header.Del_other]

theorem existingCookies_one (e c : GoString) (h : getCookieName e ≠ getCookieName c) :
    existingCookies [e] c = [(getCookieName e, e), (getCookieName c, c)] := by
  simp [existingCookies, mapSet, h]

theorem existingCookies_two (e1 e2 c : GoString)
    (h12 : getCookieName e1 ≠ getCookieName e2) (h1 : getCookieName e1 ≠ getCookieName c)
    (h2 : getCookieName e2 ≠ getCookieName c) :
    existingCookies [e1, e2] c
      = [(getCookieName e1, e1), (getCookieName e2, e2), (getCookieName c, c)] := by
  simp [existingCookies, mapSet, h12, h1, h2]

/-- With the map ranged over in insertion order, the `Set-Cookie` values after
`clearSessionFromAllTokenTransferMethods` on a response whose one entry is
`sAccessToken =stale; Path=/`: that entry, then the two cleared cookies. -/
theorem clearSessionFromAll_spaced_values (uni : GoString → GoString)
    (config : TypeNormalisedInput) (req : Request) :
    (clearSessionFromAllTokenTransferMethods uni (fun _ _ => MapOrder.insertion) config req
        (Function.update Header.empty (str "Set-Cookie")
          [str "sAccessToken =stale; Path=/"])).1.Values (str "Set-Cookie")
      = [str "sAccessToken =stale; Path=/",
         (sessionCookie config accessTokenCookieKey [] 0 (str "accessTokenPath")).String,
         (sessionCookie config refreshTokenCookieKey [] 0 (str "refreshTokenPath")).String] := by
  have hva : isCookieNameValid accessTokenCookieKey = true := by decide
  have hvr : isCookieNameValid refreshTokenCookieKey = true := by decide
  have hna : getCookieName
      (sessionCookie config accessTokenCookieKey [] 0 (str "accessTokenPath")).String
      = accessTokenCookieKey :=
    getCookieName_String _ hva
  have hnr : getCookieName
      (sessionCookie config refreshTokenCookieKey [] 0 (str "refreshTokenPath")).String
      = refreshTokenCookieKey :=
    getCookieName_String _ hvr
  have hns : getCookieName (str "sAccessToken =stale; Path=/") = str "sAccessToken " := by
    decide
  have hsa : getCookieName (str "sAccessToken =stale; Path=/") ≠ getCookieName
      (sessionCookie config accessTokenCookieKey [] 0 (str "accessTokenPath")).String := by
    rw [hns, hna]
    decide
  have hsr : getCookieName (str "sAccessToken =stale; Path=/") ≠ getCookieName
      (sessionCookie config refreshTokenCookieKey [] 0 (str "refreshTokenPath")).String := by
    rw [hns, hnr]
    decide
  have har : getCookieName
      (sessionCookie config accessTokenCookieKey [] 0 (str "accessTokenPath")).String
      ≠ getCookieName
        (sessionCookie config refreshTokenCookieKey [] 0 (str "refreshTokenPath")).String := by
    rw [hna, hnr]
    decide
  have h0 : Header.Values
      (Function.update Header.empty (str "Set-Cookie") [str "sAccessToken =stale; Path=/"])
      (str "Set-Cookie") = [str "sAccessToken =stale; Path=/"] := by decide
  have h1 : (setCookieValue MapOrder.insertion
      (Function.update Header.empty (str "Set-Cookie") [str "sAccessToken =stale; Path=/"])
      (sessionCookie config accessTokenCookieKey [] 0 (str "accessTokenPath"))).Values
      (str "Set-Cookie")
      = [str "sAccessToken =stale; Path=/",
         (sessionCookie config accessTokenCookieKey [] 0 (str "accessTokenPath")).String] := by
    rw [setCookieValue_values, h0, if_neg (List.cons_ne_nil _ _), existingCookies_one _ _ hsa]
    simp only [MapOrder.insertion, List.map_cons, List.map_nil]
  rw [clearSessionFromAll_cookies, setCookieValue_values, h1, if_neg (List.cons_ne_nil _ _),
    existingCookies_two _ _ _ hsa hsr har]
  simp only [MapOrder.insertion, List.map_cons, List.map_nil]

/-- With the map ranged over in insertion order, the request that carries the
cookies staged after `clearSessionFromAllTokenTransferMethods` on a response
whose one entry was `sAccessToken =stale; Path=/` has three cookies, the stale
one first. -/
theorem clearSessionFromAll_spaced_cookies (uni : GoString → GoString)
    (config : TypeNormalisedInput) (req : Request) :
    (requestCarrying (clearSessionFromAllTokenTransferMethods uni
        (fun _ _ => MapOrder.insertion) config req
        (Function.update Header.empty (str "Set-Cookie")
          [str "sAccessToken =stale; Path=/"])).1).Cookies
      = [(str "sAccessToken", str "stale"), (str "sAccessToken", str ""),
         (str "sRefreshToken", str "")] := by
  have hpa := (cleared_cookie_text config accessTokenCookieKey (str "accessTokenPath")
    (by decide)).1
  have hpr := (cleared_cookie_text config refreshTokenCookieKey (str "refreshTokenPath")
    (by decide)).1
  have hline : (requestCarrying (clearSessionFromAllTokenTransferMethods uni
      (fun _ _ => MapOrder.insertion) config req
      (Function.update Header.empty (str "Set-Cookie")
        [str "sAccessToken =stale; Path=/"])).1).Header (str "Cookie")
      = [str "sAccessToken =stale; sAccessToken=; sRefreshToken="] := by
    unfold requestCarrying
    rw [clearSessionFromAll_spaced_values]
    simp only [List.map_cons, List.map_nil, hpa, hpr]
    rw [Function.update_same]
    decide
  unfold Request.Cookies
  rw [hline]
  decide

theorem two_le_length_of_mem {α : Type} {a b : α} {m : List α} (ha : a ∈ m) (hb : b ∈ m)
    (hab : a ≠ b) : 2 ≤ m.length := by
  match m, ha, hb with
  | [x], ha, hb =>
    exact absurd ((List.mem_singleton.mp ha).trans (List.mem_singleton.mp hb).symm) hab
  | _ :: _ :: _, _, _ => simp

/-- C1: on a response whose `Set-Cookie` entry is `sAccessToken =stale; Path=/`
(white space before the `=`), after `clearSessionFromAllTokenTransferMethods`
the stale entry is still among the `Set-Cookie` values beside the cleared
`sAccessToken` cookie, for every config and map order; `net/http` reads the
name `sAccessToken` off both, so two entries have that name and one of them has
the value `stale`. With the entries in insertion order the request that carries
the staged cookies back gives `getToken` the access token `stale`. -/
theorem clearSessionFromAllTokenTransferMethods_keeps_entry_with_spaced_name
    (uni : GoString → GoString) (ord : TokenTransferMethod → TokenType → MapOrder)
    (config : TypeNormalisedInput) (req : Request) :
    str "sAccessToken =stale; Path=/" ∈
      (clearSessionFromAllTokenTransferMethods uni ord config req
        (Function.update Header.empty (str "Set-Cookie")
          [str "sAccessToken =stale; Path=/"])).1.Values (str "Set-Cookie") ∧
    (sessionCookie config accessTokenCookieKey [] 0 (str "accessTokenPath")).String ∈
      (clearSessionFromAllTokenTransferMethods uni ord config req
        (Function.update Header.empty (str "Set-Cookie")
          [str "sAccessToken =stale; Path=/"])).1.Values (str "Set-Cookie") ∧
    setCookieLineName (str "sAccessToken =stale; Path=/") = some (str "sAccessToken") ∧
    setCookieLineName (sessionCookie config accessTokenCookieKey [] 0
      (str "accessTokenPath")).String = some (str "sAccessToken") ∧
    cookiePair (str "sAccessToken =stale; Path=/") = str "sAccessToken =stale" ∧
    cookiePair (sessionCookie config accessTokenCookieKey [] 0 (str "accessTokenPath")).String
      = str "sAccessToken=" ∧
    2 ≤ ((clearSessionFromAllTokenTransferMethods uni ord config req
        (Function.update Header.empty (str "Set-Cookie")
          [str "sAccessToken =stale; Path=/"])).1.Values (str "Set-Cookie")).countP
      (fun e => setCookieLineName e = some (str "sAccessToken")) ∧
    getCookieName (str "sAccessToken =stale; Path=/") = str "sAccessToken " ∧
    getToken
      (requestCarrying (clearSessionFromAllTokenTransferMethods uni
        (fun _ _ => MapOrder.insertion) config req
        (Function.update Header.empty (str "Set-Cookie")
          [str "sAccessToken =stale; Path=/"])).1)
      AccessToken CookieTransferMethod = .ok (some (str "stale")) := by
  have hva : isCookieNameValid accessTokenCookieKey = true := by decide
  have hvr : isCookieNameValid refreshTokenCookieKey = true := by decide
  have hna : getCookieName
      (sessionCookie config accessTokenCookieKey [] 0 (str "accessTokenPath")).String
      = accessTokenCookieKey :=
    getCookieName_String _ hva
  have hnr : getCookieName
      (sessionCookie config refreshTokenCookieKey [] 0 (str "refreshTokenPath")).String
      = refreshTokenCookieKey :=
    getCookieName_String _ hvr
  have hsa : ¬ str "sAccessToken " = accessTokenCookieKey := by decide
  have hsr : ¬ str "sAccessToken " = refreshTokenCookieKey := by decide
  have hstale : entriesNamed
      (setCookieValue (ord CookieTransferMethod RefreshToken)
        (setCookieValue (ord CookieTransferMethod AccessToken)
          (Function.update Header.empty (str "Set-Cookie")
            [str "sAccessToken =stale; Path=/"])
          (sessionCookie config accessTokenCookieKey [] 0 (str "accessTokenPath")))
        (sessionCookie config refreshTokenCookieKey [] 0 (str "refreshTokenPath")))
      (str "sAccessToken ") = [str "sAccessToken =stale; Path=/"] := by
    rw [entriesNamed_setCookieValue, hnr, if_neg hsr,
      lastNamed_toList_of_nodup _ _ (setCookieValue_names_nodup _ _ _)]
    have h := entriesNamed_setCookieValue (ord CookieTransferMethod AccessToken)
      (Function.update Header.empty (str "Set-Cookie") [str "sAccessToken =stale; Path=/"])
      (sessionCookie config accessTokenCookieKey [] 0 (str "accessTokenPath"))
      (str "sAccessToken ")
    rw [hna, if_neg hsa] at h
    exact h
  have hcleared := (entriesNamed_two_writes (ord CookieTransferMethod AccessToken)
    (ord CookieTransferMethod RefreshToken)
    (Function.update Header.empty (str "Set-Cookie") [str "sAccessToken =stale; Path=/"])
    (sessionCookie config accessTokenCookieKey [] 0 (str "accessTokenPath"))
    (sessionCookie config refreshTokenCookieKey [] 0 (str "refreshTokenPath"))
    hva hvr (show accessTokenCookieKey ≠ refreshTokenCookieKey by decide)).1
  have hmem1 : str "sAccessToken =stale; Path=/" ∈
      (clearSessionFromAllTokenTransferMethods uni ord config req
        (Function.update Header.empty (str "Set-Cookie")
          [str "sAccessToken =stale; Path=/"])).1.Values (str "Set-Cookie") := by
    rw [clearSessionFromAll_cookies]
    have : str "sAccessToken =stale; Path=/" ∈ [str "sAccessToken =stale; Path=/"] :=
      List.mem_singleton_self _
    rw [← hstale] at this
    exact (List.mem_filter.mp this).1
  have hmem2 : (sessionCookie config accessTokenCookieKey [] 0 (str "accessTokenPath")).String ∈
      (clearSessionFromAllTokenTransferMethods uni ord config req
        (Function.update Header.empty (str "Set-Cookie")
          [str "sAccessToken =stale; Path=/"])).1.Values (str "Set-Cookie") := by
    rw [clearSessionFromAll_cookies]
    have : (sessionCookie config accessTokenCookieKey [] 0 (str "accessTokenPath")).String ∈
        [(sessionCookie config accessTokenCookieKey [] 0 (str "accessTokenPath")).String] :=
      List.mem_singleton_self _
    rw [← hcleared] at this
    exact (List.mem_filter.mp this).1
  have hn1 : setCookieLineName (str "sAccessToken =stale; Path=/")
      = some (str "sAccessToken") := by decide
  have hn2 : setCookieLineName (sessionCookie config accessTokenCookieKey [] 0
      (str "accessTokenPath")).String = some (str "sAccessToken") :=
    setCookieLineName_String _ hva
  have hpair := (cleared_cookie_text config accessTokenCookieKey (str "accessTokenPath") hva).1
  have hne : str "sAccessToken =stale; Path=/"
      ≠ (sessionCookie config accessTokenCookieKey [] 0 (str "accessTokenPath")).String := by
    intro hc
    have hc1 := congrArg getCookieName hc
    rw [hna] at hc1
    have hns : getCookieName (str "sAccessToken =stale; Path=/") = str "sAccessToken " := by
      decide
    rw [hns] at hc1
    exact hsa hc1
  refine ⟨hmem1, hmem2, hn1, hn2, by decide, hpair, ?_, by decide, ?_⟩
  · rw [List.countP_eq_length_filter]
    refine two_le_length_of_mem (List.mem_filter.mpr ⟨hmem1, ?_⟩)
      (List.mem_filter.mpr ⟨hmem2, ?_⟩) hne
    · rw [hn1]
      simp
    · rw [hn2]
      simp
  · simp only [getToken, getCookieNameFromTokenType, if_true]
    unfold getCookieValue
    rw [clearSessionFromAll_spaced_cookies]
    rfl

end Supertokens
